import Mathlib

/-!
Verification development for the AssetManagement reservation engine
(`asset_management/AssetMan.py` and `services/rental_service.py`).

Shallow embedding conventions:
* dates are `Int` (days); `date.today()` becomes an explicit `today : Int`
  parameter and `datetime.now()` an explicit `now : Int` parameter;
* money (`Numeric` columns, Python floats) is `Rat`;
* SQL rows become Lean structures mirroring `models/asset_models.py`;
  nullable columns become `Option`, `NOT NULL` columns plain values;
* Python dicts keyed by strings become association lists;
* an HTTP 400/404 `HTTPException` becomes `Except.error` with a structured
  error kind taken from the message; raising mid-handler rolls the
  transaction back, so an erroring operation leaves the state unchanged;
* the serialized line-item lifecycle JSON is abstracted to its
  current-state projection (`state`) plus the structured `deficit` flag
  that `_allocate_reservation_lines` stores in the payload extras.
-/

namespace AssetMan

/-- Error kinds of the engine, from the `HTTPException` messages raised in
`AssetMan.py`. -/
inductive EngineError where
  | notFound
  | invalidTransition (src tgt : String)
  | invalidState (msg : String)
  | missingReason
  | validation (msg : String)
deriving DecidableEq, Repr

instance {ε α : Type} [DecidableEq ε] [DecidableEq α] : DecidableEq (Except ε α) :=
  fun a b =>
    match a, b with
    | Except.error e1, Except.error e2 =>
      if h : e1 = e2 then Decidable.isTrue (by rw [h])
      else Decidable.isFalse (fun hh => by cases hh; exact h rfl)
    | Except.ok v1, Except.ok v2 =>
      if h : v1 = v2 then Decidable.isTrue (by rw [h])
      else Decidable.isFalse (fun hh => by cases hh; exact h rfl)
    | Except.error _, Except.ok _ => Decidable.isFalse (fun hh => by cases hh)
    | Except.ok _, Except.error _ => Decidable.isFalse (fun hh => by cases hh)

/-- `STATE_ALIASES` from `AssetMan.py`. -/
def stateAliases : List (String × String) :=
  [("Pending", "Reserved"), ("Approved", "Reserved")]

/-- `RESERVATION_STATES`. -/
def reservationStates : List String :=
  ["Offer", "Reserved", "Active", "Overdue", "Returned", "Closed"]

/-- `TERMINAL_STATES`. -/
def terminalStates : List String := ["Closed", "Cancelled", "Lost"]

/-- `BLOCKING_STATES`. -/
def blockingStates : List String := ["Reserved", "Active", "Overdue"]

/-- `STATE_TRANSITIONS`: the legal-transition table. -/
def stateTransitions : List (String × List String) :=
  [ ("Offer", ["Reserved", "Closed"])
  , ("Reserved", ["Active", "Closed"])
  , ("Active", ["Overdue", "Returned", "Closed"])
  , ("Overdue", ["Active", "Returned", "Closed"])
  , ("Returned", ["Closed"])
  , ("Closed", []) ]

/-- Association-list lookup, mirroring Python `dict.get(k, default)`. -/
def dictGetD (d : List (String × α)) (k : String) (dflt : α) : α :=
  match d.find? (fun p => p.1 = k) with
  | some p => p.2
  | none => dflt

/-- Python `str.strip()` on a character list: drop whitespace from both ends. -/
def stripChars (l : List Char) : List Char :=
  ((l.dropWhile Char.isWhitespace).reverse.dropWhile Char.isWhitespace).reverse

/-- Python `str.strip()` (structurally recursive, unlike `String.trim`). -/
def stripString (s : String) : String :=
  String.mk (stripChars s.data)

/-- `_normalize_state`: `(raw or "Reserved").strip()` then alias lookup.
The empty string is falsy in Python, hence the `""` case. -/
def normalizeState (raw : String) : String :=
  let base := if raw = "" then "Reserved" else raw
  let state := stripString base
  dictGetD stateAliases state state

/-- Targets allowed from a (normalized) source state by `STATE_TRANSITIONS`;
`none` when the source is not a key of the table. -/
def transitionTargets (src : String) : Option (List String) :=
  match stateTransitions.find? (fun p => p.1 = src) with
  | some p => some p.2
  | none => none

/-- Whether `(src, tgt)` is a pair listed in the legal-transition table. -/
def allowedTransition (src tgt : String) : Bool :=
  match transitionTargets src with
  | some tgts => tgts.contains tgt
  | none => false

/-- `_transition_state`, as a function from the raw stored status and the
requested target to the new raw status. The early `if target == current:
return` leaves the stored status untouched. -/
def transitionState (rawStatus targetState : String) : Except EngineError String :=
  let current := normalizeState rawStatus
  let target := normalizeState targetState
  if target = current then
    Except.ok rawStatus
  else if allowedTransition current target then
    Except.ok target
  else
    Except.error (EngineError.invalidTransition current target)

/-- `known_states = set(STATE_ALIASES.values()) | RESERVATION_STATES |
TERMINAL_STATES` in `_apply_runtime_state`. -/
def knownStates : List String :=
  (stateAliases.map (fun p => p.2)) ++ reservationStates ++ terminalStates

/-! ## Data model (`models/asset_models.py`)

Only the columns the reservation engine reads are embedded. Identity
columns are `Nat` (the DB assigns ids starting at 1, so Python truthiness
of an id coincides with `Option.isSome` in the embedding). -/

/-- `ToolInstance` row. -/
structure ToolInstance where
  toolInstanceID : Nat
  toolID : Nat
  serialNumber : String
  status : String
  requiresCertification : Bool
  nextCalibration : Option Int
deriving DecidableEq, Repr

/-- `Tool` row (catalog fields the engine reads). -/
structure Tool where
  toolID : Nat
  status : String
  dailyRentalCost : Option Rat
  purchaseCost : Option Rat
  currentValue : Option Rat
deriving DecidableEq, Repr

/-- `RentalItem` row. `state` is the current-state projection of the
lifecycle payload serialized into `ReturnNotes`; `deficit` is the
structured `deficit` flag stored in the payload extras by
`_allocate_reservation_lines`. -/
structure RentalItem where
  rentalItemID : Nat
  toolID : Nat
  toolInstanceID : Option Nat
  quantity : Int
  dailyCost : Option Rat
  totalCost : Option Rat
  state : String
  deficit : Bool
deriving DecidableEq, Repr

/-- `Rental` row with its line items (`RentalItems` relationship).
`StartDate`/`EndDate` are `NOT NULL` columns, hence plain `Int`. -/
structure Rental where
  rentalID : Nat
  status : String
  startDate : Int
  endDate : Int
  actualStart : Option Int
  actualEnd : Option Int
  totalCost : Option Rat
  approvedBy : Option Nat
  approvalDate : Option Int
  lossAmount : Option Rat
  lossReason : Option String
  lossCalculatedAt : Option Int
  returnCondition : Option String
  notes : String
  updatedAt : Int
  items : List RentalItem
deriving DecidableEq, Repr

/-- `NotificationQueue` row (the fields the engine writes). -/
structure Notification where
  rentalID : Nat
  notificationType : String
deriving DecidableEq, Repr

/-- `AuditLog` row (the fields the engine writes). -/
structure AuditEntry where
  entityType : String
  entityID : Nat
  action : String
deriving DecidableEq, Repr

/-- The persistent store visible to the engine, plus id counters standing
in for the DB identity columns. -/
structure EngineState where
  tools : List Tool
  instances : List ToolInstance
  rentals : List Rental
  notifications : List Notification
  audits : List AuditEntry
  nextRentalID : Nat
  nextItemID : Nat
deriving DecidableEq, Repr

instance : Inhabited EngineState := ⟨⟨[], [], [], [], [], 1, 1⟩⟩

/-- `db.get(Rental, rid)` / the `select ... where RentalID == rid` queries. -/
def findRental (s : EngineState) (rid : Nat) : Option Rental :=
  s.rentals.find? (fun r => r.rentalID = rid)

/-- `db.get(ToolInstance, iid)`. -/
def findInstance (s : EngineState) (iid : Nat) : Option ToolInstance :=
  s.instances.find? (fun i => i.toolInstanceID = iid)

/-- `db.get(Tool, tid)`. -/
def findTool (s : EngineState) (tid : Nat) : Option Tool :=
  s.tools.find? (fun t => t.toolID = tid)

/-- Persist a mutated rental row (keyed by `RentalID`). -/
def updateRentalIn (s : EngineState) (r' : Rental) : EngineState :=
  { s with rentals := s.rentals.map (fun r => if r.rentalID = r'.rentalID then r' else r) }

/-- `instance.Status = st` persisted (keyed by `ToolInstanceID`). -/
def setInstanceStatus (s : EngineState) (iid : Nat) (st : String) : EngineState :=
  { s with instances :=
      s.instances.map (fun i => if i.toolInstanceID = iid then { i with status := st } else i) }

/-- `tool.Status = st` persisted (degraded fallback in `apply_return_updates`). -/
def setToolStatus (s : EngineState) (tid : Nat) (st : String) : EngineState :=
  { s with tools :=
      s.tools.map (fun t => if t.toolID = tid then { t with status := st } else t) }

/-- `_apply_runtime_state`: read-time `Active → Overdue` promotion, then
normalization of known states. The promotion also touches `UpdatedDate`;
the normalization branch does not. -/
def applyRuntimeState (r : Rental) (today now : Int) : Rental :=
  let current := normalizeState r.status
  if current = "Active" ∧ r.endDate < today then
    { r with status := "Overdue", updatedAt := now }
  else if knownStates.contains current then
    { r with status := current }
  else r

/-! ## Instance Availability Resolver and Allocation Ranker -/

/-- One row of the `_has_instance_overlap` query result, already folded:
does any blocking-state rental whose dates overlap the window reference
the instance (excluding `exclude_rental_id` when given)? -/
def hasInstanceOverlap (s : EngineState) (toolInstanceId : Nat)
    (startDate endDate : Int) (excludeRentalId : Option Nat) : Bool :=
  s.rentals.any (fun r =>
    (match excludeRentalId with
     | some rid => r.rentalID ≠ rid
     | none => true) &&
    r.startDate ≤ endDate && startDate ≤ r.endDate &&
    blockingStates.contains (normalizeState r.status) &&
    r.items.any (fun it => it.toolInstanceID = some toolInstanceId))

/-- The `busy_ids` computation of `_get_available_instances`: instance ids
referenced by a line item of the same tool type on a date-overlapping
rental whose normalized status is blocking. -/
def instanceBusy (s : EngineState) (toolId : Nat) (startDate endDate : Int)
    (iid : Nat) : Bool :=
  s.rentals.any (fun r =>
    r.startDate ≤ endDate && startDate ≤ r.endDate &&
    blockingStates.contains (normalizeState r.status) &&
    r.items.any (fun it => it.toolID = toolId && it.toolInstanceID = some iid))

/-- Lexicographic order on character lists (structurally recursive, unlike
`String.ltb`, so that concrete states evaluate). -/
def charListLE : List Char → List Char → Bool
  | [], _ => true
  | _ :: _, [] => false
  | a :: as, b :: bs => if a = b then charListLE as bs else decide (a < b)

/-- The `ORDER BY SerialNumber` string collation. -/
def stringLE (a b : String) : Bool :=
  charListLE a.data b.data

/-- The per-instance certification filter of `_get_available_instances`:
`RequiresCertification` and (`NextCalibration` missing or before the
window end) excludes the instance. -/
def certExcluded (i : ToolInstance) (endDate : Int) : Bool :=
  i.requiresCertification &&
    (match i.nextCalibration with
     | none => true
     | some d => d < endDate)

/-- `_get_available_instances`: `Available`-status instances of the tool,
ordered by serial number, minus busy, excluded and certification-expired
ones. -/
def getAvailableInstances (s : EngineState) (toolId : Nat)
    (startDate endDate : Int) (excludeInstanceIds : List Nat) : List ToolInstance :=
  let instances :=
    List.insertionSort (fun a b => stringLE a.serialNumber b.serialNumber = true)
      (s.instances.filter (fun i => i.toolID = toolId && i.status = "Available"))
  instances.filter (fun i =>
    !(instanceBusy s toolId startDate endDate i.toolInstanceID) &&
    !(excludeInstanceIds.contains i.toolInstanceID) &&
    !(certExcluded i endDate))

/-- The `days_by_instance` accumulation of `_rank_instances_for_allocation`:
total `max(1, days)` over line items of the tool on non-`Offer` (raw
status) rentals that reference the instance. -/
def usageDays (s : EngineState) (toolId iid : Nat) : Int :=
  (s.rentals.map (fun r =>
    if r.status ≠ "Offer" then
      ((r.items.filter (fun it =>
          it.toolID = toolId && it.toolInstanceID = some iid)).map
        (fun _ => max 1 (r.endDate - r.startDate))).sum
    else 0)).sum

/-- The sort key order of `_rank_instances_for_allocation`:
`key=lambda iid: (-days, iid)`. -/
def rankLE (s : EngineState) (toolId : Nat) (a b : Nat) : Prop :=
  usageDays s toolId a > usageDays s toolId b ∨
    (usageDays s toolId a = usageDays s toolId b ∧ a ≤ b)

instance (s : EngineState) (toolId : Nat) : DecidableRel (rankLE s toolId) := by
  intro a b
  unfold rankLE
  infer_instance

/-- `_rank_instances_for_allocation`: sort candidates by descending usage,
ascending id tie-break. -/
def rankInstancesForAllocation (s : EngineState) (toolId : Nat)
    (candidates : List Nat) : List Nat :=
  if candidates = [] then []
  else List.insertionSort (rankLE s toolId) candidates

/-! ## Shared service helpers (`services/rental_service.py`) -/

/-- Python `x or d` on an optional number: `None` and `0` both fall back. -/
def orRat (a : Option Rat) (d : Rat) : Rat :=
  match a with
  | some v => if v = 0 then d else v
  | none => d

/-- Python `s or d` on an optional string: `None` and `""` both fall back. -/
def orStr (a : Option String) (d : String) : String :=
  match a with
  | some v => if v = "" then d else v
  | none => d

/-- One line's `DailyCost * rental_days * Quantity` in `recalc_total_cost`. -/
def lineTotalCost (rentalDays : Int) (it : RentalItem) : Rat :=
  orRat it.dailyCost 0 * (rentalDays : Rat) * (it.quantity : Rat)

/-- `recalc_total_cost`: `total = Σ dailyCost * max(1, days) * quantity`;
zero lines gives total 0 (and leaves item totals untouched). -/
def recalcTotalCost (r : Rental) : Rental :=
  if r.items = [] then { r with totalCost := some 0 }
  else
    let rentalDays := max 1 (r.endDate - r.startDate)
    { r with
      items := r.items.map (fun it => { it with totalCost := some (lineTotalCost rentalDays it) }),
      totalCost := some ((r.items.map (lineTotalCost rentalDays)).sum) }

/-- Recalculate and persist one rental's costs. -/
def recalcRentalIn (s : EngineState) (rid : Nat) : EngineState :=
  match findRental s rid with
  | none => s
  | some r => updateRentalIn s (recalcTotalCost r)

/-- `apply_return_updates`: set `Returned`, stamp actual end and condition,
append notes, release every bound instance to `Available` and, for unbound
lines, mark the tool itself `Available` (degraded fallback). -/
def applyReturnUpdates (s : EngineState) (r : Rental) (returnCondition : Option String)
    (returnNotes : Option String) (today now : Int) : EngineState :=
  let notes' :=
    match returnNotes with
    | some n => (if r.notes = "" then "" else r.notes ++ "\n") ++ n
    | none => r.notes
  let r' := { r with status := "Returned", actualEnd := some today,
                     returnCondition := returnCondition, updatedAt := now, notes := notes' }
  let s1 := updateRentalIn s r'
  r'.items.foldl
    (fun sAcc it =>
      match it.toolInstanceID with
      | some iid => setInstanceStatus sAcc iid "Available"
      | none => setToolStatus sAcc it.toolID "Available")
    s1

/-! ## Engine operation helpers (`AssetMan.py`) -/

/-- `_transition_state` acting on a rental row: no-op when the normalized
target equals the normalized source, otherwise table-checked. -/
def transitionRental (r : Rental) (targetState : String) (now : Int) :
    Except EngineError Rental :=
  let current := normalizeState r.status
  let target := normalizeState targetState
  if target = current then Except.ok r
  else if allowedTransition current target then
    Except.ok { r with status := target, updatedAt := now }
  else Except.error (EngineError.invalidTransition current target)

/-- `_release_reserved_instances`: bound instances currently `Reserved` or
`Rented` go back to `Available`. -/
def releaseReservedInstances (s : EngineState) (r : Rental) : EngineState :=
  r.items.foldl
    (fun sAcc it =>
      match it.toolInstanceID with
      | none => sAcc
      | some iid =>
        match findInstance sAcc iid with
        | none => sAcc
        | some inst =>
          if inst.status = "Reserved" ∨ inst.status = "Rented" then
            setInstanceStatus sAcc iid "Available"
          else sAcc)
    s

/-- `_rental_has_open_quantity`. -/
def rentalHasOpenQuantity (r : Rental) : Bool :=
  r.items.any (fun it => 0 < it.quantity)

/-- `_resolve_tool_daily_cost`: first line of the tool with a non-`None`
daily cost, else 0. -/
def resolveToolDailyCost (items : List RentalItem) (toolId : Nat) : Rat :=
  match items.find? (fun l => l.toolID = toolId && l.dailyCost.isSome) with
  | some l => l.dailyCost.getD 0
  | none => 0

/-- `db.add(RentalItem(...))` on a loaded rental: append the line and burn
one identity value. -/
def addItem (s : EngineState) (rid : Nat) (it : RentalItem) : EngineState :=
  { s with
    rentals := s.rentals.map (fun r =>
      if r.rentalID = rid then { r with items := r.items ++ [it] } else r),
    nextItemID := s.nextItemID + 1 }

/-- `_validate_manual_instance`. -/
def validateManualInstance (s : EngineState) (toolId iid : Nat)
    (startDate endDate : Int) : Except EngineError ToolInstance :=
  match findInstance s iid with
  | none => Except.error (EngineError.validation "Invalid tool instance selected.")
  | some inst =>
    if inst.toolID ≠ toolId then
      Except.error (EngineError.validation "Invalid tool instance selected.")
    else if inst.status ≠ "Available" then
      Except.error (EngineError.validation "Selected tool instance is not available.")
    else if certExcluded inst endDate then
      Except.error (EngineError.validation "Selected tool instance expires before rental end.")
    else if hasInstanceOverlap s iid startDate endDate none then
      Except.error (EngineError.validation "Selected tool instance overlaps existing reservation.")
    else Except.ok inst

/-- Shortage action supplied with an approve decision. -/
structure ShortageAction where
  rentalItemID : Nat
  action : String
deriving DecidableEq, Repr

/-- `_apply_shortage_actions`: `exclude` zeroes the line; every actioned
line gets its lifecycle state updated. A Python dict comprehension keeps
the last entry per key, hence the reversed lookup. -/
def applyShortageActions (r : Rental) (acts : List ShortageAction) : Rental :=
  if acts = [] then r
  else
    { r with items := r.items.map (fun line =>
        match acts.reverse.find? (fun a => a.rentalItemID = line.rentalItemID) with
        | none => line
        | some a =>
          if a.action = "exclude" then
            { line with quantity := 0, state := "Excluded from Order" }
          else
            { line with state := "Shortage Action Set" }) }

/-- One instance assignment inside `_allocate_reservation_lines`: mark the
instance `Reserved` and append a quantity-1 bound line in lifecycle state
`Reserved`. -/
def bindReservedInstance (s : EngineState) (rid toolId iid : Nat) : EngineState :=
  match findRental s rid with
  | none => s
  | some rental =>
    let s1 := setInstanceStatus s iid "Reserved"
    addItem s1 rid
      { rentalItemID := s1.nextItemID, toolID := toolId, toolInstanceID := some iid,
        quantity := 1, dailyCost := some (resolveToolDailyCost rental.items toolId),
        totalCost := none, state := "Reserved", deficit := false }

/-- Bind the ranked selection one id at a time (the inner `for` loop). -/
def bindSelected (s : EngineState) (rid toolId : Nat) : List Nat → EngineState
  | [] => s
  | iid :: rest => bindSelected (bindReservedInstance s rid toolId iid) rid toolId rest

/-- The deficit line appended for unmet quantity: unbound, quantity equal
to the shortage, lifecycle `Pending Pickup`, flagged deficit. -/
def addShortageLine (s : EngineState) (rid toolId : Nat) (shortageQty : Int) : EngineState :=
  match findRental s rid with
  | none => s
  | some rental =>
    addItem s rid
      { rentalItemID := s.nextItemID, toolID := toolId, toolInstanceID := none,
        quantity := shortageQty, dailyCost := some (resolveToolDailyCost rental.items toolId),
        totalCost := none, state := "Pending Pickup", deficit := true }

/-- One tool's turn in `_allocate_reservation_lines`: query availability,
rank, take up to the requested count, bind each, then record any deficit. -/
def allocateTool (s : EngineState) (rid toolId : Nat) (qty : Int) : EngineState :=
  if qty ≤ 0 then s
  else
    match findRental s rid with
    | none => s
    | some rental =>
      let avail := getAvailableInstances s toolId rental.startDate rental.endDate []
      let ranked := rankInstancesForAllocation s toolId (avail.map (fun i => i.toolInstanceID))
      let selected := ranked.take qty.toNat
      let s1 := bindSelected s rid toolId selected
      let shortageQty := max 0 (qty - selected.length)
      if 0 < shortageQty then addShortageLine s1 rid toolId shortageQty else s1

/-- First-occurrence order of dict keys built by repeated insertion. -/
def dedupFirst (l : List Nat) : List Nat :=
  l.foldl (fun acc t => if acc.contains t then acc else acc ++ [t]) []

/-- `_allocate_reservation_lines`: group outstanding quantity by tool in
first-occurrence order, allocate per tool, then zero the original request
lines and mark them `Superseded`. -/
def allocateReservationLines (s : EngineState) (rid : Nat) : EngineState :=
  match findRental s rid with
  | none => s
  | some rental =>
    let requestLines := rental.items.filter (fun l => 0 < l.quantity)
    let requestLineIds := requestLines.map (fun l => l.rentalItemID)
    let toolOrder := dedupFirst (requestLines.map (fun l => l.toolID))
    let s1 := toolOrder.foldl
      (fun sAcc t =>
        allocateTool sAcc rid t
          (((requestLines.filter (fun l => l.toolID = t)).map (fun l => l.quantity)).sum))
      s
    match findRental s1 rid with
    | none => s1
    | some rental1 =>
      updateRentalIn s1
        { rental1 with items := rental1.items.map (fun l =>
            if requestLineIds.contains l.rentalItemID then
              { l with quantity := 0, state := "Superseded" }
            else l) }

/-! ## Engine operations (the HTTP handlers of `AssetMan.py`) -/

/-- One requested line of `CreateRentalDto`. -/
structure CreateLine where
  toolID : Nat
  toolInstanceID : Option Nat
  quantity : Int
  dailyCost : Option Rat
  assignmentMode : Option String
deriving DecidableEq, Repr

/-- The per-line loop of `create_rental`: tool lookup, cost snapshot,
quantity clamp (`max(1, int(quantity or 1))`), assignment-mode validation
and the initial lifecycle state. Lines always start unbound. -/
def buildCreateItems (s : EngineState) (initialStatus : String) (nextId : Nat) :
    List CreateLine → Except EngineError (List RentalItem × Nat)
  | [] => Except.ok ([], nextId)
  | line :: rest =>
    match findTool s line.toolID with
    | none => Except.error (EngineError.validation "Tool not found.")
    | some tool =>
      let snapshotDailyCost :=
        match line.dailyCost with
        | some c => c
        | none => orRat tool.dailyRentalCost 0
      let requestedQuantity := max 1 (if line.quantity = 0 then 1 else line.quantity)
      let assignmentMode :=
        orStr line.assignmentMode (if line.toolInstanceID.isSome then "manual" else "auto")
      if assignmentMode ≠ "auto" ∧ assignmentMode ≠ "manual" then
        Except.error (EngineError.validation "assignmentMode must be auto or manual.")
      else
        let requestState := if initialStatus = "Offer" then "Offer" else "Pending Approval"
        let item : RentalItem :=
          { rentalItemID := nextId, toolID := line.toolID, toolInstanceID := none,
            quantity := requestedQuantity, dailyCost := some snapshotDailyCost,
            totalCost := none, state := requestState, deficit := false }
        match buildCreateItems s initialStatus (nextId + 1) rest with
        | Except.error e => Except.error e
        | Except.ok (items, nid) => Except.ok (item :: items, nid)

/-- `create_rental` (employee resolution is an external collaborator and is
not modeled). Returns the new state and the created rental's id. -/
def createRental (s : EngineState) (status : Option String) (startDate endDate : Int)
    (lines : List CreateLine) (now : Int) : Except EngineError (EngineState × Nat) :=
  if endDate < startDate then
    Except.error (EngineError.validation "endDate must be on or after startDate.")
  else
    let initialStatus := normalizeState (status.getD "")
    if initialStatus ≠ "Offer" ∧ initialStatus ≠ "Reserved" then
      Except.error (EngineError.validation "Initial status must be Offer or Reserved.")
    else
      match buildCreateItems s initialStatus s.nextItemID lines with
      | Except.error e => Except.error e
      | Except.ok (items, nextItem) =>
        let rental : Rental :=
          recalcTotalCost
            { rentalID := s.nextRentalID, status := initialStatus,
              startDate := startDate, endDate := endDate,
              actualStart := none, actualEnd := none, totalCost := none,
              approvedBy := none, approvalDate := none,
              lossAmount := none, lossReason := none, lossCalculatedAt := none,
              returnCondition := none, notes := "", updatedAt := now, items := items }
        let s1 :=
          { s with rentals := s.rentals ++ [rental],
                   nextRentalID := s.nextRentalID + 1, nextItemID := nextItem,
                   audits := s.audits ++ [⟨"Rental", s.nextRentalID, "CreateRental"⟩] }
        Except.ok (s1, rental.rentalID)

/-- `decide_rental`: reject closes and releases, approve allocates. -/
def decideRental (s : EngineState) (rid : Nat) (decision : String)
    (reason : Option String) (shortageActions : List ShortageAction)
    (operator : Option Nat) (today now : Int) : Except EngineError EngineState :=
  match findRental s rid with
  | none => Except.error EngineError.notFound
  | some rental0 =>
    let rental := applyRuntimeState rental0 today now
    if rental.status ≠ "Reserved" then
      Except.error (EngineError.invalidState "Reservation is not pending decision.")
    else if decision = "reject" then
      let reasonText := stripString (reason.getD "")
      if reasonText = "" then Except.error EngineError.missingReason
      else
        match transitionRental rental "Closed" now with
        | Except.error e => Except.error e
        | Except.ok rental2 =>
          let rental3 :=
            { rental2 with
              notes := (if rental2.notes = "" then "" else rental2.notes ++ "\n") ++
                ("Rejected: " ++ reasonText),
              updatedAt := now }
          let s1 := updateRentalIn s rental3
          let s2 := releaseReservedInstances s1 rental3
          Except.ok
            { s2 with
              notifications := s2.notifications ++ [⟨rid, "ReservationRejected"⟩],
              audits := s2.audits ++ [⟨"Rental", rid, "Reject"⟩] }
    else
      let rental2 :=
        { rental with
          approvalDate := some (rental.approvalDate.getD today),
          approvedBy := operator, updatedAt := now }
      let rental3 := applyShortageActions rental2 shortageActions
      let s1 := updateRentalIn s rental3
      let s2 := allocateReservationLines s1 rid
      let s3 :=
        { s2 with notifications := s2.notifications ++ [⟨rid, "ReservationApproved"⟩] }
      let s4 := recalcRentalIn s3 rid
      Except.ok { s4 with audits := s4.audits ++ [⟨"Rental", rid, "ApproveReservation"⟩] }

/-- One marked line of `MarkItemsForRentalRequest`. -/
structure MarkItem where
  rentalItemID : Nat
  pickedQuantity : Int
  toolInstanceIDs : List Nat
deriving DecidableEq, Repr

/-- The per-id duplicate scan against `seen_instance_ids`. -/
def checkSeen (seen : List Nat) : List Nat → Except EngineError (List Nat)
  | [] => Except.ok seen
  | iid :: rest =>
    if seen.contains iid then
      Except.error (EngineError.validation "Duplicate instance ID across marked lines.")
    else checkSeen (seen ++ [iid]) rest

/-- The validation `for` loop over explicitly chosen instances. -/
def validateChosen (s : EngineState) (toolId : Nat) (startDate endDate : Int) :
    List Nat → Except EngineError Unit
  | [] => Except.ok ()
  | iid :: rest =>
    match validateManualInstance s toolId iid startDate endDate with
    | Except.error e => Except.error e
    | Except.ok _ => validateChosen s toolId startDate endDate rest

/-- The binding `for` loop over chosen instances: each becomes `In Rental`
with a fresh quantity-1 bound `Picked Up` line. -/
def bindChosen (s : EngineState) (rid toolId : Nat) (dailyCost : Option Rat) :
    List Nat → EngineState
  | [] => s
  | iid :: rest =>
    let s1 := setInstanceStatus s iid "In Rental"
    let s2 := addItem s1 rid
      { rentalItemID := s1.nextItemID, toolID := toolId, toolInstanceID := some iid,
        quantity := 1, dailyCost := dailyCost, totalCost := none,
        state := "Picked Up", deficit := false }
    bindChosen s2 rid toolId dailyCost rest

/-- Persist a mutated line of a loaded rental (keyed by `RentalItemID`). -/
def updateItemIn (s : EngineState) (rid : Nat) (it : RentalItem) : EngineState :=
  { s with rentals := s.rentals.map (fun r =>
      if r.rentalID = rid then
        { r with items := r.items.map (fun l =>
            if l.rentalItemID = it.rentalItemID then it else l) }
      else r) }

/-- The main loop of `mark_items_for_rental`, threading the session state,
the `picked_any` flag and `seen_instance_ids`. -/
def processMarks (s : EngineState) (rid : Nat) (pickedAny : Bool) (seen : List Nat) :
    List MarkItem → Except EngineError (EngineState × Bool)
  | [] => Except.ok (s, pickedAny)
  | mark :: rest =>
    match findRental s rid with
    | none => Except.error EngineError.notFound
    | some rental =>
      match rental.items.find? (fun l => l.rentalItemID = mark.rentalItemID) with
      | none => Except.error (EngineError.validation "RentalItem not found in rental.")
      | some line =>
        if line.quantity ≤ 0 then
          Except.error (EngineError.validation "RentalItem has no remaining quantity.")
        else
          let pickQty0 := max 0 mark.pickedQuantity
          let pickQty := if pickQty0 = 0 ∧ mark.toolInstanceIDs ≠ [] then
            (mark.toolInstanceIDs.length : Int) else pickQty0
          if pickQty ≤ 0 then
            Except.error (EngineError.validation "Invalid picked quantity.")
          else
            match line.toolInstanceID with
            | some iid =>
              if pickQty ≠ 1 then
                Except.error (EngineError.validation "Bound line can only pick quantity 1.")
              else
                let s1 := updateItemIn s rid { line with quantity := 0, state := "Picked Up" }
                let s2 := setInstanceStatus s1 iid "In Rental"
                processMarks s2 rid true seen rest
            | none =>
              let availableQty := line.quantity
              if availableQty < pickQty then
                Except.error (EngineError.validation "Picked quantity exceeds remaining.")
              else if ¬ mark.toolInstanceIDs.Nodup then
                Except.error (EngineError.validation "Duplicate instance IDs in line.")
              else if pickQty < (mark.toolInstanceIDs.length : Int) then
                Except.error (EngineError.validation "Too many instance IDs supplied.")
              else
                match checkSeen seen mark.toolInstanceIDs with
                | Except.error e => Except.error e
                | Except.ok seen2 =>
                  match validateChosen s line.toolID rental.startDate rental.endDate
                      mark.toolInstanceIDs with
                  | Except.error e => Except.error e
                  | Except.ok _ =>
                    let s1 := bindChosen s rid line.toolID line.dailyCost mark.toolInstanceIDs
                    let untrackedQty := pickQty - (mark.toolInstanceIDs.length : Int)
                    let s2 :=
                      if 0 < untrackedQty then
                        addItem s1 rid
                          { rentalItemID := s1.nextItemID, toolID := line.toolID,
                            toolInstanceID := none, quantity := untrackedQty,
                            dailyCost := line.dailyCost, totalCost := none,
                            state := "Picked Up", deficit := false }
                      else s1
                    let newQty := availableQty - pickQty
                    let s3 := updateItemIn s2 rid
                      { line with
                        quantity := newQty,
                        state := (if 0 < newQty then "Pending Pickup" else "Fulfilled") }
                    let pickedNow :=
                      pickedAny || !mark.toolInstanceIDs.isEmpty || decide (0 < untrackedQty)
                    processMarks s3 rid pickedNow seen2 rest

/-- `mark_items_for_rental` (pickup). -/
def markItemsForRental (s : EngineState) (rid : Nat) (marks : List MarkItem)
    (today now : Int) : Except EngineError EngineState :=
  match findRental s rid with
  | none => Except.error EngineError.notFound
  | some rental0 =>
    let rental := applyRuntimeState rental0 today now
    if ¬ (rental.status = "Reserved" ∨ rental.status = "Active" ∨ rental.status = "Overdue") then
      Except.error (EngineError.invalidState "Rental is not in a pickable state.")
    else if marks = [] then
      Except.error (EngineError.validation "No marked items supplied.")
    else
      match processMarks (updateRentalIn s rental) rid false [] marks with
      | Except.error e => Except.error e
      | Except.ok (s1, pickedAny) =>
        match findRental s1 rid with
        | none => Except.error EngineError.notFound
        | some rental1 =>
          match
            (if pickedAny ∧ normalizeState rental1.status = "Reserved" then
              (transitionRental rental1 "Active" now).map
                (fun r2 => { r2 with actualStart := some (r2.actualStart.getD today) })
            else Except.ok rental1) with
          | Except.error e => Except.error e
          | Except.ok rental2 =>
            let s2 := updateRentalIn s1 { rental2 with updatedAt := now }
            let s3 := recalcRentalIn s2 rid
            Except.ok { s3 with audits := s3.audits ++ [⟨"Rental", rid, "MarkItemsForRental"⟩] }

/-- One marked line of `ReceiveMarkedItemsRequest`. -/
structure ReceiveItem where
  rentalItemID : Nat
  returnedQuantity : Int
  notReturnedQuantity : Int
deriving DecidableEq, Repr

/-- The main loop of `receive_marked_items`. Bound lines with
`returned == 1` free their instance and zero out; bound lines with
`notReturned == 1` are marked without freeing; unbound lines split off a
new `Returned` line of the returned quantity, decrement by it, and land in
`Not Returned` / `Pending Pickup` / `Returned` as the spec describes. -/
def processReceives (s : EngineState) (rid : Nat) :
    List ReceiveItem → Except EngineError EngineState
  | [] => Except.ok s
  | mark :: rest =>
    match findRental s rid with
    | none => Except.error EngineError.notFound
    | some rental =>
      match rental.items.find? (fun l => l.rentalItemID = mark.rentalItemID) with
      | none => Except.error (EngineError.validation "RentalItem not found in rental.")
      | some line =>
        let remaining := line.quantity
        if remaining ≤ 0 then
          Except.error (EngineError.validation "RentalItem has no remaining quantity.")
        else
          let returnedQty := max 0 mark.returnedQuantity
          let notReturnedQty := max 0 mark.notReturnedQuantity
          if returnedQty + notReturnedQty ≤ 0 then
            Except.error (EngineError.validation "No quantities set for line.")
          else if remaining < returnedQty + notReturnedQty then
            Except.error
              (EngineError.validation "Returned+NotReturned exceeds remaining quantity on line.")
          else
            match line.toolInstanceID with
            | some iid =>
              if returnedQty = 1 then
                let s1 := setInstanceStatus s iid "Available"
                let s2 := updateItemIn s1 rid { line with quantity := 0, state := "Returned" }
                processReceives s2 rid rest
              else if notReturnedQty = 1 then
                processReceives (updateItemIn s rid { line with state := "Not Returned" }) rid rest
              else
                processReceives s rid rest
            | none =>
              let s1 :=
                if 0 < returnedQty then
                  addItem s rid
                    { rentalItemID := s.nextItemID, toolID := line.toolID,
                      toolInstanceID := none, quantity := returnedQty,
                      dailyCost := line.dailyCost, totalCost := none,
                      state := "Returned", deficit := false }
                else s
              let newQty := remaining - returnedQty
              let targetState :=
                if 0 < notReturnedQty then "Not Returned"
                else if 0 < newQty then "Pending Pickup"
                else "Returned"
              let s2 := updateItemIn s1 rid { line with quantity := newQty, state := targetState }
              processReceives s2 rid rest

/-- `receive_marked_items` (partial returns); auto-completes via the full
return path when no line keeps open quantity. -/
def receiveMarkedItems (s : EngineState) (rid : Nat) (marks : List ReceiveItem)
    (today now : Int) : Except EngineError EngineState :=
  match findRental s rid with
  | none => Except.error EngineError.notFound
  | some rental0 =>
    let rental := applyRuntimeState rental0 today now
    if ¬ (rental.status = "Active" ∨ rental.status = "Overdue") then
      Except.error (EngineError.invalidState "Rental is not in a receivable state.")
    else if marks = [] then
      Except.error (EngineError.validation "No marked items supplied.")
    else
      match processReceives (updateRentalIn s rental) rid marks with
      | Except.error e => Except.error e
      | Except.ok s1 =>
        match findRental s1 rid with
        | none => Except.error EngineError.notFound
        | some rental1 =>
          let rental2 := { rental1 with updatedAt := now }
          let s2 := updateRentalIn s1 rental2
          let s3 :=
            if ¬ rentalHasOpenQuantity rental2 then
              applyReturnUpdates s2 rental2 (some "Returned via marked items") none today now
            else s2
          let s4 := recalcRentalIn s3 rid
          Except.ok { s4 with audits := s4.audits ++ [⟨"Rental", rid, "ReceiveMarkedItems"⟩] }

/-- The per-item certification/overlap guard loop of `extend_rental`. -/
def checkExtendItems (s : EngineState) (rid : Nat) (startDate newEndDate : Int) :
    List RentalItem → Except EngineError Unit
  | [] => Except.ok ()
  | it :: rest =>
    let certBad :=
      match it.toolInstanceID with
      | none => false
      | some iid =>
        match findInstance s iid with
        | none => false
        | some inst => certExcluded inst newEndDate
    if certBad then
      Except.error (EngineError.validation "One or more items expire before the new end date.")
    else
      match it.toolInstanceID with
      | some iid =>
        if hasInstanceOverlap s iid startDate newEndDate (some rid) then
          Except.error
            (EngineError.validation "Tool instance is already reserved for that extension range.")
        else checkExtendItems s rid startDate newEndDate rest
      | none => checkExtendItems s rid startDate newEndDate rest

/-- `extend_rental`: `Active` only; every bound instance must satisfy
certification and must not overlap another blocking reservation in the
extended window. -/
def extendRental (s : EngineState) (rid : Nat) (newEndDate : Int)
    (today now : Int) : Except EngineError EngineState :=
  match findRental s rid with
  | none => Except.error EngineError.notFound
  | some rental0 =>
    let rental := applyRuntimeState rental0 today now
    if rental.status ≠ "Active" then
      Except.error (EngineError.invalidState "Could not extend rental.")
    else if newEndDate < rental.startDate then
      Except.error (EngineError.validation "newEndDate must be on or after StartDate.")
    else
      match checkExtendItems (updateRentalIn s rental) rid rental.startDate newEndDate
          rental.items with
      | Except.error e => Except.error e
      | Except.ok _ =>
        let rental2 := recalcTotalCost { rental with endDate := newEndDate, updatedAt := now }
        let s1 := updateRentalIn s rental2
        Except.ok { s1 with audits := s1.audits ++ [⟨"Rental", rid, "Extend"⟩] }

/-- `force_extend_rental`: any non-terminal state, no guards; demotes
`Overdue → Active` when the new end date is on/after today. -/
def forceExtendRental (s : EngineState) (rid : Nat) (newEndDate : Int)
    (today now : Int) : Except EngineError EngineState :=
  match findRental s rid with
  | none => Except.error EngineError.notFound
  | some rental0 =>
    let rental := applyRuntimeState rental0 today now
    if terminalStates.contains rental.status then
      Except.error (EngineError.invalidState "Cannot force-extend a terminal rental.")
    else if newEndDate < rental.startDate then
      Except.error (EngineError.validation "newEndDate must be on or after StartDate.")
    else
      let rental2 := { rental with endDate := newEndDate }
      match
        (if rental.status = "Overdue" ∧ today ≤ newEndDate then
          transitionRental rental2 "Active" now
        else Except.ok rental2) with
      | Except.error e => Except.error e
      | Except.ok rental3 =>
        let rental4 := recalcTotalCost { rental3 with updatedAt := now }
        let s1 := updateRentalIn s rental4
        Except.ok { s1 with audits := s1.audits ++ [⟨"Rental", rid, "ForceExtend"⟩] }

/-- `return_rental`: `Active`/`Overdue` only. -/
def returnRental (s : EngineState) (rid : Nat) (condition : Option String)
    (notes_ : Option String) (today now : Int) : Except EngineError EngineState :=
  match findRental s rid with
  | none => Except.error EngineError.notFound
  | some rental0 =>
    let rental := applyRuntimeState rental0 today now
    if ¬ (rental.status = "Active" ∨ rental.status = "Overdue") then
      Except.error (EngineError.invalidState "Could not process return.")
    else
      let s1 := applyReturnUpdates (updateRentalIn s rental) rental condition notes_ today now
      Except.ok { s1 with audits := s1.audits ++ [⟨"Rental", rid, "Return"⟩] }

/-- `force_return_rental`: any non-terminal state. -/
def forceReturnRental (s : EngineState) (rid : Nat) (condition : Option String)
    (notes_ : Option String) (today now : Int) : Except EngineError EngineState :=
  match findRental s rid with
  | none => Except.error EngineError.notFound
  | some rental0 =>
    let rental := applyRuntimeState rental0 today now
    if terminalStates.contains rental.status then
      Except.error (EngineError.invalidState "Cannot force-return a terminal rental.")
    else
      let s1 := applyReturnUpdates (updateRentalIn s rental) rental
        (some (orStr condition "Forced Return")) notes_ today now
      Except.ok { s1 with audits := s1.audits ++ [⟨"Rental", rid, "ForceReturn"⟩] }

/-- `decide_rental` invoked by `cancel_rental` for `Reserved` rentals. -/
def cancelRental (s : EngineState) (rid : Nat) (today now : Int) :
    Except EngineError EngineState :=
  match findRental s rid with
  | none => Except.error EngineError.notFound
  | some rental0 =>
    let rental := applyRuntimeState rental0 today now
    if rental.status = "Reserved" then
      decideRental s rid "reject" (some "Cancelled by warehouse dispatcher") [] none today now
    else if rental.status ≠ "Offer" then
      Except.error (EngineError.invalidState "Only Offer/Reserved rentals can be closed by cancel.")
    else
      match transitionRental rental "Closed" now with
      | Except.error e => Except.error e
      | Except.ok rental2 =>
        let s1 := updateRentalIn s { rental2 with updatedAt := now }
        Except.ok { s1 with audits := s1.audits ++ [⟨"Rental", rid, "Cancel"⟩] }

/-- The per-line loss of `mark_rental_lost`:
`max(value * 0.65, value - income)` with Python truthiness fallbacks
(`CurrentValue or PurchaseCost or 0`; `TotalCost or DailyCost * days * qty`).
The float literal `0.65` is idealized as the rational `65/100`. -/
def itemLoss (s : EngineState) (rentalDays : Int) (it : RentalItem) : Except EngineError Rat :=
  match findTool s it.toolID with
  | none => Except.error (EngineError.validation "Tool relationship missing.")
  | some tool =>
    let toolValue := orRat tool.currentValue (orRat tool.purchaseCost 0)
    let income := orRat it.totalCost (orRat it.dailyCost 0 * (rentalDays : Rat) * (it.quantity : Rat))
    Except.ok (max (toolValue * (65 / 100)) (toolValue - income))

/-- Sum of the per-line losses. -/
def totalLossOf (s : EngineState) (rentalDays : Int) :
    List RentalItem → Except EngineError Rat
  | [] => Except.ok 0
  | it :: rest =>
    match itemLoss s rentalDays it with
    | Except.error e => Except.error e
    | Except.ok l =>
      match totalLossOf s rentalDays rest with
      | Except.error e => Except.error e
      | Except.ok rest' => Except.ok (l + rest')

/-- `mark_rental_lost`: no state guard in the source; computes the loss,
stamps the loss metadata and sets the status to `Lost` directly. Releases
no instances. (A missing `Tool` relationship is a server crash in Python;
it is modeled as an error.) -/
def markRentalLost (s : EngineState) (rid : Nat) (now : Int) :
    Except EngineError EngineState :=
  match findRental s rid with
  | none => Except.error EngineError.notFound
  | some rental =>
    let rentalDays := max 1 (rental.endDate - rental.startDate)
    match totalLossOf s rentalDays rental.items with
    | Except.error e => Except.error e
    | Except.ok totalLoss =>
      let rental2 :=
        { rental with
          status := "Lost", lossAmount := some totalLoss,
          lossCalculatedAt := some now, lossReason := some "Not returned",
          updatedAt := now }
      let s1 := updateRentalIn s rental2
      Except.ok { s1 with audits := s1.audits ++ [⟨"Rental", rid, "MarkLost"⟩] }

/-- `get_rental`: the read that persists the runtime-state promotion. -/
def readRental (s : EngineState) (rid : Nat) (today now : Int) :
    Except EngineError EngineState :=
  match findRental s rid with
  | none => Except.error EngineError.notFound
  | some rental => Except.ok (updateRentalIn s (applyRuntimeState rental today now))

/-- `checkout_offer`: build a `Reserved` rental from the offer's lines
(auto assignment, `int(Quantity or 1)` quantities, snapshot costs), then
close the offer. -/
def checkoutOffer (s : EngineState) (rid : Nat) (startDate endDate : Int)
    (now : Int) : Except EngineError EngineState :=
  match findRental s rid with
  | none => Except.error EngineError.notFound
  | some offer =>
    if normalizeState offer.status ≠ "Offer" then Except.error EngineError.notFound
    else
      let lines := offer.items.map (fun it =>
        let q : Int := if it.quantity = 0 then 1 else it.quantity
        ({ toolID := it.toolID, toolInstanceID := none, quantity := q,
           dailyCost := some (orRat it.dailyCost 0),
           assignmentMode := some "auto" } : CreateLine))
      match createRental s (some "Reserved") startDate endDate lines now with
      | Except.error e => Except.error e
      | Except.ok (s1, _) =>
        match transitionRental offer "Closed" now with
        | Except.error e => Except.error e
        | Except.ok offer2 =>
          let s2 := updateRentalIn s1 { offer2 with updatedAt := now }
          Except.ok { s2 with audits := s2.audits ++ [⟨"Rental", rid, "OfferCheckout"⟩] }

/-- `_activate_rental` (kiosk lending): straight `Reserved → Active`, every
bound line marked `Picked Up` with its instance `In Rental`. -/
def activateRental (s : EngineState) (rid : Nat) (today now : Int) :
    Except EngineError EngineState :=
  match findRental s rid with
  | none => Except.error EngineError.notFound
  | some rental =>
    match transitionRental rental "Active" now with
    | Except.error e => Except.error e
    | Except.ok rental2 =>
      let rental3 :=
        { rental2 with
          approvalDate := some today,
          actualStart := some (rental2.actualStart.getD today), updatedAt := now,
          items := rental2.items.map (fun it =>
            if it.toolInstanceID.isSome then { it with state := "Picked Up" } else it) }
      let s1 := updateRentalIn s rental3
      let s2 := rental3.items.foldl
        (fun sAcc it =>
          match it.toolInstanceID with
          | some iid => setInstanceStatus sAcc iid "In Rental"
          | none => sAcc)
        s1
      Except.ok s2

/-- `kiosk_lend`: create a `Reserved` rental and activate it immediately
(credential checks are external collaborators and are not modeled). -/
def kioskLend (s : EngineState) (startDate endDate : Int) (lines : List CreateLine)
    (today now : Int) : Except EngineError EngineState :=
  if endDate < startDate then
    Except.error (EngineError.validation "endDate must be on or after startDate.")
  else if lines = [] then
    Except.error (EngineError.validation "No rental items supplied.")
  else
    match createRental s (some "Reserved") startDate endDate lines now with
    | Except.error e => Except.error e
    | Except.ok (s1, newRid) =>
      match activateRental s1 newRid today now with
      | Except.error e => Except.error e
      | Except.ok s2 =>
        Except.ok { s2 with audits := s2.audits ++ [⟨"Rental", newRid, "KioskLend"⟩] }

/-! ## The engine's operation alphabet and reachability -/

/-- One invocation of a rental-engine operation, with its request payload. -/
inductive EngineOp where
  | create (status : Option String) (startDate endDate : Int) (lines : List CreateLine)
  | decide (rid : Nat) (decision : String) (reason : Option String)
      (shortageActions : List ShortageAction) (operator : Option Nat)
  | checkout (rid : Nat) (startDate endDate : Int)
  | kiosk (startDate endDate : Int) (lines : List CreateLine)
  | markItems (rid : Nat) (marks : List MarkItem)
  | receive (rid : Nat) (marks : List ReceiveItem)
  | extend (rid : Nat) (newEndDate : Int)
  | forceExtend (rid : Nat) (newEndDate : Int)
  | cancel (rid : Nat)
  | returnOp (rid : Nat) (condition : Option String) (notes_ : Option String)
  | forceReturn (rid : Nat) (condition : Option String) (notes_ : Option String)
  | markLost (rid : Nat)
  | readRental (rid : Nat)
deriving DecidableEq, Repr

/-- Dispatch one operation at wall-clock `(today, now)`. -/
def step (s : EngineState) (op : EngineOp) (today now : Int) :
    Except EngineError EngineState :=
  match op with
  | EngineOp.create status startDate endDate lines =>
    (createRental s status startDate endDate lines now).map (fun p => p.1)
  | EngineOp.decide rid decision reason acts operator =>
    decideRental s rid decision reason acts operator today now
  | EngineOp.checkout rid startDate endDate => checkoutOffer s rid startDate endDate now
  | EngineOp.kiosk startDate endDate lines => kioskLend s startDate endDate lines today now
  | EngineOp.markItems rid marks => markItemsForRental s rid marks today now
  | EngineOp.receive rid marks => receiveMarkedItems s rid marks today now
  | EngineOp.extend rid newEndDate => extendRental s rid newEndDate today now
  | EngineOp.forceExtend rid newEndDate => forceExtendRental s rid newEndDate today now
  | EngineOp.cancel rid => cancelRental s rid today now
  | EngineOp.returnOp rid condition notes_ => returnRental s rid condition notes_ today now
  | EngineOp.forceReturn rid condition notes_ =>
    forceReturnRental s rid condition notes_ today now
  | EngineOp.markLost rid => markRentalLost s rid now
  | EngineOp.readRental rid => readRental s rid today now

/-- Run a list of timestamped operations, requiring each to succeed. -/
def runTrace (s : EngineState) : List (EngineOp × Int × Int) → Option EngineState
  | [] => some s
  | (op, today, now) :: rest =>
    match step s op today now with
    | Except.ok s' => runTrace s' rest
    | Except.error _ => none

/-- States reachable from `init` by successful engine operations whose ops
satisfy `P`. An erroring handler rolls its transaction back, so failed
invocations do not move the state. -/
inductive ReachableVia (P : EngineOp → Prop) (init : EngineState) : EngineState → Prop where
  | refl : ReachableVia P init init
  | step {s s' : EngineState} {op : EngineOp} {today now : Int} :
      ReachableVia P init s → P op → AssetMan.step s op today now = Except.ok s' →
      ReachableVia P init s'

/-- States reachable by arbitrary engine operations. -/
def Reachable (init s : EngineState) : Prop :=
  ReachableVia (fun _ => True) init s

/-- The operation filter of the amended C5: every engine operation except
`force_extend_rental`. -/
def notForceExtend : EngineOp → Prop
  | EngineOp.forceExtend _ _ => False
  | _ => True

instance (op : EngineOp) : Decidable (notForceExtend op) :=
  match op with
  | EngineOp.create _ _ _ _ => Decidable.isTrue True.intro
  | EngineOp.decide _ _ _ _ _ => Decidable.isTrue True.intro
  | EngineOp.checkout _ _ _ => Decidable.isTrue True.intro
  | EngineOp.kiosk _ _ _ => Decidable.isTrue True.intro
  | EngineOp.markItems _ _ => Decidable.isTrue True.intro
  | EngineOp.receive _ _ => Decidable.isTrue True.intro
  | EngineOp.extend _ _ => Decidable.isTrue True.intro
  | EngineOp.forceExtend _ _ => Decidable.isFalse (fun h => h)
  | EngineOp.cancel _ => Decidable.isTrue True.intro
  | EngineOp.returnOp _ _ _ => Decidable.isTrue True.intro
  | EngineOp.forceReturn _ _ _ => Decidable.isTrue True.intro
  | EngineOp.markLost _ => Decidable.isTrue True.intro
  | EngineOp.readRental _ => Decidable.isTrue True.intro

/-! ## Login guard (`_check_login_guard` / `_record_login_failure`)

Environment-configured constants at their defaults; `time.time()` values
are idealized as integer seconds. -/

/-- `AUTH_ATTEMPT_WINDOW_SECONDS` default. -/
def authAttemptWindowSeconds : Int := 300

/-- `AUTH_MAX_ATTEMPTS_PER_IP` default. -/
def authMaxAttemptsPerIp : Nat := 50

/-- `AUTH_MAX_ATTEMPTS_PER_ACCOUNT` default. -/
def authMaxAttemptsPerAccount : Nat := 8

/-- `AUTH_LOCKOUT_SECONDS` default. -/
def authLockoutSeconds : Int := 900

/-- The process-wide attempt tables guarded by `_AUTH_GUARD_LOCK`. -/
structure GuardState where
  attemptsByIp : List (String × List Int)
  attemptsByAccount : List (String × List Int)
  lockoutUntilByAccount : List (String × Int)
deriving DecidableEq, Repr

/-- Dict write (`d[k] = v`): update the key in place, or append it. -/
def dictSet (d : List (String × α)) (k : String) (v : α) : List (String × α) :=
  match d with
  | [] => [(k, v)]
  | p :: rest => if p.1 = k then (k, v) :: rest else p :: dictSet rest k v

/-- Dict entry lookup returning `Option` (`d.get(k)`). -/
def dictFind (d : List (String × α)) (k : String) : Option α :=
  (d.find? (fun p => p.1 = k)).map (fun p => p.2)

/-- Dict removal (`d.pop(k, None)`). -/
def dictPop (d : List (String × α)) (k : String) : List (String × α) :=
  d.filter (fun p => p.1 ≠ k)

/-- `_prune_attempts`: keep timestamps inside the sliding window. -/
def pruneAttempts (attempts : List Int) (nowTs : Int) : List Int :=
  attempts.filter (fun ts => nowTs - max authAttemptWindowSeconds 1 ≤ ts)

/-- `_check_login_guard`: returns the retry-after seconds when blocked
(`none` when the attempt may proceed) and the updated tables. -/
def checkLoginGuard (g : GuardState) (clientIp accountKey : String) (nowTs : Int) :
    Option Int × GuardState :=
  match dictFind g.lockoutUntilByAccount accountKey with
  | some lockoutUntil =>
    if nowTs < lockoutUntil then (some (max 1 (lockoutUntil - nowTs)), g)
    else
      checkGuardTables
        { g with lockoutUntilByAccount := dictPop g.lockoutUntilByAccount accountKey }
        clientIp accountKey nowTs
  | none => checkGuardTables g clientIp accountKey nowTs
where
  /-- The threshold checks after any expired lockout was dropped. -/
  checkGuardTables (g : GuardState) (clientIp accountKey : String) (nowTs : Int) :
      Option Int × GuardState :=
    let ipAttempts := pruneAttempts ((dictFind g.attemptsByIp clientIp).getD []) nowTs
    let accountAttempts :=
      pruneAttempts ((dictFind g.attemptsByAccount accountKey).getD []) nowTs
    let g1 :=
      { g with
        attemptsByIp := dictSet g.attemptsByIp clientIp ipAttempts,
        attemptsByAccount := dictSet g.attemptsByAccount accountKey accountAttempts }
    if max authMaxAttemptsPerIp 1 ≤ ipAttempts.length then
      match ipAttempts.head? with
      | some oldest => (some (max 1 (oldest + authAttemptWindowSeconds - nowTs)), g1)
      | none => (some 1, g1)
    else if max authMaxAttemptsPerAccount 1 ≤ accountAttempts.length then
      (some (max authLockoutSeconds 1),
        { g1 with
          lockoutUntilByAccount :=
            dictSet g1.lockoutUntilByAccount accountKey (nowTs + max authLockoutSeconds 1) })
    else (none, g1)

/-- `_record_login_failure`: prune, append the failure, escalate to a
lockout at the per-account threshold. -/
def recordLoginFailure (g : GuardState) (clientIp accountKey : String) (nowTs : Int) :
    GuardState :=
  let ipAttempts :=
    pruneAttempts ((dictFind g.attemptsByIp clientIp).getD []) nowTs ++ [nowTs]
  let accountAttempts :=
    pruneAttempts ((dictFind g.attemptsByAccount accountKey).getD []) nowTs ++ [nowTs]
  let g1 :=
    { g with
      attemptsByIp := dictSet g.attemptsByIp clientIp ipAttempts,
      attemptsByAccount := dictSet g.attemptsByAccount accountKey accountAttempts }
  if max authMaxAttemptsPerAccount 1 ≤ accountAttempts.length then
    { g1 with
      lockoutUntilByAccount :=
        dictSet g1.lockoutUntilByAccount accountKey (nowTs + max authLockoutSeconds 1) }
  else g1

/-! ## Concrete states used by witnesses and counterexamples -/

/-- An `Active` rental one day past its end date (no lines). -/
def witnessOverdueRental : Rental :=
  { rentalID := 1, status := "Active", startDate := 0, endDate := 10,
    actualStart := none, actualEnd := none, totalCost := none,
    approvedBy := none, approvalDate := none, lossAmount := none,
    lossReason := none, lossCalculatedAt := none, returnCondition := none,
    notes := "", updatedAt := 0, items := [] }

/-- A rental stored under the legacy `Pending` alias. -/
def witnessPendingRental : Rental :=
  { witnessOverdueRental with status := "Pending", endDate := 99 }

/-- Guard tables after nine failed logins for one account (times 0..8,
all inside the attempt window). -/
def witnessGuard9 : GuardState :=
  (List.range 9).foldl
    (fun g i => recordLoginFailure g "ip" "user" (i : Int))
    { attemptsByIp := [], attemptsByAccount := [], lockoutUntilByAccount := [] }

/-- A rental with one bound quantity-1 line, used to build usage history. -/
def usageRental (rid iid : Nat) (startD endD : Int) : Rental :=
  { rentalID := rid, status := "Active", startDate := startD, endDate := endD,
    actualStart := none, actualEnd := none, totalCost := none,
    approvedBy := none, approvalDate := none, lossAmount := none,
    lossReason := none, lossCalculatedAt := none, returnCondition := none,
    notes := "", updatedAt := 0,
    items := [{ rentalItemID := rid, toolID := 1, toolInstanceID := some iid,
                quantity := 1, dailyCost := none, totalCost := none,
                state := "Picked Up", deficit := false }] }

/-- Usage history giving instances 1, 2, 3 of tool 1 usages 10, 3, 10. -/
def witnessRankState : EngineState :=
  { tools := [], instances := [], notifications := [], audits := [],
    rentals := [usageRental 1 1 0 10, usageRental 2 2 0 3, usageRental 3 3 0 10],
    nextRentalID := 4, nextItemID := 4 }

/-- An `Available` instance of tool 1 referenced by a bound line item that
carries a different tool type (`ToolID = 2`) on a blocking, overlapping
rental: the resolver's busy query filters by `RentalItem.ToolID` and does
not see the reference. -/
def mismatchRefState : EngineState :=
  { tools := [], notifications := [], audits := [],
    instances := [{ toolInstanceID := 1, toolID := 1, serialNumber := "SN1",
                    status := "Available", requiresCertification := false,
                    nextCalibration := none }],
    rentals := [{ rentalID := 1, status := "Reserved", startDate := 0, endDate := 10,
                  actualStart := none, actualEnd := none, totalCost := none,
                  approvedBy := none, approvalDate := none, lossAmount := none,
                  lossReason := none, lossCalculatedAt := none, returnCondition := none,
                  notes := "", updatedAt := 0,
                  items := [{ rentalItemID := 1, toolID := 2, toolInstanceID := some 1,
                              quantity := 1, dailyCost := none, totalCost := none,
                              state := "Reserved", deficit := false }] }],
    nextRentalID := 2, nextItemID := 2 }

/-! ## Derived predicates and order instances used in statements -/

instance rankLE_total (s : EngineState) (toolId : Nat) : IsTotal Nat (rankLE s toolId) := by
  constructor
  intro a b
  unfold rankLE
  rcases lt_trichotomy (usageDays s toolId a) (usageDays s toolId b) with h | h | h
  · exact Or.inr (Or.inl h)
  · rcases le_total a b with hab | hab
    · exact Or.inl (Or.inr ⟨h, hab⟩)
    · exact Or.inr (Or.inr ⟨h.symm, hab⟩)
  · exact Or.inl (Or.inl h)

instance rankLE_trans (s : EngineState) (toolId : Nat) : IsTrans Nat (rankLE s toolId) := by
  constructor
  intro a b c hab hbc
  unfold rankLE at hab hbc ⊢
  rcases hab with h1 | ⟨h1, h1b⟩ <;> rcases hbc with h2 | ⟨h2, h2b⟩
  · exact Or.inl (h2.trans h1)
  · exact Or.inl (h2 ▸ h1)
  · exact Or.inl (h1 ▸ h2)
  · exact Or.inr ⟨h1.trans h2, h1b.trans h2b⟩

/-- The resolver claim's busy condition, restricted to line items recorded
under the queried tool type (the C4 amendment): the instance id is
referenced by a bound line of that tool on a date-overlapping rental whose
normalized status is blocking. -/
def referencedByBlocking (s : EngineState) (toolId : Nat) (startDate endDate : Int)
    (iid : Nat) : Prop :=
  ∃ r ∈ s.rentals,
    blockingStates.contains (normalizeState r.status) = true ∧
    r.startDate ≤ endDate ∧ startDate ≤ r.endDate ∧
    ∃ it ∈ r.items, it.toolID = toolId ∧ it.toolInstanceID = some iid

instance (s : EngineState) (toolId : Nat) (startDate endDate : Int) (iid : Nat) :
    Decidable (referencedByBlocking s toolId startDate endDate iid) := by
  unfold referencedByBlocking
  infer_instance

/-- The status-independent view of a line item (quantity, lifecycle state,
bound instance) used to state line-level postconditions. -/
def itemView (it : RentalItem) : Int × String × Option Nat :=
  (it.quantity, it.state, it.toolInstanceID)

/-- Whether a rental's normalized status is in the blocking set. -/
def isBlocking (r : Rental) : Bool :=
  blockingStates.contains (normalizeState r.status)

/-- The engine's interval-intersection test between two rentals' windows. -/
def overlapsR (a b : Rental) : Prop :=
  a.startDate ≤ b.endDate ∧ b.startDate ≤ a.endDate

instance (a b : Rental) : Decidable (overlapsR a b) := by
  unfold overlapsR
  infer_instance

/-- Two rentals both reference one physical instance through bound lines. -/
def sharesInstance (r1 r2 : Rental) : Prop :=
  ∃ it1 ∈ r1.items, ∃ it2 ∈ r2.items,
    it1.toolInstanceID.isSome ∧ it1.toolInstanceID = it2.toolInstanceID

instance (r1 r2 : Rental) : Decidable (sharesInstance r1 r2) := by
  unfold sharesInstance
  infer_instance

/-- C5's invariant: no instance is referenced by bound line items of two
distinct rentals that are both blocking with overlapping date ranges. -/
def noDoubleBook (s : EngineState) : Prop :=
  ∀ r1 ∈ s.rentals, ∀ r2 ∈ s.rentals,
    r1.rentalID ≠ r2.rentalID → isBlocking r1 = true → isBlocking r2 = true →
    overlapsR r1 r2 → ¬ sharesInstance r1 r2

instance (s : EngineState) : Decidable (noDoubleBook s) := by
  unfold noDoubleBook
  infer_instance

/-- A rental references an instance id through some bound line. -/
def refsId (r : Rental) (x : Nat) : Prop :=
  ∃ it ∈ r.items, it.toolInstanceID = some x

instance (r : Rental) (x : Nat) : Decidable (refsId r x) := by
  unfold refsId
  infer_instance

/-- The (id, tool) key of every instance row. -/
def instKeysL (insts : List ToolInstance) : List (Nat × Nat) :=
  insts.map (fun i => (i.toolInstanceID, i.toolID))

/-- Bound line items carry the tool type recorded for the instance they
reference (an auxiliary invariant of reachable states). -/
def toolConsistentL (l : List Rental) (keys : List (Nat × Nat)) : Prop :=
  ∀ r ∈ l, ∀ it ∈ r.items, ∀ x, it.toolInstanceID = some x →
    ∀ k ∈ keys, k.1 = x → k.2 = it.toolID

/-- The inductive invariant for C5: no double-booking, tool-consistent
bound lines, primary-key uniqueness for instances and rentals, and
identity-column freshness for rentals. -/
def InvS (s : EngineState) : Prop :=
  noDoubleBook s ∧
  toolConsistentL s.rentals (instKeysL s.instances) ∧
  (s.instances.map (fun i => i.toolInstanceID)).Nodup ∧
  (s.rentals.map (fun r => r.rentalID)).Nodup ∧
  (∀ r ∈ s.rentals, r.rentalID < s.nextRentalID)

/-- Initial state for the double-booking trace: tools 1 and 2; instances
X=1 and Y=2 of tool 1, both `Available`; no tool-2 instances. -/
def traceInitState : EngineState :=
  { tools := [{ toolID := 1, status := "Available", dailyRentalCost := some 0,
                purchaseCost := none, currentValue := none },
              { toolID := 2, status := "Available", dailyRentalCost := some 0,
                purchaseCost := none, currentValue := none }],
    instances := [{ toolInstanceID := 1, toolID := 1, serialNumber := "SN1",
                    status := "Available", requiresCertification := false,
                    nextCalibration := none },
                  { toolInstanceID := 2, toolID := 1, serialNumber := "SN2",
                    status := "Available", requiresCertification := false,
                    nextCalibration := none }],
    rentals := [], notifications := [], audits := [],
    nextRentalID := 1, nextItemID := 1 }

/-- A request line for the double-booking trace. -/
def traceLine (tid : Nat) (q : Int) : CreateLine :=
  { toolID := tid, toolInstanceID := none, quantity := q,
    dailyCost := some 0, assignmentMode := none }

/-- The double-booking trace: rental 1 reserves both instances of tool 1
plus an unfillable tool-2 unit (so a shortage line keeps it open), picks
up instance Y, returns instance X through a partial receive, then rental 2
books the now-free X for the disjoint window [20, 30]; force-extending
rental 1 to day 30 makes the two blocking rentals' windows overlap while
both still hold bound line items referencing X. -/
def doubleBookTrace : List (EngineOp × Int × Int) :=
  [ (EngineOp.create (some "Reserved") 0 10 [traceLine 1 2, traceLine 2 1], 5, 5)
  , (EngineOp.decide 1 "approve" none [] none, 5, 5)
  , (EngineOp.markItems 1 [⟨4, 1, []⟩], 5, 5)
  , (EngineOp.receive 1 [⟨3, 1, 0⟩], 5, 5)
  , (EngineOp.create (some "Reserved") 20 30 [traceLine 1 1], 5, 5)
  , (EngineOp.decide 2 "approve" none [] none, 5, 5)
  , (EngineOp.forceExtend 1 30, 5, 5) ]

/-- The state the double-booking trace reaches. -/
def doubleBookState : EngineState :=
  (runTrace traceInitState doubleBookTrace).getD default

/-- A one-step guard-respecting trace (for the amended C5 witness). -/
def oneCreateTrace : List (EngineOp × Int × Int) :=
  [(EngineOp.create (some "Reserved") 0 10 [traceLine 1 1], 5, 5)]

/-- The state the one-step trace reaches. -/
def oneCreateState : EngineState :=
  (runTrace traceInitState oneCreateTrace).getD default

/-- An unbound line with remaining quantity 5. -/
def witnessReceiveItem : RentalItem :=
  { rentalItemID := 1, toolID := 1, toolInstanceID := none,
    quantity := 5, dailyCost := some 0, totalCost := none,
    state := "Pending Pickup", deficit := false }

/-- An `Active` rental with one unbound line of remaining quantity 5. -/
def witnessReceiveRental : Rental :=
  { rentalID := 1, status := "Active", startDate := 0, endDate := 10,
    actualStart := none, actualEnd := none, totalCost := none,
    approvedBy := none, approvalDate := none, lossAmount := none,
    lossReason := none, lossCalculatedAt := none, returnCondition := none,
    notes := "", updatedAt := 0, items := [witnessReceiveItem] }

/-- State holding `witnessReceiveRental`. -/
def witnessReceiveState : EngineState :=
  { tools := [], instances := [], rentals := [witnessReceiveRental],
    notifications := [], audits := [], nextRentalID := 2, nextItemID := 2 }

instance : Inhabited Rental := ⟨witnessReceiveRental⟩

/-- The state after receiving returned=2, notReturned=1 on the quantity-5
unbound line of `witnessReceiveRental`. -/
def receiveResult : EngineState :=
  match receiveMarkedItems witnessReceiveState 1 [⟨1, 2, 1⟩] 5 5 with
  | Except.ok s => s
  | Except.error _ => default


/-- Spec-side per-line loss for C9: `max(0.65 × value, value − income)`, with the
value and income read the way the handler reads them
(`CurrentValue or PurchaseCost or 0`; `TotalCost or DailyCost × days × quantity`). -/
def specLineLoss (s : EngineState) (rentalDays : Int) (it : RentalItem) : Rat :=
  match findTool s it.toolID with
  | none => 0
  | some tool =>
    max (orRat tool.currentValue (orRat tool.purchaseCost 0) * (65 / 100))
      (orRat tool.currentValue (orRat tool.purchaseCost 0) -
        orRat it.totalCost (orRat it.dailyCost 0 * (rentalDays : Rat) * (it.quantity : Rat)))

/-- Spec-side total loss: the per-line losses summed across the rental's lines. -/
def specLossTotal (s : EngineState) (rentalDays : Int) (items : List RentalItem) : Rat :=
  (items.map (specLineLoss s rentalDays)).sum

/-- A line item for the C9 demonstration state. -/
def lostDemoItem : RentalItem :=
  { rentalItemID := 1, toolID := 7, toolInstanceID := none,
    quantity := 2, dailyCost := some 3, totalCost := none,
    state := "Returned", deficit := false }

/-- A rental already in the terminal state `Closed`, for C9. -/
def lostDemoRental : Rental :=
  { rentalID := 1, status := "Closed", startDate := 0, endDate := 10,
    actualStart := none, actualEnd := none, totalCost := none,
    approvedBy := none, approvalDate := none, lossAmount := none,
    lossReason := none, lossCalculatedAt := none, returnCondition := none,
    notes := "", updatedAt := 0, items := [lostDemoItem] }

/-- A state whose only rental is terminal (`Closed`), for C9. -/
def lostDemoState : EngineState :=
  { tools := [{ toolID := 7, status := "Available", dailyRentalCost := some 3,
                purchaseCost := some 40, currentValue := some 100 }],
    instances := [], rentals := [lostDemoRental],
    notifications := [], audits := [], nextRentalID := 2, nextItemID := 2 }


/-- Spec-side release for C7: every instance referenced by one of the given
line items whose status is `Reserved` or `Rented` goes back to `Available`;
every other instance is untouched. -/
def specReleasedInstances (items : List RentalItem) (insts : List ToolInstance) :
    List ToolInstance :=
  insts.map (fun i =>
    if (items.any (fun it => it.toolInstanceID = some i.toolInstanceID)) ∧
        (i.status = "Reserved" ∨ i.status = "Rented") then
      { i with status := "Available" }
    else i)

/-- A bound line item (instance 1) for the C7 demonstration state. -/
def rejectDemoItem : RentalItem :=
  { rentalItemID := 1, toolID := 1, toolInstanceID := some 1,
    quantity := 1, dailyCost := some 2, totalCost := none,
    state := "Reserved", deficit := false }

/-- A `Reserved` rental with one bound line, for C7. -/
def rejectDemoRental : Rental :=
  { rentalID := 1, status := "Reserved", startDate := 0, endDate := 10,
    actualStart := none, actualEnd := none, totalCost := none,
    approvedBy := none, approvalDate := none, lossAmount := none,
    lossReason := none, lossCalculatedAt := none, returnCondition := none,
    notes := "", updatedAt := 0, items := [rejectDemoItem] }

/-- A state with one `Reserved` rental holding one `Reserved` bound instance. -/
def rejectDemoState : EngineState :=
  { tools := [{ toolID := 1, status := "Available", dailyRentalCost := some 2,
                purchaseCost := none, currentValue := none }],
    instances := [{ toolInstanceID := 1, toolID := 1, serialNumber := "SN1",
                    status := "Reserved", requiresCertification := false,
                    nextCalibration := none }],
    rentals := [rejectDemoRental], notifications := [], audits := [],
    nextRentalID := 2, nextItemID := 2 }

/-- The per-line fields C3 speaks about: tool, quantity, lifecycle state,
bound instance and deficit flag (everything but ids and costs). -/
def lineView (it : RentalItem) : Nat × Int × String × Option Nat × Bool :=
  (it.toolID, it.quantity, it.state, it.toolInstanceID, it.deficit)

/-- Spec-side supersede of one original request line: positive-quantity
lines are zeroed and marked `Superseded`, the rest are untouched. -/
def supersededLine (l : RentalItem) : RentalItem :=
  if 0 < l.quantity then { l with quantity := 0, state := "Superseded" } else l

/-- Outstanding requested quantity of one tool among the positive-quantity
request lines. -/
def requestedQty (items : List RentalItem) (t : Nat) : Int :=
  (((items.filter (fun l => 0 < l.quantity)).filter (fun l => l.toolID = t)).map
    (fun l => l.quantity)).sum

/-- An instance currently recorded with status `Reserved`. -/
def reservedAt (s : EngineState) (iid : Nat) : Prop :=
  ∃ inst, findInstance s iid = some inst ∧ inst.status = "Reserved"

/-- An unbound request line of quantity 2 for the C3 demonstration state. -/
def approveDemoItem : RentalItem :=
  { rentalItemID := 1, toolID := 1, toolInstanceID := none,
    quantity := 2, dailyCost := some 2, totalCost := none,
    state := "Pending Pickup", deficit := false }

/-- A `Reserved` rental requesting two units of tool 1, for C3. -/
def approveDemoRental : Rental :=
  { rentalID := 1, status := "Reserved", startDate := 0, endDate := 10,
    actualStart := none, actualEnd := none, totalCost := none,
    approvedBy := none, approvalDate := none, lossAmount := none,
    lossReason := none, lossCalculatedAt := none, returnCondition := none,
    notes := "", updatedAt := 0, items := [approveDemoItem] }

/-- A state with one available instance against a two-unit request, for C3:
approval must bind the instance and record a one-unit deficit line. -/
def approveDemoState : EngineState :=
  { tools := [{ toolID := 1, status := "Available", dailyRentalCost := some 2,
                purchaseCost := none, currentValue := none }],
    instances := [{ toolInstanceID := 1, toolID := 1, serialNumber := "SN1",
                    status := "Available", requiresCertification := false,
                    nextCalibration := none }],
    rentals := [approveDemoRental], notifications := [], audits := [],
    nextRentalID := 2, nextItemID := 2 }

/-- The approval-stamped request rental of the C3 witness. -/
def approveDemoBase : Rental :=
  applyShortageActions
    { applyRuntimeState approveDemoRental 5 5 with
      approvalDate := some ((applyRuntimeState approveDemoRental 5 5).approvalDate.getD 5),
      approvedBy := none, updatedAt := 5 } []

/-! # Theorems -/

/-! ## C1: the state-transition table -/

/-- A legal-transition-table pair never relates a state to itself. -/
theorem allowedTransition_ne {c t : String} (h : allowedTransition c t = true) : t ≠ c := by
  intro he
  subst he
  unfold allowedTransition at h
  cases hf : transitionTargets t with
  | none => rw [hf] at h; simp at h
  | some tgts =>
    rw [hf] at h
    unfold transitionTargets at hf
    cases hf2 : stateTransitions.find? (fun p => p.1 = t) with
    | none => rw [hf2] at hf; simp at hf
    | some p =>
      rw [hf2] at hf
      simp only [Option.some.injEq] at hf
      subst hf
      have hp := List.find?_some hf2
      have hmem := List.mem_of_find?_eq_some hf2
      simp only [decide_eq_true_eq] at hp
      simp only [stateTransitions, List.mem_cons, List.not_mem_nil, or_false] at hmem
      rcases hmem with h1 | h1 | h1 | h1 | h1 | h1 <;> subst h1 <;>
        (rw [← hp] at h; exact absurd h (by decide))

/-- C1 (amended): after alias normalization, a transition whose target
equals the source is a silent no-op success; any other pair not in the
legal-transition table fails with `InvalidTransition` naming source and
target; any listed pair succeeds and sets the status to the target. -/
theorem transition_table_enforced (cur tgt : String) :
    (normalizeState tgt = normalizeState cur →
      transitionState cur tgt = Except.ok cur) ∧
    (normalizeState tgt ≠ normalizeState cur →
      allowedTransition (normalizeState cur) (normalizeState tgt) = false →
      transitionState cur tgt =
        Except.error
          (EngineError.invalidTransition (normalizeState cur) (normalizeState tgt))) ∧
    (allowedTransition (normalizeState cur) (normalizeState tgt) = true →
      transitionState cur tgt = Except.ok (normalizeState tgt)) := by
  refine ⟨fun h => ?_, fun h h2 => ?_, fun h => ?_⟩
  · simp [transitionState, h]
  · simp [transitionState, h, h2]
  · have hne := allowedTransition_ne h
    simp [transitionState, hne, h]

/-- C1 witness: a listed pair (after normalizing the `Pending` alias)
succeeds, an unlisted pair fails naming source and target. -/
theorem transition_table_enforced_witness :
    transitionState "Pending" "Active" = Except.ok "Active" ∧
    transitionState "Returned" "Active" =
      Except.error (EngineError.invalidTransition "Returned" "Active") := by
  constructor
  · have h := (transition_table_enforced "Pending" "Active").2.2 (by decide)
    rw [show normalizeState "Active" = "Active" from by decide] at h
    exact h
  · have h := (transition_table_enforced "Returned" "Active").2.1 (by decide) (by decide)
    rw [show normalizeState "Returned" = "Returned" from by decide,
        show normalizeState "Active" = "Active" from by decide] at h
    exact h

/-- C1 counterexample: `(Closed, Closed)` is not listed in the table, yet
`_transition_state` succeeds silently instead of failing with
`InvalidTransition`. -/
theorem transition_closed_closed_not_rejected :
    allowedTransition (normalizeState "Closed") (normalizeState "Closed") = false ∧
    transitionState "Closed" "Closed" = Except.ok "Closed" := by decide

/-! ## C8: read-time Active-to-Overdue promotion -/

/-- C8: promoting an overdue `Active` rental happens on the first
application of the runtime-state rule and is idempotent — a second
application (at any later read) returns the record unchanged; when the
promotion does not apply, the rule only normalizes the stored status. -/
theorem runtime_promotion_idempotent (r : Rental) (today now today2 now2 : Int) :
    (normalizeState r.status = "Active" → r.endDate < today →
      (applyRuntimeState r today now).status = "Overdue" ∧
      applyRuntimeState (applyRuntimeState r today now) today2 now2 =
        applyRuntimeState r today now) ∧
    (¬ (normalizeState r.status = "Active" ∧ r.endDate < today) →
      ((applyRuntimeState r today now).status = r.status ∨
        (applyRuntimeState r today now).status = normalizeState r.status) ∧
      applyRuntimeState r today now =
        { r with status := (applyRuntimeState r today now).status }) := by
  constructor
  · intro h1 h2
    have hfirst : applyRuntimeState r today now = { r with status := "Overdue", updatedAt := now } := by
      simp [applyRuntimeState, h1, h2]
    refine ⟨by rw [hfirst], ?_⟩
    rw [hfirst]
    simp [applyRuntimeState, show normalizeState "Overdue" = "Overdue" from by decide,
      show ("Overdue" : String) ≠ "Active" from by decide,
      show knownStates.contains "Overdue" = true from by decide]
  · intro h
    simp only [applyRuntimeState, if_neg h]
    by_cases h2 : knownStates.contains (normalizeState r.status) = true
    · simp only [if_pos h2]
      refine ⟨Or.inr ?_, ?_⟩ <;> trivial
    · simp only [if_neg h2]
      refine ⟨Or.inl ?_, ?_⟩ <;> trivial

/-- C8 witness: an `Active` rental one day past due is promoted to
`Overdue` once, and re-reading leaves the record untouched; a `Reserved`
alias (`Pending`) is merely normalized. -/
theorem runtime_promotion_idempotent_witness :
    ((applyRuntimeState witnessOverdueRental 11 99).status = "Overdue" ∧
      applyRuntimeState (applyRuntimeState witnessOverdueRental 11 99) 12 100 =
        applyRuntimeState witnessOverdueRental 11 99) ∧
    ((applyRuntimeState witnessPendingRental 11 99).status = witnessPendingRental.status ∨
      (applyRuntimeState witnessPendingRental 11 99).status =
        normalizeState witnessPendingRental.status) :=
  ⟨(runtime_promotion_idempotent witnessOverdueRental 11 99 12 100).1 (by decide) (by decide),
   ((runtime_promotion_idempotent witnessPendingRental 11 99 12 100).2 (by decide)).1⟩

/-! ## C10: the login guard -/

/-- Writing a key makes it readable. -/
theorem dictFind_dictSet_self {α : Type} (d : List (String × α)) (k : String) (v : α) :
    dictFind (dictSet d k v) k = some v := by
  induction d with
  | nil => simp [dictSet, dictFind]
  | cons p rest ih =>
    by_cases h : p.1 = k
    · simp [dictSet, dictFind, h]
    · simpa [dictSet, dictFind, h] using ih

/-- Popping a key removes it. -/
theorem dictFind_dictPop_self {α : Type} (d : List (String × α)) (k : String) :
    dictFind (dictPop d k) k = none := by
  induction d with
  | nil => simp [dictPop, dictFind]
  | cons p rest ih =>
    by_cases h : p.1 = k
    · simp [dictPop, dictFind, h]
    · simp [dictPop, dictFind, h]

/-- Attempts older than the window are all pruned. -/
theorem pruneAttempts_eq_nil {l : List Int} {nowTs : Int}
    (h : ∀ ts ∈ l, ts < nowTs - max authAttemptWindowSeconds 1) :
    pruneAttempts l nowTs = [] := by
  induction l with
  | nil => rfl
  | cons a rest ih =>
    have ha := h a (by simp)
    have hrest : ∀ ts ∈ rest, ts < nowTs - max authAttemptWindowSeconds 1 :=
      fun ts hts => h ts (by simp [hts])
    simp only [pruneAttempts, List.filter_cons] at ih ⊢
    rw [if_neg (by simpa using not_le.mpr ha)]
    exact ih hrest

/-- C10: nine recorded failures inside the window leave the account locked
out (the guard reports a positive retry delay); while a lockout is in
force, checks at non-decreasing times report non-increasing remaining
seconds and do not change the tables; the first check at/after expiry
removes the lockout, resets the account's pruned attempt list to empty,
and passes. -/
theorem login_guard_lockout (g : GuardState) (ip acct : String) (u n1 n2 nowTs : Int) :
    (dictFind witnessGuard9.lockoutUntilByAccount "user" = some 908 ∧
      (checkLoginGuard witnessGuard9 "ip" "user" 8).1 = some 900) ∧
    (dictFind g.lockoutUntilByAccount acct = some u → n1 ≤ n2 → n2 < u →
      (checkLoginGuard g ip acct n1).1 = some (max 1 (u - n1)) ∧
      (checkLoginGuard g ip acct n2).1 = some (max 1 (u - n2)) ∧
      max 1 (u - n2) ≤ max 1 (u - n1) ∧
      (checkLoginGuard g ip acct n2).2 = g) ∧
    (dictFind g.lockoutUntilByAccount acct = some u → u ≤ nowTs →
      (∀ ts ∈ (dictFind g.attemptsByAccount acct).getD [],
        ts < nowTs - max authAttemptWindowSeconds 1) →
      (pruneAttempts ((dictFind g.attemptsByIp ip).getD []) nowTs).length <
        max authMaxAttemptsPerIp 1 →
      (checkLoginGuard g ip acct nowTs).1 = none ∧
      dictFind (checkLoginGuard g ip acct nowTs).2.attemptsByAccount acct = some [] ∧
      dictFind (checkLoginGuard g ip acct nowTs).2.lockoutUntilByAccount acct = none) := by
  have hred : ∀ hu0 : dictFind g.lockoutUntilByAccount acct = some u, ∀ n : Int,
      checkLoginGuard g ip acct n =
        if n < u then (some (max 1 (u - n)), g)
        else
          checkLoginGuard.checkGuardTables
            { g with lockoutUntilByAccount := dictPop g.lockoutUntilByAccount acct }
            ip acct n := by
    intro hu0 n
    unfold checkLoginGuard
    rw [hu0]
  refine ⟨by decide, fun hu h12 h2u => ?_, fun hu hexp hold hip => ?_⟩
  · have h1u : n1 < u := lt_of_le_of_lt h12 h2u
    rw [hred hu n1, hred hu n2, if_pos h1u, if_pos h2u]
    exact ⟨rfl, rfl, by omega, rfl⟩
  · have hnl : ¬ nowTs < u := not_lt.mpr hexp
    have hacct : pruneAttempts ((dictFind g.attemptsByAccount acct).getD []) nowTs = [] :=
      pruneAttempts_eq_nil hold
    rw [hred hu nowTs, if_neg hnl]
    unfold checkLoginGuard.checkGuardTables
    simp only [hacct]
    rw [if_neg (by simpa using not_le.mpr hip)]
    rw [if_neg (by decide)]
    refine ⟨rfl, ?_, ?_⟩
    · exact dictFind_dictSet_self _ _ _
    · exact dictFind_dictPop_self _ _

/-- C10 witness: the nine-failure tables, checked at time 1000 (past the
lockout horizon 908), pass and are reset. -/
theorem login_guard_lockout_witness :
    (checkLoginGuard witnessGuard9 "ip" "user" 1000).1 = none ∧
    dictFind (checkLoginGuard witnessGuard9 "ip" "user" 1000).2.attemptsByAccount "user" =
      some [] ∧
    dictFind (checkLoginGuard witnessGuard9 "ip" "user" 1000).2.lockoutUntilByAccount "user" =
      none :=
  (login_guard_lockout witnessGuard9 "ip" "user" 908 0 0 1000).2.2
    (by decide) (by decide) (by decide) (by decide)

/-! ## C6: the Allocation Ranker -/

/-- C6: the ranker returns a permutation of the candidate ids sorted by
descending historical days-of-use with ascending identifier as tie-break;
on usages A=10, B=3, C=10 for ids A=1, B=2, C=3 the ranked order is
[A, C, B]. -/
theorem ranker_orders_by_usage (s : EngineState) (toolId : Nat) (candidates : List Nat) :
    ((rankInstancesForAllocation s toolId candidates).Perm candidates ∧
      List.Sorted (rankLE s toolId) (rankInstancesForAllocation s toolId candidates)) ∧
    (usageDays witnessRankState 1 1 = 10 ∧
      usageDays witnessRankState 1 2 = 3 ∧
      usageDays witnessRankState 1 3 = 10 ∧
      rankInstancesForAllocation witnessRankState 1 [1, 2, 3] = [1, 3, 2]) := by
  refine ⟨?_, by decide⟩
  unfold rankInstancesForAllocation
  by_cases hc : candidates = []
  · simp [hc]
  · rw [if_neg hc]
    exact ⟨List.perm_insertionSort _ _, List.sorted_insertionSort _ _⟩

/-! ## C4: the Instance Availability Resolver -/

/-- The busy query computes exactly the same-tool blocking-reference test. -/
theorem instanceBusy_iff (s : EngineState) (toolId : Nat) (startDate endDate : Int)
    (iid : Nat) :
    instanceBusy s toolId startDate endDate iid = true ↔
      referencedByBlocking s toolId startDate endDate iid := by
  unfold instanceBusy referencedByBlocking
  simp only [List.any_eq_true, Bool.and_eq_true, decide_eq_true_eq, List.elem_iff]
  constructor
  · rintro ⟨r, hr, h⟩
    exact ⟨r, hr, by tauto⟩
  · rintro ⟨r, hr, h⟩
    exact ⟨r, hr, by tauto⟩

/-- C4 (amended): for a window with `start ≤ end`, the resolver returns an
instance of the tool iff its status is `Available`, no bound line item
recorded under the same tool type on a blocking, date-overlapping rental
references it, and, when it requires certification, its next-calibration
date is present and on/after the window end. -/
theorem resolver_available_iff (s : EngineState) (toolId : Nat)
    (startDate endDate : Int) (_hse : startDate ≤ endDate) (inst : ToolInstance) :
    inst ∈ getAvailableInstances s toolId startDate endDate [] ↔
      (inst ∈ s.instances ∧ inst.toolID = toolId ∧ inst.status = "Available" ∧
        ¬ referencedByBlocking s toolId startDate endDate inst.toolInstanceID ∧
        (inst.requiresCertification = true →
          ∃ d, inst.nextCalibration = some d ∧ endDate ≤ d)) := by
  unfold getAvailableInstances
  rw [List.mem_filter]
  rw [(List.perm_insertionSort
        (fun a b => stringLE a.serialNumber b.serialNumber = true)
        (s.instances.filter (fun i => i.toolID = toolId && i.status = "Available"))).mem_iff]
  rw [List.mem_filter]
  constructor
  · rintro ⟨⟨hmem, hf1⟩, hf2⟩
    simp only [Bool.and_eq_true, decide_eq_true_eq] at hf1
    simp only [Bool.and_eq_true, Bool.not_eq_true'] at hf2
    obtain ⟨⟨hbusy, -⟩, hcert⟩ := hf2
    refine ⟨hmem, hf1.1, hf1.2, ?_, ?_⟩
    · rw [← instanceBusy_iff]
      simp [hbusy]
    · intro hreq
      unfold certExcluded at hcert
      rw [hreq] at hcert
      simp only [Bool.true_and] at hcert
      cases hd : inst.nextCalibration with
      | none => rw [hd] at hcert; simp at hcert
      | some d =>
        rw [hd] at hcert
        simp only [decide_eq_false_iff_not, not_lt] at hcert
        exact ⟨d, rfl, hcert⟩
  · rintro ⟨hmem, ht, hs, hbusy, hcert⟩
    have hb : instanceBusy s toolId startDate endDate inst.toolInstanceID = false := by
      rw [← Bool.not_eq_true, instanceBusy_iff]
      exact hbusy
    refine ⟨⟨hmem, ?_⟩, ?_⟩
    · simp [ht, hs]
    · simp only [Bool.and_eq_true, Bool.not_eq_true', hb]
      refine ⟨⟨trivial, by simp⟩, ?_⟩
      unfold certExcluded
      cases hreq : inst.requiresCertification with
      | false => simp
      | true =>
        obtain ⟨d, hd, hdd⟩ := hcert hreq
        rw [hd]
        simp only [Bool.true_and, decide_eq_false_iff_not, not_lt]
        exact hdd

/-- C4 witness: in the mismatched-reference state, the resolver reports
instance 1 free for the window [0, 10] (the same-tool busy test does not
fire). -/
theorem resolver_available_iff_witness :
    (mismatchRefState.instances.head? = some
      { toolInstanceID := 1, toolID := 1, serialNumber := "SN1",
        status := "Available", requiresCertification := false,
        nextCalibration := none }) ∧
    { toolInstanceID := 1, toolID := 1, serialNumber := "SN1",
      status := "Available", requiresCertification := false,
      nextCalibration := none : ToolInstance } ∈
      getAvailableInstances mismatchRefState 1 0 10 [] :=
  ⟨by decide,
   (resolver_available_iff mismatchRefState 1 0 10 (by decide) _).mpr (by decide)⟩

/-- C4 counterexample: the claim's unrestricted busy condition fails — the
resolver returns instance 1 even though a bound line item of a blocking,
date-overlapping rental references it (the line is recorded under a
different tool type, which the busy query filters away). -/
theorem resolver_returns_referenced_instance :
    (∃ i ∈ getAvailableInstances mismatchRefState 1 0 10 [], i.toolInstanceID = 1) ∧
    (∃ r ∈ mismatchRefState.rentals,
      blockingStates.contains (normalizeState r.status) = true ∧
      r.startDate ≤ 10 ∧ (0 : Int) ≤ r.endDate ∧
      ∃ it ∈ r.items, it.toolInstanceID = some 1) := by decide

/-! ## State plumbing lemmas -/

/-- A found rental carries the looked-up id. -/
theorem findRental_rentalID {s : EngineState} {rid : Nat} {r : Rental}
    (h : findRental s rid = some r) : r.rentalID = rid := by
  have := List.find?_some h
  simpa using this

/-- `find?` by rental id commutes with a map that only rewrites the
matching rentals (and keeps their id). -/
theorem find?_rentalID_map (l : List Rental) (rid : Nat) (r0 : Rental)
    (g : Rental → Rental)
    (h : l.find? (fun r => r.rentalID = rid) = some r0)
    (hg1 : (g r0).rentalID = rid)
    (hg2 : ∀ r, r.rentalID ≠ rid → g r = r) :
    (l.map g).find? (fun r => r.rentalID = rid) = some (g r0) := by
  induction l with
  | nil => simp [List.find?] at h
  | cons a l ih =>
    by_cases ha : a.rentalID = rid
    · rw [List.find?_cons_of_pos _ (by simpa using ha)] at h
      have ha0 : a = r0 := by injection h
      subst ha0
      rw [List.map_cons, List.find?_cons_of_pos _ (by simpa using hg1)]
    · rw [List.find?_cons_of_neg _ (by simpa using ha)] at h
      rw [List.map_cons, hg2 a ha, List.find?_cons_of_neg _ (by simpa using ha)]
      exact ih h

/-- Persisting a mutated rental makes the mutation visible to lookups. -/
theorem findRental_updateRentalIn {s : EngineState} {rid : Nat} {r0 r' : Rental}
    (h : findRental s rid = some r0) (hid : r'.rentalID = rid) :
    findRental (updateRentalIn s r') rid = some r' := by
  have h0 : r0.rentalID = rid := findRental_rentalID h
  unfold findRental updateRentalIn
  have hmap := find?_rentalID_map s.rentals rid r0
    (fun r => if r.rentalID = r'.rentalID then r' else r) h
    (by simp [h0, hid]) (fun r hr => by simp [hid, hr])
  simpa [h0, hid] using hmap

/-- Appending a line item is visible to lookups. -/
theorem findRental_addItem {s : EngineState} {rid : Nat} {r0 : Rental}
    (it : RentalItem) (h : findRental s rid = some r0) :
    findRental (addItem s rid it) rid = some { r0 with items := r0.items ++ [it] } := by
  have h0 : r0.rentalID = rid := findRental_rentalID h
  unfold findRental addItem
  have hmap := find?_rentalID_map s.rentals rid r0
    (fun r => if r.rentalID = rid then { r with items := r.items ++ [it] } else r) h
    (by simp [h0]) (fun r hr => by simp [hr])
  simpa [h0] using hmap

/-- Rewriting a line item is visible to lookups. -/
theorem findRental_updateItemIn {s : EngineState} {rid : Nat} {r0 : Rental}
    (it : RentalItem) (h : findRental s rid = some r0) :
    findRental (updateItemIn s rid it) rid =
      some { r0 with items := r0.items.map (fun l =>
        if l.rentalItemID = it.rentalItemID then it else l) } := by
  have h0 : r0.rentalID = rid := findRental_rentalID h
  unfold findRental updateItemIn
  have hmap := find?_rentalID_map s.rentals rid r0
    (fun r => if r.rentalID = rid then
      { r with items := r.items.map (fun l =>
          if l.rentalItemID = it.rentalItemID then it else l) } else r) h
    (by simp [h0]) (fun r hr => by simp [hr])
  simpa [h0] using hmap

/-- The runtime-state rule only touches status and the update stamp. -/
theorem applyRuntimeState_frame (r : Rental) (today now : Int) :
    (applyRuntimeState r today now).rentalID = r.rentalID ∧
    (applyRuntimeState r today now).items = r.items ∧
    (applyRuntimeState r today now).startDate = r.startDate ∧
    (applyRuntimeState r today now).endDate = r.endDate := by
  unfold applyRuntimeState
  by_cases h1 : normalizeState r.status = "Active" ∧ r.endDate < today
  · simp [h1]
  · by_cases h2 : normalizeState r.status ∈ knownStates
    · simp [h1, h2]
    · simp [h1, h2]

/-- Cost recalculation only touches the totals. -/
theorem recalcTotalCost_frame (r : Rental) :
    (recalcTotalCost r).status = r.status ∧
    (recalcTotalCost r).rentalID = r.rentalID ∧
    (recalcTotalCost r).items.map itemView = r.items.map itemView := by
  unfold recalcTotalCost
  split
  · exact ⟨rfl, rfl, rfl⟩
  · refine ⟨rfl, rfl, ?_⟩
    simp [itemView, List.map_map, Function.comp]

/-- Recalculation after a lookup. -/
theorem findRental_recalcRentalIn {s : EngineState} {rid : Nat} {r0 : Rental}
    (h : findRental s rid = some r0) :
    findRental (recalcRentalIn s rid) rid = some (recalcTotalCost r0) := by
  unfold recalcRentalIn
  rw [h]
  exact findRental_updateRentalIn h
    (by rw [(recalcTotalCost_frame r0).2.1]; exact findRental_rentalID h)

/-! ## C2: partial receive on an unbound line -/

/-- C2 (amended): receiving `returned = rq > 0`, `notReturned = nq > 0`
(with `rq + nq` within the remaining quantity) on an unbound line of an
`Active`/`Overdue` rental decrements the source line by the returned
quantity only (remaining `q - rq`), puts it in lifecycle state
`Not Returned` (because a not-returned quantity was recorded), and appends
exactly one new unbound line of quantity `rq` in state `Returned`. -/
theorem receive_unbound_split (s : EngineState) (rid lineId : Nat) (r : Rental)
    (line : RentalItem) (rq nq today now : Int)
    (hfind : findRental s rid = some r)
    (hline : r.items.find? (fun l => l.rentalItemID = lineId) = some line)
    (hunbound : line.toolInstanceID = none)
    (hst : (applyRuntimeState r today now).status = "Active" ∨
      (applyRuntimeState r today now).status = "Overdue")
    (hrq : 0 < rq) (hnq : 0 < nq) (hsum : rq + nq ≤ line.quantity)
    (hfresh : ∀ it ∈ r.items, it.rentalItemID ≠ s.nextItemID) :
    ∃ s' r', receiveMarkedItems s rid [⟨lineId, rq, nq⟩] today now = Except.ok s' ∧
      findRental s' rid = some r' ∧
      r'.status = (applyRuntimeState r today now).status ∧
      r'.items.map itemView =
        r.items.map (fun it =>
          if it.rentalItemID = line.rentalItemID then
            (line.quantity - rq, "Not Returned", (none : Option Nat))
          else itemView it) ++ [(rq, "Returned", (none : Option Nat))] := by
  have hid : r.rentalID = rid := findRental_rentalID hfind
  have hframe := applyRuntimeState_frame r today now
  have hrt_id : (applyRuntimeState r today now).rentalID = rid := by
    rw [hframe.1]; exact hid
  have hrt_items : (applyRuntimeState r today now).items = r.items := hframe.2.1
  have hlinemem : line ∈ r.items := List.mem_of_find?_eq_some hline
  have hlineid : line.rentalItemID ≠ s.nextItemID := hfresh line hlinemem
  have hmax1 : max (0 : Int) rq = rq := max_eq_right hrq.le
  have hmax2 : max (0 : Int) nq = nq := max_eq_right hnq.le
  have h0 : findRental (updateRentalIn s (applyRuntimeState r today now)) rid =
      some (applyRuntimeState r today now) :=
    findRental_updateRentalIn hfind hrt_id
  have hstep : processReceives (updateRentalIn s (applyRuntimeState r today now)) rid
      [⟨lineId, rq, nq⟩] =
      Except.ok (updateItemIn
        (addItem (updateRentalIn s (applyRuntimeState r today now)) rid
          { rentalItemID := s.nextItemID, toolID := line.toolID,
            toolInstanceID := none, quantity := rq,
            dailyCost := line.dailyCost, totalCost := none,
            state := "Returned", deficit := false }) rid
        { line with quantity := line.quantity - rq, state := "Not Returned" }) := by
    simp only [processReceives, h0, hrt_items, hline, hunbound]
    rw [if_neg (by omega : ¬ line.quantity ≤ 0)]
    rw [hmax1, hmax2]
    rw [if_neg (by omega : ¬ rq + nq ≤ 0)]
    rw [if_neg (by omega : ¬ line.quantity < rq + nq)]
    rw [if_pos hrq, if_pos hnq]
    rfl
  -- the mid-loop state and the rental it stores
  have h1 := findRental_addItem (s := updateRentalIn s (applyRuntimeState r today now))
    { rentalItemID := s.nextItemID, toolID := line.toolID,
      toolInstanceID := none, quantity := rq,
      dailyCost := line.dailyCost, totalCost := none,
      state := "Returned", deficit := false } h0
  have h2 := findRental_updateItemIn
    { line with quantity := line.quantity - rq, state := "Not Returned" } h1
  have hopenAny : ∀ rr : Rental,
      (∃ it ∈ rr.items, 0 < it.quantity) → rentalHasOpenQuantity rr = true := by
    intro rr hex
    unfold rentalHasOpenQuantity
    rw [List.any_eq_true]
    obtain ⟨it, h1b, h2b⟩ := hex
    exact ⟨it, h1b, by simpa using h2b⟩
  apply Exists.intro
  apply Exists.intro
  refine ⟨?run, ?find, ?status, ?view⟩
  case run =>
    simp only [receiveMarkedItems, hfind]
    rw [if_neg (not_not_intro hst)]
    rw [if_neg (by simp : ¬ ([⟨lineId, rq, nq⟩] : List ReceiveItem) = [])]
    rw [hstep]
    simp only [h2]
    split
    · next hno =>
      exfalso
      apply hno
      apply hopenAny
      refine ⟨{ rentalItemID := s.nextItemID, toolID := line.toolID,
                toolInstanceID := none, quantity := rq,
                dailyCost := line.dailyCost, totalCost := none,
                state := "Returned", deficit := false }, ?_, hrq⟩
      simp only [List.mem_map, List.mem_append]
      refine ⟨{ rentalItemID := s.nextItemID, toolID := line.toolID,
                toolInstanceID := none, quantity := rq,
                dailyCost := line.dailyCost, totalCost := none,
                state := "Returned", deficit := false }, Or.inr (by simp), ?_⟩
      rw [if_neg]
      exact fun hh => hlineid hh.symm
    · rfl
  case find =>
    exact findRental_recalcRentalIn (findRental_updateRentalIn h2 (by exact hrt_id))
  case status =>
    rw [(recalcTotalCost_frame _).1]
  case view =>
    rw [(recalcTotalCost_frame _).2.2]
    show (((applyRuntimeState r today now).items ++ [_]).map _).map itemView = _
    rw [List.map_append, List.map_append, hrt_items]
    congr 1
    · rw [List.map_map]
      apply List.map_congr_left
      intro it _
      by_cases hc : it.rentalItemID = line.rentalItemID
      · simp [Function.comp, itemView, hc, hunbound]
      · simp [Function.comp, itemView, hc]
    · simp [itemView, show ¬ s.nextItemID = line.rentalItemID from fun hh => hlineid hh.symm]

/-- C2 witness: the amended split applied to the quantity-5 line with
returned=2, notReturned=1. -/
theorem receive_unbound_split_witness :
    ∃ s' r', receiveMarkedItems witnessReceiveState 1 [⟨1, 2, 1⟩] 5 5 = Except.ok s' ∧
      findRental s' 1 = some r' ∧
      r'.status = (applyRuntimeState witnessReceiveRental 5 5).status ∧
      r'.items.map itemView =
        witnessReceiveRental.items.map (fun it =>
          if it.rentalItemID = witnessReceiveItem.rentalItemID then
            (witnessReceiveItem.quantity - 2, "Not Returned", (none : Option Nat))
          else itemView it) ++ [(2, "Returned", (none : Option Nat))] :=
  receive_unbound_split witnessReceiveState 1 1 witnessReceiveRental witnessReceiveItem
    2 1 5 5 (by decide) (by decide) (by decide) (by decide) (by decide) (by decide)
    (by decide) (by decide)

/-- C2 counterexample: on remaining quantity 5 with returned=2 and
notReturned=1, the source line is left with quantity 3 (not 2) in state
`Not Returned` (not `Pending Pickup`). -/
theorem receive_partial_claim_false :
    (receiveMarkedItems witnessReceiveState 1 [⟨1, 2, 1⟩] 5 5).isOk = true ∧
    ((findRental receiveResult 1).getD default).items.map itemView =
      [(3, "Not Returned", none), (2, "Returned", none)] := by decide

/-! ## C5: double-booking — invariant toolkit -/

/-- Sharing an instance is symmetric. -/
theorem sharesInstance_symm {r1 r2 : Rental} (h : sharesInstance r1 r2) :
    sharesInstance r2 r1 := by
  obtain ⟨it1, h1, it2, h2, hs, he⟩ := h
  exact ⟨it2, h2, it1, h1, by rw [← he]; exact hs, he.symm⟩

/-- Window overlap is symmetric. -/
theorem overlapsR_symm {a b : Rental} (h : overlapsR a b) : overlapsR b a :=
  ⟨h.2, h.1⟩

/-- Lookup success implies membership. -/
theorem mem_of_findRental {s : EngineState} {rid : Nat} {r : Rental}
    (h : findRental s rid = some r) : r ∈ s.rentals :=
  List.mem_of_find?_eq_some h

/-- With unique rental ids, members sharing an id are equal. -/
theorem rental_id_inj {l : List Rental} (hnd : (l.map (fun r => r.rentalID)).Nodup)
    {a b : Rental} (ha : a ∈ l) (hb : b ∈ l) (hid : a.rentalID = b.rentalID) : a = b :=
  List.inj_on_of_nodup_map hnd ha hb hid

/-- With unique instance ids, members sharing an id are equal. -/
theorem instance_id_inj {l : List ToolInstance}
    (hnd : (l.map (fun i => i.toolInstanceID)).Nodup)
    {a b : ToolInstance} (ha : a ∈ l) (hb : b ∈ l)
    (hid : a.toolInstanceID = b.toolInstanceID) : a = b :=
  List.inj_on_of_nodup_map hnd ha hb hid

/-- When the instance id column is unique, an instance row determines the
tool column of every key sharing its id. -/
theorem instKey_unique {l : List ToolInstance}
    (hnd : (l.map (fun i => i.toolInstanceID)).Nodup)
    {inst : ToolInstance} (hmem : inst ∈ l) {x : Nat} (hx : inst.toolInstanceID = x) :
    ∀ k ∈ instKeysL l, k.1 = x → k.2 = inst.toolID := by
  intro k hk hk1
  obtain ⟨j, hj, rfl⟩ := List.mem_map.mp hk
  have hji : j = inst := instance_id_inj hnd hj hmem (by simpa [hx] using hk1)
  subst hji
  rfl

/-- Every known state is a fixed point of alias normalization. -/
theorem normalizeState_of_known {c : String} (h : knownStates.contains c = true) :
    normalizeState c = c := by
  simp [knownStates, stateAliases, reservationStates, terminalStates] at h
  rcases h with h | h | h | h | h | h | h | h | h <;> subst h <;> decide

/-- The runtime rule never changes whether a rental blocks. -/
theorem isBlocking_applyRuntimeState (r : Rental) (today now : Int) :
    isBlocking (applyRuntimeState r today now) = isBlocking r := by
  unfold applyRuntimeState
  by_cases h1 : normalizeState r.status = "Active" ∧ r.endDate < today
  · rw [if_pos h1]
    show blockingStates.contains (normalizeState "Overdue") = isBlocking r
    unfold isBlocking
    rw [h1.1]
    decide
  · rw [if_neg h1]
    by_cases h2 : knownStates.contains (normalizeState r.status) = true
    · rw [if_pos h2]
      show blockingStates.contains (normalizeState (normalizeState r.status)) = isBlocking r
      rw [normalizeState_of_known h2]
      rfl
    · rw [if_neg h2]

/-- A successful table transition keeps the row's identity, window and
items, and either leaves the row untouched or rewrites the status to the
normalized target along a listed table edge. -/
theorem transitionRental_ok {r r2 : Rental} {tgt : String} {now : Int}
    (h : transitionRental r tgt now = Except.ok r2) :
    r2.rentalID = r.rentalID ∧ r2.startDate = r.startDate ∧ r2.endDate = r.endDate ∧
    r2.items = r.items ∧
    (r2 = r ∨ (allowedTransition (normalizeState r.status) (normalizeState tgt) = true ∧
      r2.status = normalizeState tgt)) := by
  unfold transitionRental at h
  by_cases h1 : normalizeState tgt = normalizeState r.status
  · rw [if_pos h1] at h
    injection h with h
    subst h
    exact ⟨rfl, rfl, rfl, rfl, Or.inl rfl⟩
  · rw [if_neg h1] at h
    by_cases h2 : allowedTransition (normalizeState r.status) (normalizeState tgt) = true
    · rw [if_pos h2] at h
      injection h with h
      subst h
      exact ⟨rfl, rfl, rfl, rfl, Or.inr ⟨h2, rfl⟩⟩
    · rw [if_neg h2] at h
      simp at h

/-- Only the two blocking sources `Reserved` and `Overdue` may legally
transition into `Active`. -/
theorem allowedTransition_active {c : String}
    (h : allowedTransition c "Active" = true) : c = "Reserved" ∨ c = "Overdue" := by
  unfold allowedTransition at h
  cases hf : transitionTargets c with
  | none => rw [hf] at h; simp at h
  | some tgts =>
    rw [hf] at h
    unfold transitionTargets at hf
    cases hf2 : stateTransitions.find? (fun p => p.1 = c) with
    | none => rw [hf2] at hf; simp at hf
    | some p =>
      rw [hf2] at hf
      simp only [Option.some.injEq] at hf
      subst hf
      have hp := List.find?_some hf2
      have hmem := List.mem_of_find?_eq_some hf2
      simp only [decide_eq_true_eq] at hp
      simp only [stateTransitions, List.mem_cons, List.not_mem_nil, or_false] at hmem
      rcases hmem with h6 | h6 | h6 | h6 | h6 | h6 <;> subst h6 <;>
        first
          | exact absurd h (by decide)
          | exact Or.inl hp.symm
          | exact Or.inr hp.symm

/-- Pointwise non-expanding rewrites of the rental table preserve the
invariant: each row keeps its id and window, cannot start blocking, and
its bound (tool, instance) references are drawn from the old row. -/
theorem InvS_map_le {s s' : EngineState} (g : Rental → Rental)
    (hrent : s'.rentals = s.rentals.map g) (hinst : s'.instances = s.instances)
    (hnext : s.nextRentalID ≤ s'.nextRentalID)
    (hg : ∀ r ∈ s.rentals, (g r).rentalID = r.rentalID ∧ (g r).startDate = r.startDate ∧
      (g r).endDate = r.endDate ∧ (isBlocking (g r) = true → isBlocking r = true) ∧
      (∀ it' ∈ (g r).items, it'.toolInstanceID.isSome = true →
        ∃ it ∈ r.items, it.toolInstanceID = it'.toolInstanceID ∧ it.toolID = it'.toolID))
    (h : InvS s) : InvS s' := by
  obtain ⟨hJ, hK, hNI, hNR, hC⟩ := h
  refine ⟨?_, ?_, ?_, ?_, ?_⟩
  · intro x1 hx1 x2 hx2 hne hb1 hb2 hov hsh
    rw [hrent] at hx1 hx2
    obtain ⟨a1, ha1, rfl⟩ := List.mem_map.mp hx1
    obtain ⟨a2, ha2, rfl⟩ := List.mem_map.mp hx2
    obtain ⟨hid1, hsd1, hed1, hbl1, hit1⟩ := hg a1 ha1
    obtain ⟨hid2, hsd2, hed2, hbl2, hit2⟩ := hg a2 ha2
    obtain ⟨it1, hm1, it2, hm2, hsome, heq⟩ := hsh
    obtain ⟨j1, hj1, hj1eq, hj1t⟩ := hit1 it1 hm1 hsome
    have hsome2 : it2.toolInstanceID.isSome = true := by rw [← heq]; exact hsome
    obtain ⟨j2, hj2, hj2eq, hj2t⟩ := hit2 it2 hm2 hsome2
    exact hJ a1 ha1 a2 ha2 (by rw [← hid1, ← hid2]; exact hne)
      (hbl1 hb1) (hbl2 hb2)
      ⟨by rw [← hsd1, ← hed2]; exact hov.1, by rw [← hsd2, ← hed1]; exact hov.2⟩
      ⟨j1, hj1, j2, hj2, by rw [hj1eq]; exact hsome, by rw [hj1eq, hj2eq]; exact heq⟩
  · intro x hx it hit y hy k hk hk1
    rw [hrent] at hx
    rw [hinst] at hk
    obtain ⟨a, ha, rfl⟩ := List.mem_map.mp hx
    obtain ⟨-, -, -, -, hitg⟩ := hg a ha
    obtain ⟨j, hj, hjeq, hjt⟩ := hitg it hit (by rw [hy]; rfl)
    have hkj := hK a ha j hj y (by rw [hjeq]; exact hy) k hk hk1
    exact hkj.trans hjt
  · rw [hinst]; exact hNI
  · rw [hrent, List.map_map]
    have hcg : List.map ((fun r => r.rentalID) ∘ g) s.rentals =
        List.map (fun r => r.rentalID) s.rentals :=
      List.map_congr_left (fun r hr => (hg r hr).1)
    rw [hcg]
    exact hNR
  · intro x hx
    rw [hrent] at hx
    obtain ⟨a, ha, rfl⟩ := List.mem_map.mp hx
    exact lt_of_lt_of_le (by rw [(hg a ha).1]; exact hC a ha) hnext

/-- Rewrites that touch only the rentals with one id preserve the
invariant provided the rewritten rows stay consistent and safe against
every other blocking row. -/
theorem InvS_map_guarded {s s' : EngineState} (g : Rental → Rental) (rid : Nat)
    (hrent : s'.rentals = s.rentals.map g) (hinst : s'.instances = s.instances)
    (hnext : s.nextRentalID ≤ s'.nextRentalID)
    (hoff : ∀ r ∈ s.rentals, r.rentalID ≠ rid → g r = r)
    (hid : ∀ r ∈ s.rentals, (g r).rentalID = r.rentalID)
    (hKn : ∀ r ∈ s.rentals, r.rentalID = rid → ∀ it' ∈ (g r).items, ∀ x,
      it'.toolInstanceID = some x → ∀ k ∈ instKeysL s.instances, k.1 = x → k.2 = it'.toolID)
    (hsafe : ∀ r ∈ s.rentals, r.rentalID = rid → ∀ r2 ∈ s.rentals, r2.rentalID ≠ rid →
      isBlocking (g r) = true → isBlocking r2 = true → overlapsR (g r) r2 →
      ¬ sharesInstance (g r) r2)
    (h : InvS s) : InvS s' := by
  obtain ⟨hJ, hK, hNI, hNR, hC⟩ := h
  refine ⟨?_, ?_, ?_, ?_, ?_⟩
  · intro x1 hx1 x2 hx2 hne hb1 hb2 hov hsh
    rw [hrent] at hx1 hx2
    obtain ⟨a1, ha1, rfl⟩ := List.mem_map.mp hx1
    obtain ⟨a2, ha2, rfl⟩ := List.mem_map.mp hx2
    by_cases hc1 : a1.rentalID = rid <;> by_cases hc2 : a2.rentalID = rid
    · exact hne (by rw [hid a1 ha1, hid a2 ha2, hc1, hc2])
    · rw [hoff a2 ha2 hc2] at hb2 hov hsh
      exact hsafe a1 ha1 hc1 a2 ha2 hc2 hb1 hb2 hov hsh
    · rw [hoff a1 ha1 hc1] at hb1 hov hsh
      exact hsafe a2 ha2 hc2 a1 ha1 hc1 hb2 hb1 (overlapsR_symm hov) (sharesInstance_symm hsh)
    · simp only [hoff a1 ha1 hc1, hoff a2 ha2 hc2] at hne hb1 hb2 hov hsh
      exact hJ a1 ha1 a2 ha2 hne hb1 hb2 hov hsh
  · intro x hx it hit y hy k hk hk1
    rw [hrent] at hx
    rw [hinst] at hk
    obtain ⟨a, ha, rfl⟩ := List.mem_map.mp hx
    by_cases hc : a.rentalID = rid
    · exact hKn a ha hc it hit y hy k hk hk1
    · rw [hoff a ha hc] at hit
      exact hK a ha it hit y hy k hk hk1
  · rw [hinst]; exact hNI
  · rw [hrent, List.map_map]
    have hcg : List.map ((fun r => r.rentalID) ∘ g) s.rentals =
        List.map (fun r => r.rentalID) s.rentals :=
      List.map_congr_left (fun r hr => hid r hr)
    rw [hcg]
    exact hNR
  · intro x hx
    rw [hrent] at hx
    obtain ⟨a, ha, rfl⟩ := List.mem_map.mp hx
    exact lt_of_lt_of_le (by rw [hid a ha]; exact hC a ha) hnext

/-- Persisting a row that keeps its id, window and bound references, and
that cannot start blocking, preserves the invariant. -/
theorem InvS_updateRentalIn_le {s : EngineState} {r0 r' : Rental}
    (h : InvS s) (hmem : r0 ∈ s.rentals) (hid : r'.rentalID = r0.rentalID)
    (hsd : r'.startDate = r0.startDate) (hed : r'.endDate = r0.endDate)
    (hbl : isBlocking r' = true → isBlocking r0 = true)
    (hitems : ∀ it' ∈ r'.items, it'.toolInstanceID.isSome = true →
      ∃ it ∈ r0.items, it.toolInstanceID = it'.toolInstanceID ∧ it.toolID = it'.toolID) :
    InvS (updateRentalIn s r') := by
  apply InvS_map_le (fun r => if r.rentalID = r'.rentalID then r' else r) ?_ ?_ ?_ ?_ h
  · rfl
  · rfl
  · exact le_rfl
  intro r hr
  dsimp only
  by_cases hc : r.rentalID = r'.rentalID
  · have hr0 : r = r0 := rental_id_inj h.2.2.2.1 hr hmem (hc.trans hid)
    subst hr0
    rw [if_pos hc]
    exact ⟨hid, hsd, hed, hbl, hitems⟩
  · rw [if_neg hc]
    exact ⟨rfl, rfl, rfl, fun hb => hb, fun it' hit' hs => ⟨it', hit', rfl, rfl⟩⟩

/-- Persisting a row that keeps its id and bound references, and is safe
against every other blocking row of the table, preserves the invariant
even when the window moves. -/
theorem InvS_updateRentalIn_guarded {s : EngineState} {r0 r' : Rental}
    (h : InvS s) (hmem : r0 ∈ s.rentals) (hid : r'.rentalID = r0.rentalID)
    (hitems : ∀ it' ∈ r'.items, it'.toolInstanceID.isSome = true →
      ∃ it ∈ r0.items, it.toolInstanceID = it'.toolInstanceID ∧ it.toolID = it'.toolID)
    (hsafe : ∀ r2 ∈ s.rentals, r2.rentalID ≠ r'.rentalID → isBlocking r' = true →
      isBlocking r2 = true → overlapsR r' r2 → ¬ sharesInstance r' r2) :
    InvS (updateRentalIn s r') := by
  apply InvS_map_guarded (fun r => if r.rentalID = r'.rentalID then r' else r) r'.rentalID
    ?_ ?_ ?_ ?_ ?_ ?_ ?_ h
  · rfl
  · rfl
  · exact le_rfl
  · intro r hr hne
    simp only [if_neg hne]
  · intro r hr
    by_cases hc : r.rentalID = r'.rentalID <;> simp [hc]
  · intro r hr hc it hit y hy k hk hk1
    have hr0 : r = r0 := rental_id_inj h.2.2.2.1 hr hmem (hc.trans hid)
    subst hr0
    dsimp only at hit
    rw [if_pos hc] at hit
    obtain ⟨j, hj, hjeq, hjt⟩ := hitems it hit (by rw [hy]; rfl)
    have hkj := h.2.1 r hmem j hj y (by rw [hjeq]; exact hy) k hk hk1
    exact hkj.trans hjt
  · intro r hr hc r2 hr2 hne2 hbg hb2 hov hsh
    have hr0 : r = r0 := rental_id_inj h.2.2.2.1 hr hmem (hc.trans hid)
    subst hr0
    dsimp only at hbg hov hsh
    rw [if_pos hc] at hbg hov hsh
    exact hsafe r2 hr2 hne2 hbg hb2 hov hsh

/-- Appending an unbound line to a rental preserves the invariant. -/
theorem InvS_addItem_unbound {s : EngineState} {rid : Nat} {it : RentalItem}
    (h : InvS s) (hub : it.toolInstanceID = none) : InvS (addItem s rid it) := by
  apply InvS_map_le (fun r => if r.rentalID = rid then { r with items := r.items ++ [it] } else r)
    ?_ ?_ ?_ ?_ h
  · rfl
  · rfl
  · exact le_rfl
  intro r hr
  dsimp only
  by_cases hc : r.rentalID = rid
  · rw [if_pos hc]
    refine ⟨rfl, rfl, rfl, fun hb => hb, ?_⟩
    intro it' hit' hs
    rcases List.mem_append.mp hit' with hold | hnew
    · exact ⟨it', hold, rfl, rfl⟩
    · exfalso
      have hii : it' = it := List.mem_singleton.mp hnew
      rw [hii, hub] at hs
      simp at hs
  · rw [if_neg hc]
    exact ⟨rfl, rfl, rfl, fun hb => hb, fun it' hit' hs => ⟨it', hit', rfl, rfl⟩⟩

/-- Rewriting one line of a loaded rental to a line with the same bound
reference preserves the invariant. -/
theorem InvS_updateItemIn_le {s : EngineState} {rid : Nat} {r0 : Rental}
    {line it' : RentalItem}
    (h : InvS s) (hfind : findRental s rid = some r0) (hline : line ∈ r0.items)
    (hpair : it'.toolInstanceID.isSome = true →
      it'.toolInstanceID = line.toolInstanceID ∧ it'.toolID = line.toolID) :
    InvS (updateItemIn s rid it') := by
  have hmem := mem_of_findRental hfind
  have hid0 := findRental_rentalID hfind
  apply InvS_map_le (fun r => if r.rentalID = rid then
      { r with items := r.items.map (fun l =>
          if l.rentalItemID = it'.rentalItemID then it' else l) } else r) ?_ ?_ ?_ ?_ h
  · rfl
  · rfl
  · exact le_rfl
  intro r hr
  dsimp only
  by_cases hc : r.rentalID = rid
  · have hr0 : r = r0 := rental_id_inj h.2.2.2.1 hr hmem (hc.trans hid0.symm)
    subst hr0
    rw [if_pos hc]
    refine ⟨rfl, rfl, rfl, fun hb => hb, ?_⟩
    intro l' hl' hs
    obtain ⟨l, hl, rfl⟩ := List.mem_map.mp hl'
    by_cases hll : l.rentalItemID = it'.rentalItemID
    · simp only [if_pos hll] at hs ⊢
      obtain ⟨hp1, hp2⟩ := hpair hs
      exact ⟨line, hline, hp1.symm, hp2.symm⟩
    · simp only [if_neg hll] at hs ⊢
      exact ⟨l, hl, rfl, rfl⟩
  · rw [if_neg hc]
    exact ⟨rfl, rfl, rfl, fun hb => hb, fun l' hl' hs => ⟨l', hl', rfl, rfl⟩⟩

/-- Appending a bound line is safe when the target rentals sit on the
queried window, no blocking rental overlapping that window references the
instance, and every instance key with that id carries the line's tool. -/
theorem InvS_addItem_bound {s : EngineState} {rid : Nat} {it : RentalItem} {x : Nat}
    {a b : Int}
    (h : InvS s) (hit : it.toolInstanceID = some x)
    (hwin : ∀ r ∈ s.rentals, r.rentalID = rid → r.startDate = a ∧ r.endDate = b)
    (hguard : ∀ r2 ∈ s.rentals, isBlocking r2 = true → r2.startDate ≤ b →
      a ≤ r2.endDate → ¬ refsId r2 x)
    (hkey : ∀ k ∈ instKeysL s.instances, k.1 = x → k.2 = it.toolID) :
    InvS (addItem s rid it) := by
  apply InvS_map_guarded
    (fun r => if r.rentalID = rid then { r with items := r.items ++ [it] } else r) rid
    ?_ ?_ ?_ ?_ ?_ ?_ ?_ h
  · rfl
  · rfl
  · exact le_rfl
  · intro r hr hne
    simp only [if_neg hne]
  · intro r hr
    by_cases hc : r.rentalID = rid <;> simp [hc]
  · intro r hr hc it0 hit0 y hy k hk hk1
    simp only [if_pos hc] at hit0
    rcases List.mem_append.mp hit0 with hold | hnew
    · exact h.2.1 r hr it0 hold y hy k hk hk1
    · have hii : it0 = it := List.mem_singleton.mp hnew
      subst hii
      have hxy : x = y := by
        rw [hit] at hy
        injection hy
      subst hxy
      exact hkey k hk hk1
  · intro r hr hc r2 hr2 hne2 hbg hb2 hov hsh
    simp only [if_pos hc] at hbg hov hsh
    obtain ⟨hra, hrb⟩ := hwin r hr hc
    obtain ⟨it1, hm1, it2, hm2, hsome, heq⟩ := hsh
    rcases List.mem_append.mp hm1 with hold | hnew
    · exact h.1 r hr r2 hr2 (fun he => hne2 (he.symm.trans hc)) hbg hb2 hov
        ⟨it1, hold, it2, hm2, hsome, heq⟩
    · have h1 : it1 = it := List.mem_singleton.mp hnew
      subst h1
      apply hguard r2 hr2 hb2 ?_ ?_ ⟨it2, hm2, by rw [← heq]; exact hit⟩
      · have h2 : r2.startDate ≤ r.endDate := hov.2
        rw [hrb] at h2
        exact h2
      · have h2 : r.startDate ≤ r2.endDate := hov.1
        rw [hra] at h2
        exact h2

/-- Invariance only looks at the rentals, the instances and the id
counter. -/
theorem InvS_ext {s s' : EngineState} (hr : s'.rentals = s.rentals)
    (hi : s'.instances = s.instances) (hn : s.nextRentalID ≤ s'.nextRentalID)
    (h : InvS s) : InvS s' := by
  obtain ⟨hJ, hK, hNI, hNR, hC⟩ := h
  refine ⟨?_, ?_, ?_, ?_, ?_⟩
  · intro r1 h1 r2 h2
    rw [hr] at h1 h2
    exact hJ r1 h1 r2 h2
  · intro r hrr it hit y hy k hk hk1
    rw [hr] at hrr
    rw [hi] at hk
    exact hK r hrr it hit y hy k hk hk1
  · rw [hi]; exact hNI
  · rw [hr]; exact hNR
  · intro r hrr
    rw [hr] at hrr
    exact lt_of_lt_of_le (hC r hrr) hn

/-- Status rewrites keep the instance keys. -/
theorem instKeysL_setStatus (l : List ToolInstance) (iid : Nat) (st : String) :
    instKeysL (l.map (fun i => if i.toolInstanceID = iid then { i with status := st } else i)) =
      instKeysL l := by
  unfold instKeysL
  rw [List.map_map]
  exact List.map_congr_left (fun i hi => by by_cases hc : i.toolInstanceID = iid <;> simp [hc])

/-- Status rewrites keep the instance id column. -/
theorem instIds_setStatus (l : List ToolInstance) (iid : Nat) (st : String) :
    ((l.map (fun i => if i.toolInstanceID = iid then { i with status := st } else i)).map
        (fun i => i.toolInstanceID)) =
      l.map (fun i => i.toolInstanceID) := by
  rw [List.map_map]
  exact List.map_congr_left (fun i hi => by by_cases hc : i.toolInstanceID = iid <;> simp [hc])

/-- Rewriting an instance's status preserves the invariant. -/
theorem InvS_setInstanceStatus {s : EngineState} (iid : Nat) (st : String)
    (h : InvS s) : InvS (setInstanceStatus s iid st) := by
  obtain ⟨hJ, hK, hNI, hNR, hC⟩ := h
  refine ⟨hJ, ?_, ?_, hNR, hC⟩
  · intro r hr it hit y hy k hk hk1
    have hk' : k ∈ instKeysL s.instances := by
      rw [← instKeysL_setStatus s.instances iid st]
      exact hk
    exact hK r hr it hit y hy k hk' hk1
  · have hids : ((setInstanceStatus s iid st).instances.map (fun i => i.toolInstanceID)) =
        s.instances.map (fun i => i.toolInstanceID) := instIds_setStatus s.instances iid st
    rw [hids]
    exact hNI

/-- Rewriting a tool's status preserves the invariant. -/
theorem InvS_setToolStatus {s : EngineState} (tid : Nat) (st : String)
    (h : InvS s) : InvS (setToolStatus s tid st) :=
  InvS_ext rfl rfl le_rfl h

/-- A fold over invariant-preserving steps preserves the invariant. -/
theorem InvS_foldl {α : Type} (f : EngineState → α → EngineState)
    (hf : ∀ s a, InvS s → InvS (f s a)) :
    ∀ (l : List α) (s : EngineState), InvS s → InvS (l.foldl f s)
  | [], _, h => h
  | a :: l, s, h => InvS_foldl f hf l (f s a) (hf s a h)

/-- Releasing reserved instances preserves the invariant. -/
theorem InvS_releaseReservedInstances {s : EngineState} (r : Rental) (h : InvS s) :
    InvS (releaseReservedInstances s r) := by
  unfold releaseReservedInstances
  apply InvS_foldl _ ?_ r.items s h
  intro s0 it h0
  cases hti : it.toolInstanceID with
  | none => simp only [hti]; exact h0
  | some iid =>
    simp only [hti]
    cases hfi : findInstance s0 iid with
    | none => simp only [hfi]; exact h0
    | some inst =>
      simp only [hfi]
      by_cases hc : inst.status = "Reserved" ∨ inst.status = "Rented"
      · rw [if_pos hc]
        exact InvS_setInstanceStatus iid "Available" h0
      · rw [if_neg hc]
        exact h0

/-- The full-return path preserves the invariant. -/
theorem InvS_applyReturnUpdates {s : EngineState} {r : Rental} (rc rn : Option String)
    (today now : Int) (h : InvS s) (hmem : r ∈ s.rentals) :
    InvS (applyReturnUpdates s r rc rn today now) := by
  unfold applyReturnUpdates
  apply InvS_foldl _ ?_ _ _ ?_
  · intro s0 it h0
    cases hti : it.toolInstanceID with
    | some iid => simp only [hti]; exact InvS_setInstanceStatus iid "Available" h0
    | none => simp only [hti]; exact InvS_setToolStatus it.toolID "Available" h0
  · apply InvS_updateRentalIn_le h hmem ?_ ?_ ?_ ?_ ?_
    · rfl
    · rfl
    · rfl
    · intro hb
      have hb' : blockingStates.contains (normalizeState "Returned") = true := hb
      exact absurd hb' (by decide)
    · intro it' hit' hs
      exact ⟨it', hit', rfl, rfl⟩

/-- Cost recalculation preserves the invariant. -/
theorem InvS_recalcRentalIn {s : EngineState} (rid : Nat) (h : InvS s) :
    InvS (recalcRentalIn s rid) := by
  unfold recalcRentalIn
  cases hf : findRental s rid with
  | none => exact h
  | some r =>
    apply InvS_updateRentalIn_le h (mem_of_findRental hf) (recalcTotalCost_frame r).2.1 ?_ ?_ ?_ ?_
    · unfold recalcTotalCost
      split <;> rfl
    · unfold recalcTotalCost
      split <;> rfl
    · intro hb
      have hst := (recalcTotalCost_frame r).1
      unfold isBlocking at hb ⊢
      rw [← hst]
      exact hb
    · intro it' hit' hs
      unfold recalcTotalCost at hit'
      by_cases hcase : r.items = []
      · rw [if_pos hcase] at hit'
        exact ⟨it', hit', rfl, rfl⟩
      · rw [if_neg hcase] at hit'
        obtain ⟨j, hj, rfl⟩ := List.mem_map.mp hit'
        exact ⟨j, hj, rfl, rfl⟩

/-- A negative overlap query (no exclusion) clears the instance against
every blocking rental overlapping the window. -/
theorem hasInstanceOverlap_none_false {s : EngineState} {iid : Nat} {a b : Int}
    (h : hasInstanceOverlap s iid a b none = false) :
    ∀ r2 ∈ s.rentals, isBlocking r2 = true → r2.startDate ≤ b → a ≤ r2.endDate →
      ¬ refsId r2 iid := by
  intro r2 hr2 hb hsb hae hrefs
  obtain ⟨it, hit, hiteq⟩ := hrefs
  have hb' : blockingStates.contains (normalizeState r2.status) = true := hb
  have hany : r2.items.any (fun it0 => it0.toolInstanceID = some iid) = true :=
    List.any_eq_true.mpr ⟨it, hit, by simp [hiteq]⟩
  have htrue : hasInstanceOverlap s iid a b none = true := by
    unfold hasInstanceOverlap
    refine List.any_eq_true.mpr ⟨r2, hr2, ?_⟩
    simp [hsb, hae, hany]
    simpa using hb'
  rw [h] at htrue
  exact absurd htrue (by decide)

/-- A negative overlap query excluding one rental clears the instance
against every other blocking rental overlapping the window. -/
theorem hasInstanceOverlap_some_false {s : EngineState} {iid : Nat} {a b : Int}
    {rid : Nat} (h : hasInstanceOverlap s iid a b (some rid) = false) :
    ∀ r2 ∈ s.rentals, r2.rentalID ≠ rid → isBlocking r2 = true → r2.startDate ≤ b →
      a ≤ r2.endDate → ¬ refsId r2 iid := by
  intro r2 hr2 hne hb hsb hae hrefs
  obtain ⟨it, hit, hiteq⟩ := hrefs
  have hb' : blockingStates.contains (normalizeState r2.status) = true := hb
  have hany : r2.items.any (fun it0 => it0.toolInstanceID = some iid) = true :=
    List.any_eq_true.mpr ⟨it, hit, by simp [hiteq]⟩
  have htrue : hasInstanceOverlap s iid a b (some rid) = true := by
    unfold hasInstanceOverlap
    refine List.any_eq_true.mpr ⟨r2, hr2, ?_⟩
    simp [hsb, hae, hany, hne]
    simpa using hb'
  rw [h] at htrue
  exact absurd htrue (by decide)

/-- What membership in the resolver's answer guarantees: an instance row
of the queried tool that the same-tool busy query cleared. -/
theorem mem_avail_spec {s : EngineState} {toolId : Nat} {a b : Int} {excl : List Nat}
    {inst : ToolInstance} (h : inst ∈ getAvailableInstances s toolId a b excl) :
    inst ∈ s.instances ∧ inst.toolID = toolId ∧
      instanceBusy s toolId a b inst.toolInstanceID = false := by
  obtain ⟨hmem0, hf2⟩ := List.mem_filter.mp h
  have hmem1 := ((List.perm_insertionSort
      (fun a b => stringLE a.serialNumber b.serialNumber = true)
      (s.instances.filter (fun i => i.toolID = toolId && i.status = "Available"))).mem_iff).mp
    hmem0
  obtain ⟨hmem, hf1⟩ := List.mem_filter.mp hmem1
  simp only [Bool.and_eq_true, decide_eq_true_eq] at hf1
  simp only [Bool.and_eq_true, Bool.not_eq_true'] at hf2
  exact ⟨hmem, hf1.1, hf2.1.1⟩

/-- Tool-consistency upgrades the resolver's same-tool busy test to the
full guard: no blocking rental overlapping the window references the
returned instance at all. -/
theorem avail_guard {s : EngineState} {toolId : Nat} {a b : Int} {excl : List Nat}
    {inst : ToolInstance}
    (hK : toolConsistentL s.rentals (instKeysL s.instances))
    (h : inst ∈ getAvailableInstances s toolId a b excl) :
    ∀ r2 ∈ s.rentals, isBlocking r2 = true → r2.startDate ≤ b → a ≤ r2.endDate →
      ¬ refsId r2 inst.toolInstanceID := by
  obtain ⟨hmem, ht, hbusy⟩ := mem_avail_spec h
  intro r2 hr2 hb hsb hae hrefs
  obtain ⟨it, hit, hiteq⟩ := hrefs
  have hkey : (inst.toolInstanceID, inst.toolID) ∈ instKeysL s.instances :=
    List.mem_map.mpr ⟨inst, hmem, rfl⟩
  have htid : inst.toolID = it.toolID :=
    hK r2 hr2 it hit inst.toolInstanceID hiteq _ hkey rfl
  have htrue : instanceBusy s toolId a b inst.toolInstanceID = true := by
    rw [instanceBusy_iff]
    exact ⟨r2, hr2, hb, hsb, hae, it, hit, by rw [← htid]; exact ht, hiteq⟩
  rw [hbusy] at htrue
  exact absurd htrue (by decide)

/-- The resolver's answers have pairwise distinct instance ids when the
table's id column is unique. -/
theorem nodup_avail_ids {s : EngineState} {toolId : Nat} {a b : Int} {excl : List Nat}
    (hNI : (s.instances.map (fun i => i.toolInstanceID)).Nodup) :
    ((getAvailableInstances s toolId a b excl).map (fun i => i.toolInstanceID)).Nodup := by
  have h1 : ((s.instances.filter
      (fun i => i.toolID = toolId && i.status = "Available")).map
      (fun i => i.toolInstanceID)).Nodup :=
    List.Nodup.sublist (List.Sublist.map _ (List.filter_sublist _)) hNI
  have h2 : ((List.insertionSort (fun a b => stringLE a.serialNumber b.serialNumber = true)
      (s.instances.filter (fun i => i.toolID = toolId && i.status = "Available"))).map
      (fun i => i.toolInstanceID)).Nodup := by
    rw [List.Perm.nodup_iff ((List.perm_insertionSort _ _).map _)]
    exact h1
  exact List.Nodup.sublist (List.Sublist.map _ (List.filter_sublist _)) h2

/-- The ranker permutes its candidates. -/
theorem mem_ranked {s : EngineState} {toolId : Nat} {cand : List Nat} {iid : Nat}
    (h : iid ∈ rankInstancesForAllocation s toolId cand) : iid ∈ cand := by
  unfold rankInstancesForAllocation at h
  by_cases hc : cand = []
  · rw [if_pos hc] at h
    simp at h
  · rw [if_neg hc] at h
    exact ((List.perm_insertionSort _ _).mem_iff).mp h

/-- The ranker keeps candidates pairwise distinct. -/
theorem nodup_ranked {s : EngineState} {toolId : Nat} {cand : List Nat}
    (h : cand.Nodup) : (rankInstancesForAllocation s toolId cand).Nodup := by
  unfold rankInstancesForAllocation
  by_cases hc : cand = []
  · rw [if_pos hc]
    exact List.nodup_nil
  · rw [if_neg hc]
    rw [List.Perm.nodup_iff (List.perm_insertionSort _ _)]
    exact h

/-- Appending a line bound to a different instance (or unbound) preserves
an instance's clearance guard. -/
theorem guard_transfer_addItem {s : EngineState} {rid : Nat} {item : RentalItem} {x : Nat}
    (hx : item.toolInstanceID ≠ some x) {a b : Int}
    (hg : ∀ r2 ∈ s.rentals, isBlocking r2 = true → r2.startDate ≤ b → a ≤ r2.endDate →
      ¬ refsId r2 x) :
    ∀ r2 ∈ (addItem s rid item).rentals, isBlocking r2 = true → r2.startDate ≤ b →
      a ≤ r2.endDate → ¬ refsId r2 x := by
  intro r2 hr2 hbl hsb hae hrefs
  obtain ⟨r, hr, rfl⟩ := List.mem_map.mp hr2
  by_cases hc : r.rentalID = rid
  · rw [if_pos hc] at hbl hsb hae hrefs
    obtain ⟨it2, hm2, he2⟩ := hrefs
    rcases List.mem_append.mp hm2 with hold | hnew
    · exact hg r hr hbl hsb hae ⟨it2, hold, he2⟩
    · have hii : it2 = item := List.mem_singleton.mp hnew
      rw [hii] at he2
      exact hx he2
  · rw [if_neg hc] at hbl hsb hae hrefs
    exact hg r hr hbl hsb hae hrefs

/-- Binding a cleared selection one instance at a time keeps the invariant
and leaves the target rental loaded with its window intact. -/
theorem bindSelected_spec (rid toolId : Nat) (ids : List Nat) :
    ∀ (s : EngineState) (r0 : Rental) (a b : Int),
      InvS s → findRental s rid = some r0 → r0.startDate = a → r0.endDate = b →
      ids.Nodup →
      (∀ iid ∈ ids, ∀ r2 ∈ s.rentals, isBlocking r2 = true → r2.startDate ≤ b →
        a ≤ r2.endDate → ¬ refsId r2 iid) →
      (∀ iid ∈ ids, ∀ k ∈ instKeysL s.instances, k.1 = iid → k.2 = toolId) →
      InvS (bindSelected s rid toolId ids) ∧
      ∃ r1, findRental (bindSelected s rid toolId ids) rid = some r1 ∧
        r1.startDate = a ∧ r1.endDate = b := by
  induction ids with
  | nil =>
    intro s r0 a b hInv hfind ha hb _ _ _
    exact ⟨hInv, r0, hfind, ha, hb⟩
  | cons iid rest ih =>
    intro s r0 a b hInv hfind ha hb hnd hg hk
    have hmem0 := mem_of_findRental hfind
    have hid0 := findRental_rentalID hfind
    obtain ⟨item, hitem⟩ : ∃ item : RentalItem, item =
        { rentalItemID := (setInstanceStatus s iid "Reserved").nextItemID, toolID := toolId,
          toolInstanceID := some iid, quantity := 1,
          dailyCost := some (resolveToolDailyCost r0.items toolId), totalCost := none,
          state := "Reserved", deficit := false } := ⟨_, rfl⟩
    have hitid : item.toolInstanceID = some iid := by rw [hitem]
    have hitool : item.toolID = toolId := by rw [hitem]
    have hInv1 : InvS (setInstanceStatus s iid "Reserved") :=
      InvS_setInstanceStatus iid _ hInv
    have hfind1 : findRental (setInstanceStatus s iid "Reserved") rid = some r0 := hfind
    have hwin : ∀ r ∈ (setInstanceStatus s iid "Reserved").rentals, r.rentalID = rid →
        r.startDate = a ∧ r.endDate = b := by
      intro r hr hcc
      have hr0 : r = r0 := rental_id_inj hInv.2.2.2.1 hr hmem0 (hcc.trans hid0.symm)
      subst hr0
      exact ⟨ha, hb⟩
    have hguard1 : ∀ r2 ∈ (setInstanceStatus s iid "Reserved").rentals,
        isBlocking r2 = true → r2.startDate ≤ b → a ≤ r2.endDate → ¬ refsId r2 iid :=
      hg iid (List.mem_cons_self _ _)
    have hkey1 : ∀ k ∈ instKeysL (setInstanceStatus s iid "Reserved").instances,
        k.1 = iid → k.2 = item.toolID := by
      intro k hkk hk1
      rw [hitool]
      exact hk iid (List.mem_cons_self _ _) k
        (by rw [← instKeysL_setStatus s.instances iid "Reserved"]; exact hkk) hk1
    have hInv2 : InvS (addItem (setInstanceStatus s iid "Reserved") rid item) :=
      InvS_addItem_bound hInv1 hitid hwin hguard1 hkey1
    have hfind2 := findRental_addItem item hfind1
    have hgrest : ∀ iid' ∈ rest,
        ∀ r2 ∈ (addItem (setInstanceStatus s iid "Reserved") rid item).rentals,
        isBlocking r2 = true → r2.startDate ≤ b → a ≤ r2.endDate → ¬ refsId r2 iid' := by
      intro iid' hm'
      apply guard_transfer_addItem ?_ (hg iid' (List.mem_cons_of_mem _ hm'))
      rw [hitid]
      intro he
      have hee : iid = iid' := by injection he
      exact (List.nodup_cons.mp hnd).1 (hee ▸ hm')
    have hkrest : ∀ iid' ∈ rest,
        ∀ k ∈ instKeysL (addItem (setInstanceStatus s iid "Reserved") rid item).instances,
        k.1 = iid' → k.2 = toolId := by
      intro iid' hm' k hkk hk1
      exact hk iid' (List.mem_cons_of_mem _ hm') k
        (by rw [← instKeysL_setStatus s.instances iid "Reserved"]; exact hkk) hk1
    simp only [bindSelected, bindReservedInstance, hfind]
    rw [← hitem]
    exact ih _ _ a b hInv2 hfind2 ha hb (List.Nodup.of_cons hnd) hgrest hkrest

/-- Recording a shortage line preserves the invariant. -/
theorem InvS_addShortageLine {s : EngineState} (rid toolId : Nat) (q : Int) (h : InvS s) :
    InvS (addShortageLine s rid toolId q) := by
  unfold addShortageLine
  cases hf : findRental s rid with
  | none => exact h
  | some rental => exact InvS_addItem_unbound h rfl

/-- The selection drawn from the ranked availability answer is duplicate
free, cleared against every overlapping blocking rental, and of the
queried tool. -/
theorem selected_props {s : EngineState} (toolId : Nat) (a b : Int) (n : Nat)
    (hNI : (s.instances.map (fun i => i.toolInstanceID)).Nodup)
    (hK : toolConsistentL s.rentals (instKeysL s.instances)) :
    (List.take n (rankInstancesForAllocation s toolId
      ((getAvailableInstances s toolId a b []).map (fun i => i.toolInstanceID)))).Nodup ∧
    (∀ iid ∈ List.take n (rankInstancesForAllocation s toolId
        ((getAvailableInstances s toolId a b []).map (fun i => i.toolInstanceID))),
      (∀ r2 ∈ s.rentals, isBlocking r2 = true → r2.startDate ≤ b → a ≤ r2.endDate →
        ¬ refsId r2 iid) ∧
      (∀ k ∈ instKeysL s.instances, k.1 = iid → k.2 = toolId)) := by
  constructor
  · exact List.Nodup.sublist (List.take_sublist _ _) (nodup_ranked (nodup_avail_ids hNI))
  · intro iid hmem
    have hmem1 : iid ∈ (getAvailableInstances s toolId a b []).map
        (fun i => i.toolInstanceID) := mem_ranked (List.take_subset _ _ hmem)
    obtain ⟨inst, hinst, rfl⟩ := List.mem_map.mp hmem1
    constructor
    · exact avail_guard hK hinst
    · intro k hkk hk1
      exact (instKey_unique hNI (mem_avail_spec hinst).1 rfl k hkk hk1).trans
        (mem_avail_spec hinst).2.1

/-- The bind-then-shortage tail of one tool's allocation turn preserves
the invariant. -/
theorem InvS_allocateTool_core {s : EngineState} (rid toolId : Nat) (qty : Int)
    (sel : List Nat) (h : InvS s) {r0 : Rental} (hfind : findRental s rid = some r0)
    (hnd : sel.Nodup)
    (hg : ∀ iid ∈ sel, ∀ r2 ∈ s.rentals, isBlocking r2 = true →
      r2.startDate ≤ r0.endDate → r0.startDate ≤ r2.endDate → ¬ refsId r2 iid)
    (hk : ∀ iid ∈ sel, ∀ k ∈ instKeysL s.instances, k.1 = iid → k.2 = toolId) :
    InvS (if 0 < max 0 (qty - (sel.length : Int)) then
        addShortageLine (bindSelected s rid toolId sel) rid toolId
          (max 0 (qty - (sel.length : Int)))
      else bindSelected s rid toolId sel) := by
  obtain ⟨hInvB, -⟩ := bindSelected_spec rid toolId sel s r0 r0.startDate r0.endDate
    h hfind rfl rfl hnd hg hk
  by_cases hq : 0 < max 0 (qty - (sel.length : Int))
  · rw [if_pos hq]
    exact InvS_addShortageLine rid toolId _ hInvB
  · rw [if_neg hq]
    exact hInvB

/-- One tool's allocation turn preserves the invariant. -/
theorem InvS_allocateTool {s : EngineState} (rid toolId : Nat) (qty : Int) (h : InvS s) :
    InvS (allocateTool s rid toolId qty) := by
  unfold allocateTool
  by_cases hq : qty ≤ 0
  · rw [if_pos hq]
    exact h
  · rw [if_neg hq]
    cases hf : findRental s rid with
    | none => exact h
    | some rental =>
      obtain ⟨hnd1, hprops⟩ := selected_props toolId rental.startDate rental.endDate
        qty.toNat h.2.2.1 h.2.1
      exact InvS_allocateTool_core rid toolId qty _ h hf hnd1
        (fun iid hm => (hprops iid hm).1) (fun iid hm => (hprops iid hm).2)

/-- Zeroing and superseding the original request lines preserves the
invariant. -/
theorem InvS_zeroLines {s : EngineState} {rid : Nat} (ids : List Nat) (h : InvS s) :
    InvS (match findRental s rid with
      | none => s
      | some rental1 => updateRentalIn s { rental1 with items := rental1.items.map (fun l =>
          if ids.contains l.rentalItemID then { l with quantity := 0, state := "Superseded" }
          else l) }) := by
  cases hf1 : findRental s rid with
  | none => exact h
  | some rental1 =>
    apply InvS_updateRentalIn_le h (mem_of_findRental hf1) ?_ ?_ ?_ ?_ ?_
    · rfl
    · rfl
    · rfl
    · intro hb
      exact hb
    · intro it' hit' hs
      obtain ⟨l, hl, rfl⟩ := List.mem_map.mp hit'
      by_cases hcc : ids.contains l.rentalItemID = true
      · rw [if_pos hcc]
        exact ⟨l, hl, rfl, rfl⟩
      · rw [if_neg hcc]
        exact ⟨l, hl, rfl, rfl⟩

/-- The whole reservation-allocation pass preserves the invariant. -/
theorem InvS_allocateReservationLines {s : EngineState} (rid : Nat) (h : InvS s) :
    InvS (allocateReservationLines s rid) := by
  unfold allocateReservationLines
  cases hf : findRental s rid with
  | none => exact h
  | some rental =>
    have hs1 : InvS (List.foldl (fun sAcc t => allocateTool sAcc rid t
        ((((rental.items.filter (fun l => 0 < l.quantity)).filter
            (fun l => l.toolID = t)).map (fun l => l.quantity)).sum))
        s (dedupFirst ((rental.items.filter (fun l => 0 < l.quantity)).map
          (fun l => l.toolID)))) :=
      InvS_foldl _ (fun s0 t h0 => InvS_allocateTool rid t _ h0) _ s h
    exact InvS_zeroLines _ hs1

/-- Shortage actions only rewrite quantities and lifecycle states. -/
theorem applyShortageActions_frame (r : Rental) (acts : List ShortageAction) :
    (applyShortageActions r acts).rentalID = r.rentalID ∧
    (applyShortageActions r acts).startDate = r.startDate ∧
    (applyShortageActions r acts).endDate = r.endDate ∧
    (applyShortageActions r acts).status = r.status ∧
    (∀ it' ∈ (applyShortageActions r acts).items, ∃ it ∈ r.items,
      it.toolInstanceID = it'.toolInstanceID ∧ it.toolID = it'.toolID) := by
  unfold applyShortageActions
  by_cases hc : acts = []
  · rw [if_pos hc]
    exact ⟨rfl, rfl, rfl, rfl, fun it' hit' => ⟨it', hit', rfl, rfl⟩⟩
  · rw [if_neg hc]
    refine ⟨rfl, rfl, rfl, rfl, ?_⟩
    intro it' hit'
    obtain ⟨l, hl, rfl⟩ := List.mem_map.mp hit'
    cases hfa : acts.reverse.find? (fun a0 => a0.rentalItemID = l.rentalItemID) with
    | none => exact ⟨l, hl, rfl, rfl⟩
    | some a =>
      dsimp only
      by_cases hact : a.action = "exclude"
      · rw [if_pos hact]
        exact ⟨l, hl, rfl, rfl⟩
      · rw [if_neg hact]
        exact ⟨l, hl, rfl, rfl⟩

/-- Recalculation keeps the window. -/
theorem recalcTotalCost_dates (r : Rental) :
    (recalcTotalCost r).startDate = r.startDate ∧ (recalcTotalCost r).endDate = r.endDate := by
  unfold recalcTotalCost
  split <;> exact ⟨rfl, rfl⟩

/-- Recalculation keeps every line's bound reference and tool. -/
theorem recalcTotalCost_items (r : Rental) :
    ∀ it' ∈ (recalcTotalCost r).items, ∃ it ∈ r.items,
      it.toolInstanceID = it'.toolInstanceID ∧ it.toolID = it'.toolID := by
  unfold recalcTotalCost
  by_cases hc : r.items = []
  · rw [if_pos hc]
    exact fun it' hit' => ⟨it', hit', rfl, rfl⟩
  · rw [if_neg hc]
    intro it' hit'
    obtain ⟨j, hj, rfl⟩ := List.mem_map.mp hit'
    exact ⟨j, hj, rfl, rfl⟩

/-- Created request lines always start unbound. -/
theorem buildCreateItems_unbound {s : EngineState} {st : String} :
    ∀ {lines : List CreateLine} {nid : Nat} {items : List RentalItem} {nid' : Nat},
      buildCreateItems s st nid lines = Except.ok (items, nid') →
      ∀ it ∈ items, it.toolInstanceID = none := by
  intro lines
  induction lines with
  | nil =>
    intro nid items nid' h it hit
    simp only [buildCreateItems] at h
    injection h with hp
    injection hp with h1 h2
    rw [← h1] at hit
    exact absurd hit (List.not_mem_nil _)
  | cons line rest ih =>
    intro nid items nid' h it hit
    simp only [buildCreateItems] at h
    cases hft : findTool s line.toolID with
    | none =>
      simp only [hft] at h
      exact Except.noConfusion h
    | some tool =>
      simp only [hft] at h
      by_cases hmode : (orStr line.assignmentMode
            (if line.toolInstanceID.isSome then "manual" else "auto") ≠ "auto" ∧
          orStr line.assignmentMode
            (if line.toolInstanceID.isSome then "manual" else "auto") ≠ "manual")
      · rw [if_pos hmode] at h
        exact Except.noConfusion h
      · rw [if_neg hmode] at h
        cases hrec : buildCreateItems s st (nid + 1) rest with
        | error e =>
          simp only [hrec] at h
          exact Except.noConfusion h
        | ok p =>
          obtain ⟨items0, nid0⟩ := p
          simp only [hrec] at h
          injection h with hp
          injection hp with h1 h2
          rw [← h1] at hit
          rcases List.mem_cons.mp hit with rfl | hm
          · rfl
          · exact ih hrec it hm

/-- Appending a fresh all-unbound rental row preserves the invariant. -/
theorem InvS_append_unbound {s : EngineState} {r : Rental} {nid : Nat}
    {au : List AuditEntry}
    (h : InvS s) (hid : r.rentalID = s.nextRentalID)
    (hub : ∀ it ∈ r.items, it.toolInstanceID = none) :
    InvS { s with rentals := s.rentals ++ [r], nextRentalID := s.nextRentalID + 1,
                  nextItemID := nid, audits := au } := by
  obtain ⟨hJ, hK, hNI, hNR, hC⟩ := h
  have hnoshare : ∀ r2 : Rental, ¬ sharesInstance r2 r := by
    intro r2 hsh
    obtain ⟨it1, h1, it2, h2, hsm, heq⟩ := hsh
    rw [heq, hub it2 h2] at hsm
    simp at hsm
  have hnoshare' : ∀ r2 : Rental, ¬ sharesInstance r r2 := fun r2 hsh =>
    hnoshare r2 (sharesInstance_symm hsh)
  refine ⟨?_, ?_, hNI, ?_, ?_⟩
  · intro x1 hx1 x2 hx2 hne hb1 hb2 hov hsh
    rcases List.mem_append.mp hx1 with hm1 | hm1 <;>
      rcases List.mem_append.mp hx2 with hm2 | hm2
    · exact hJ x1 hm1 x2 hm2 hne hb1 hb2 hov hsh
    · have he2 : x2 = r := List.mem_singleton.mp hm2
      subst he2
      exact hnoshare x1 hsh
    · have he1 : x1 = r := List.mem_singleton.mp hm1
      subst he1
      exact hnoshare' x2 hsh
    · have he1 : x1 = r := List.mem_singleton.mp hm1
      have he2 : x2 = r := List.mem_singleton.mp hm2
      exact hne (by rw [he1, he2])
  · intro x hx it hit y hy k hk hk1
    rcases List.mem_append.mp hx with hm | hm
    · exact hK x hm it hit y hy k hk hk1
    · have he : x = r := List.mem_singleton.mp hm
      subst he
      rw [hub it hit] at hy
      exact Option.noConfusion hy
  · rw [List.map_append]
    refine List.nodup_append.mpr ⟨hNR, List.nodup_singleton _, ?_⟩
    intro a ha1 ha2
    obtain ⟨rr, hrr, rfl⟩ := List.mem_map.mp ha1
    have he : rr.rentalID = r.rentalID := by simpa using ha2
    rw [hid] at he
    exact absurd (he ▸ hC rr hrr) (lt_irrefl _)
  · intro x hx
    rcases List.mem_append.mp hx with hm | hm
    · exact Nat.lt_succ_of_lt (hC x hm)
    · have he : x = r := List.mem_singleton.mp hm
      subst he
      rw [hid]
      exact Nat.lt_succ_self _

/-- A passed extension check clears every bound line of the rental against
overlapping blocking rentals other than the one being extended. -/
theorem checkExtendItems_ok {s1 : EngineState} {rid : Nat} {a ne : Int} :
    ∀ {items : List RentalItem}, checkExtendItems s1 rid a ne items = Except.ok () →
      ∀ it ∈ items, ∀ iid, it.toolInstanceID = some iid →
        hasInstanceOverlap s1 iid a ne (some rid) = false := by
  intro items
  induction items with
  | nil =>
    intro _ it hmem
    exact absurd hmem (List.not_mem_nil _)
  | cons it0 rest ih =>
    intro hok it hmem iid hti
    simp only [checkExtendItems] at hok
    by_cases hcb : (match it0.toolInstanceID with
        | none => false
        | some iid0 =>
          match findInstance s1 iid0 with
          | none => false
          | some inst => certExcluded inst ne) = true
    · rw [if_pos hcb] at hok
      exact Except.noConfusion hok
    · rw [if_neg hcb] at hok
      cases hti0 : it0.toolInstanceID with
      | some iid0 =>
        simp only [hti0] at hok
        by_cases hov : hasInstanceOverlap s1 iid0 a ne (some rid) = true
        · rw [if_pos hov] at hok
          exact Except.noConfusion hok
        · rw [if_neg hov] at hok
          rcases List.mem_cons.mp hmem with rfl | hm
          · rw [hti0] at hti
            injection hti with hii
            rw [← hii]
            simpa using hov
          · exact ih hok it hm iid hti
      | none =>
        simp only [hti0] at hok
        rcases List.mem_cons.mp hmem with rfl | hm
        · rw [hti0] at hti
          exact Option.noConfusion hti
        · exact ih hok it hm iid hti

/-- A passed manual-selection validation yields, for each chosen id, a
clear overlap query and a first instance row of the right tool. -/
theorem validateChosen_ok {s : EngineState} {toolId : Nat} {a b : Int} :
    ∀ {ids : List Nat}, validateChosen s toolId a b ids = Except.ok () →
      ∀ iid ∈ ids, hasInstanceOverlap s iid a b none = false ∧
        ∃ inst, findInstance s iid = some inst ∧ inst.toolID = toolId := by
  intro ids
  induction ids with
  | nil =>
    intro _ iid hmem
    exact absurd hmem (List.not_mem_nil _)
  | cons iid0 rest ih =>
    intro hok iid hmem
    simp only [validateChosen] at hok
    cases hv : validateManualInstance s toolId iid0 a b with
    | error e =>
      simp only [hv] at hok
      exact Except.noConfusion hok
    | ok inst =>
      simp only [hv] at hok
      rcases List.mem_cons.mp hmem with rfl | hmem'
      · unfold validateManualInstance at hv
        cases hfi : findInstance s iid with
        | none =>
          simp only [hfi] at hv
          exact Except.noConfusion hv
        | some inst0 =>
          simp only [hfi] at hv
          by_cases h1 : inst0.toolID ≠ toolId
          · rw [if_pos h1] at hv
            exact Except.noConfusion hv
          · rw [if_neg h1] at hv
            by_cases h2 : inst0.status ≠ "Available"
            · rw [if_pos h2] at hv
              exact Except.noConfusion hv
            · rw [if_neg h2] at hv
              by_cases h3 : certExcluded inst0 b = true
              · rw [if_pos h3] at hv
                exact Except.noConfusion hv
              · rw [if_neg h3] at hv
                by_cases h4 : hasInstanceOverlap s iid a b none = true
                · rw [if_pos h4] at hv
                  exact Except.noConfusion hv
                · rw [if_neg h4] at hv
                  exact ⟨by simpa using h4, inst0, rfl, not_not.mp h1⟩
      · exact ih hok iid hmem'

/-- Persisting the read-time promotion of a loaded rental preserves the
invariant. -/
theorem InvS_updateRuntime {s : EngineState} {rid : Nat} {rental0 : Rental}
    (today now : Int) (h : InvS s) (hf : findRental s rid = some rental0) :
    InvS (updateRentalIn s (applyRuntimeState rental0 today now)) := by
  have hrt := applyRuntimeState_frame rental0 today now
  apply InvS_updateRentalIn_le h (mem_of_findRental hf) ?_ ?_ ?_ ?_ ?_
  · exact hrt.1
  · exact hrt.2.2.1
  · exact hrt.2.2.2
  · intro hb
    rw [← isBlocking_applyRuntimeState rental0 today now]
    exact hb
  · intro it' hit' hsm
    refine ⟨it', ?_, rfl, rfl⟩
    rw [← hrt.2.1]
    exact hit'

/-- The receive loop preserves the invariant. -/
theorem InvS_processReceives {rid : Nat} (marks : List ReceiveItem) :
    ∀ {s s' : EngineState}, InvS s →
      processReceives s rid marks = Except.ok s' → InvS s' := by
  induction marks with
  | nil =>
    intro s s' h hstep
    simp only [processReceives] at hstep
    injection hstep with hs'
    exact hs' ▸ h
  | cons mark rest ih =>
    intro s s' h hstep
    simp only [processReceives] at hstep
    cases hf : findRental s rid with
    | none =>
      simp only [hf] at hstep
      exact Except.noConfusion hstep
    | some rental =>
      simp only [hf] at hstep
      cases hline : rental.items.find? (fun l => l.rentalItemID = mark.rentalItemID) with
      | none =>
        simp only [hline] at hstep
        exact Except.noConfusion hstep
      | some line =>
        simp only [hline] at hstep
        by_cases hq : line.quantity ≤ 0
        · rw [if_pos hq] at hstep
          exact Except.noConfusion hstep
        · rw [if_neg hq] at hstep
          by_cases hz : max 0 mark.returnedQuantity + max 0 mark.notReturnedQuantity ≤ 0
          · rw [if_pos hz] at hstep
            exact Except.noConfusion hstep
          · rw [if_neg hz] at hstep
            by_cases hex : line.quantity <
                max 0 mark.returnedQuantity + max 0 mark.notReturnedQuantity
            · rw [if_pos hex] at hstep
              exact Except.noConfusion hstep
            · rw [if_neg hex] at hstep
              cases hti : line.toolInstanceID with
              | some iid =>
                simp only [hti] at hstep
                by_cases hr1 : max 0 mark.returnedQuantity = 1
                · rw [if_pos hr1] at hstep
                  refine ih ?_ hstep
                  exact InvS_updateItemIn_le (InvS_setInstanceStatus iid _ h) hf
                    (List.mem_of_find?_eq_some hline) (fun _ => ⟨hti.symm, rfl⟩)
                · rw [if_neg hr1] at hstep
                  by_cases hn1 : max 0 mark.notReturnedQuantity = 1
                  · rw [if_pos hn1] at hstep
                    refine ih ?_ hstep
                    exact InvS_updateItemIn_le h hf
                      (List.mem_of_find?_eq_some hline) (fun _ => ⟨hti.symm, rfl⟩)
                  · rw [if_neg hn1] at hstep
                    exact ih h hstep
              | none =>
                simp only [hti] at hstep
                by_cases hrq : 0 < max 0 mark.returnedQuantity
                · rw [if_pos hrq] at hstep
                  obtain ⟨item2, hitem2⟩ : ∃ it : RentalItem, it =
                      { rentalItemID := s.nextItemID, toolID := line.toolID,
                        toolInstanceID := none, quantity := max 0 mark.returnedQuantity,
                        dailyCost := line.dailyCost, totalCost := none,
                        state := "Returned", deficit := false } := ⟨_, rfl⟩
                  rw [← hitem2] at hstep
                  refine ih ?_ hstep
                  exact InvS_updateItemIn_le
                    (InvS_addItem_unbound h (by rw [hitem2]))
                    (findRental_addItem item2 hf)
                    (List.mem_append_left _ (List.mem_of_find?_eq_some hline))
                    (fun _ => ⟨hti.symm, rfl⟩)
                · rw [if_neg hrq] at hstep
                  refine ih ?_ hstep
                  exact InvS_updateItemIn_le h hf
                    (List.mem_of_find?_eq_some hline) (fun _ => ⟨hti.symm, rfl⟩)

/-- `receive_marked_items` preserves the invariant. -/
theorem InvS_receiveMarkedItems {s s' : EngineState} {rid : Nat}
    {marks : List ReceiveItem} {today now : Int} (h : InvS s)
    (hstep : receiveMarkedItems s rid marks today now = Except.ok s') : InvS s' := by
  unfold receiveMarkedItems at hstep
  cases hf : findRental s rid with
  | none =>
    simp only [hf] at hstep
    exact Except.noConfusion hstep
  | some rental0 =>
    simp only [hf] at hstep
    by_cases hst : ¬ ((applyRuntimeState rental0 today now).status = "Active" ∨
        (applyRuntimeState rental0 today now).status = "Overdue")
    · rw [if_pos hst] at hstep
      exact Except.noConfusion hstep
    · rw [if_neg hst] at hstep
      by_cases hm0 : marks = []
      · rw [if_pos hm0] at hstep
        exact Except.noConfusion hstep
      · rw [if_neg hm0] at hstep
        cases hpr : processReceives (updateRentalIn s (applyRuntimeState rental0 today now))
            rid marks with
        | error e =>
          simp only [hpr] at hstep
          exact Except.noConfusion hstep
        | ok s1 =>
          simp only [hpr] at hstep
          have hInv1 : InvS s1 :=
            InvS_processReceives marks (InvS_updateRuntime today now h hf) hpr
          cases hf1 : findRental s1 rid with
          | none =>
            simp only [hf1] at hstep
            exact Except.noConfusion hstep
          | some rental1 =>
            simp only [hf1] at hstep
            injection hstep with h1
            subst h1
            have hInv2 : InvS (updateRentalIn s1 { rental1 with updatedAt := now }) := by
              apply InvS_updateRentalIn_le hInv1 (mem_of_findRental hf1) ?_ ?_ ?_ ?_ ?_
              · rfl
              · rfl
              · rfl
              · intro hb
                exact hb
              · intro it' hit' hsm
                exact ⟨it', hit', rfl, rfl⟩
            by_cases hopen : ¬ rentalHasOpenQuantity { rental1 with updatedAt := now } = true
            · rw [if_pos hopen]
              have hid1 : rental1.rentalID = rid := findRental_rentalID hf1
              have hfind2 : findRental (updateRentalIn s1 { rental1 with updatedAt := now })
                  rid = some { rental1 with updatedAt := now } :=
                findRental_updateRentalIn hf1 hid1
              exact InvS_recalcRentalIn rid (InvS_applyReturnUpdates _ _ _ _ hInv2
                (mem_of_findRental hfind2))
            · rw [if_neg hopen]
              exact InvS_recalcRentalIn rid hInv2

/-- `get_rental` preserves the invariant. -/
theorem InvS_readRental {s s' : EngineState} {rid : Nat} {today now : Int}
    (h : InvS s) (hstep : readRental s rid today now = Except.ok s') : InvS s' := by
  unfold readRental at hstep
  cases hf : findRental s rid with
  | none =>
    simp only [hf] at hstep
    exact Except.noConfusion hstep
  | some rental =>
    simp only [hf] at hstep
    injection hstep with h1
    subst h1
    exact InvS_updateRuntime today now h hf

/-- `return_rental` preserves the invariant. -/
theorem InvS_returnRental {s s' : EngineState} {rid : Nat} {cond notes_ : Option String}
    {today now : Int} (h : InvS s)
    (hstep : returnRental s rid cond notes_ today now = Except.ok s') : InvS s' := by
  unfold returnRental at hstep
  cases hf : findRental s rid with
  | none =>
    simp only [hf] at hstep
    exact Except.noConfusion hstep
  | some rental0 =>
    simp only [hf] at hstep
    by_cases hst : ¬ ((applyRuntimeState rental0 today now).status = "Active" ∨
        (applyRuntimeState rental0 today now).status = "Overdue")
    · rw [if_pos hst] at hstep
      exact Except.noConfusion hstep
    · rw [if_neg hst] at hstep
      injection hstep with h1
      subst h1
      exact InvS_applyReturnUpdates _ _ _ _ (InvS_updateRuntime today now h hf)
        (mem_of_findRental (findRental_updateRentalIn hf
          ((applyRuntimeState_frame rental0 today now).1.trans (findRental_rentalID hf))))

/-- `force_return_rental` preserves the invariant. -/
theorem InvS_forceReturnRental {s s' : EngineState} {rid : Nat}
    {cond notes_ : Option String} {today now : Int} (h : InvS s)
    (hstep : forceReturnRental s rid cond notes_ today now = Except.ok s') : InvS s' := by
  unfold forceReturnRental at hstep
  cases hf : findRental s rid with
  | none =>
    simp only [hf] at hstep
    exact Except.noConfusion hstep
  | some rental0 =>
    simp only [hf] at hstep
    by_cases hterm : terminalStates.contains (applyRuntimeState rental0 today now).status = true
    · rw [if_pos hterm] at hstep
      exact Except.noConfusion hstep
    · rw [if_neg hterm] at hstep
      injection hstep with h1
      subst h1
      exact InvS_applyReturnUpdates _ _ _ _ (InvS_updateRuntime today now h hf)
        (mem_of_findRental (findRental_updateRentalIn hf
          ((applyRuntimeState_frame rental0 today now).1.trans (findRental_rentalID hf))))

/-- `mark_rental_lost` preserves the invariant. -/
theorem InvS_markRentalLost {s s' : EngineState} {rid : Nat} {now : Int}
    (h : InvS s) (hstep : markRentalLost s rid now = Except.ok s') : InvS s' := by
  unfold markRentalLost at hstep
  cases hf : findRental s rid with
  | none =>
    simp only [hf] at hstep
    exact Except.noConfusion hstep
  | some rental =>
    simp only [hf] at hstep
    cases hloss : totalLossOf s (max 1 (rental.endDate - rental.startDate)) rental.items with
    | error e =>
      simp only [hloss] at hstep
      exact Except.noConfusion hstep
    | ok totalLoss =>
      simp only [hloss] at hstep
      injection hstep with h1
      subst h1
      apply InvS_updateRentalIn_le h (mem_of_findRental hf) ?_ ?_ ?_ ?_ ?_
      · rfl
      · rfl
      · rfl
      · intro hb
        have hb' : blockingStates.contains (normalizeState "Lost") = true := hb
        exact absurd hb' (by decide)
      · intro it' hit' hsm
        exact ⟨it', hit', rfl, rfl⟩

/-- `decide_rental` preserves the invariant. -/
theorem InvS_decideRental {s s' : EngineState} {rid : Nat} {decision : String}
    {reason : Option String} {shortageActions : List ShortageAction}
    {operator : Option Nat} {today now : Int}
    (h : InvS s)
    (hstep : decideRental s rid decision reason shortageActions operator today now =
      Except.ok s') : InvS s' := by
  unfold decideRental at hstep
  cases hf : findRental s rid with
  | none =>
    rw [hf] at hstep
    exact Except.noConfusion hstep
  | some rental0 =>
    rw [hf] at hstep
    dsimp only at hstep
    by_cases hres : (applyRuntimeState rental0 today now).status = "Reserved"
    case neg =>
      rw [if_pos hres] at hstep
      exact Except.noConfusion hstep
    case pos =>
    rw [if_neg (not_not_intro hres)] at hstep
    have hrt := applyRuntimeState_frame rental0 today now
    have hbrt : blockingStates.contains
          (normalizeState (applyRuntimeState rental0 today now).status) =
        blockingStates.contains (normalizeState rental0.status) :=
      isBlocking_applyRuntimeState rental0 today now
    by_cases hdec : decision = "reject"
    · rw [if_pos hdec] at hstep
      by_cases hr0 : stripString (reason.getD "") = ""
      · rw [if_pos hr0] at hstep
        exact Except.noConfusion hstep
      · rw [if_neg hr0] at hstep
        cases ht : transitionRental (applyRuntimeState rental0 today now) "Closed" now with
        | error e =>
          simp only [ht] at hstep
          exact Except.noConfusion hstep
        | ok rental2 =>
          simp only [ht] at hstep
          injection hstep with h1
          subst h1
          obtain ⟨hid2, hsd2, hed2, hit2, hcase2⟩ := transitionRental_ok ht
          have hfin : InvS (releaseReservedInstances
              (updateRentalIn s
                { rental2 with
                  notes := (if rental2.notes = "" then "" else rental2.notes ++ "\n") ++
                    ("Rejected: " ++ stripString (reason.getD "")),
                  updatedAt := now })
              { rental2 with
                notes := (if rental2.notes = "" then "" else rental2.notes ++ "\n") ++
                  ("Rejected: " ++ stripString (reason.getD "")),
                updatedAt := now }) := by
            apply InvS_releaseReservedInstances
            apply InvS_updateRentalIn_le h (mem_of_findRental hf) ?_ ?_ ?_ ?_ ?_
            · exact hid2.trans hrt.1
            · exact hsd2.trans hrt.2.2.1
            · exact hed2.trans hrt.2.2.2
            · intro hb
              have hb2 : isBlocking rental2 = true := hb
              rcases hcase2 with hsame | ⟨hall, hstat⟩
              · rw [hsame] at hb2
                rw [isBlocking_applyRuntimeState] at hb2
                exact hb2
              · exfalso
                unfold isBlocking at hb2
                rw [hstat] at hb2
                exact absurd hb2 (by decide)
            · intro it' hit' hsm
              have h3 : it' ∈ rental2.items := hit'
              rw [hit2] at h3
              rw [hrt.2.1] at h3
              exact ⟨it', h3, rfl, rfl⟩
          exact hfin
    · rw [if_neg hdec] at hstep
      injection hstep with h1
      subst h1
      obtain ⟨RA2, hRA2⟩ : ∃ r2 : Rental, r2 =
          { applyRuntimeState rental0 today now with
            approvalDate := some ((applyRuntimeState rental0 today now).approvalDate.getD today),
            approvedBy := operator, updatedAt := now } := ⟨_, rfl⟩
      have hfr := applyShortageActions_frame RA2 shortageActions
      have e1 : RA2.rentalID = rental0.rentalID := by rw [hRA2]; exact hrt.1
      have e2 : RA2.startDate = rental0.startDate := by rw [hRA2]; exact hrt.2.2.1
      have e3 : RA2.endDate = rental0.endDate := by rw [hRA2]; exact hrt.2.2.2
      have happrove : InvS (updateRentalIn s (applyShortageActions RA2 shortageActions)) := by
        apply InvS_updateRentalIn_le h (mem_of_findRental hf) ?_ ?_ ?_ ?_ ?_
        · exact hfr.1.trans e1
        · exact hfr.2.1.trans e2
        · exact hfr.2.2.1.trans e3
        · intro hb
          have hb2 : blockingStates.contains
              (normalizeState (applyShortageActions RA2 shortageActions).status) = true := hb
          rw [hfr.2.2.2.1] at hb2
          rw [hRA2] at hb2
          have hb3 : blockingStates.contains
              (normalizeState (applyRuntimeState rental0 today now).status) = true := hb2
          rw [hbrt] at hb3
          exact hb3
        · intro it' hit' hsm
          obtain ⟨j, hj, hjeq, hjt⟩ := hfr.2.2.2.2 it' hit'
          rw [hRA2] at hj
          have hj2 : j ∈ (applyRuntimeState rental0 today now).items := hj
          rw [hrt.2.1] at hj2
          exact ⟨j, hj2, hjeq, hjt⟩
      rw [← hRA2]
      have halloc2 : InvS { allocateReservationLines
          (updateRentalIn s (applyShortageActions RA2 shortageActions)) rid with
            notifications := (allocateReservationLines
              (updateRentalIn s (applyShortageActions RA2 shortageActions)) rid).notifications ++
                [⟨rid, "ReservationApproved"⟩] } :=
        InvS_allocateReservationLines rid happrove
      exact InvS_recalcRentalIn rid halloc2

/-- `cancel_rental` preserves the invariant. -/
theorem InvS_cancelRental {s s' : EngineState} {rid : Nat} {today now : Int}
    (h : InvS s) (hstep : cancelRental s rid today now = Except.ok s') : InvS s' := by
  unfold cancelRental at hstep
  cases hf : findRental s rid with
  | none =>
    rw [hf] at hstep
    exact Except.noConfusion hstep
  | some rental0 =>
    rw [hf] at hstep
    dsimp only at hstep
    by_cases hres : (applyRuntimeState rental0 today now).status = "Reserved"
    · rw [if_pos hres] at hstep
      exact InvS_decideRental h hstep
    · rw [if_neg hres] at hstep
      by_cases hoff : (applyRuntimeState rental0 today now).status ≠ "Offer"
      · rw [if_pos hoff] at hstep
        exact Except.noConfusion hstep
      · rw [if_neg hoff] at hstep
        cases ht : transitionRental (applyRuntimeState rental0 today now) "Closed" now with
        | error e =>
          simp only [ht] at hstep
          exact Except.noConfusion hstep
        | ok rental2 =>
          simp only [ht] at hstep
          injection hstep with h1
          subst h1
          obtain ⟨hid2, hsd2, hed2, hit2, hcase2⟩ := transitionRental_ok ht
          have hrt := applyRuntimeState_frame rental0 today now
          apply InvS_updateRentalIn_le h (mem_of_findRental hf) ?_ ?_ ?_ ?_ ?_
          · exact hid2.trans hrt.1
          · exact hsd2.trans hrt.2.2.1
          · exact hed2.trans hrt.2.2.2
          · intro hb
            have hb2 : isBlocking rental2 = true := hb
            rcases hcase2 with hsame | ⟨hall, hstat⟩
            · rw [hsame] at hb2
              rw [isBlocking_applyRuntimeState] at hb2
              exact hb2
            · exfalso
              unfold isBlocking at hb2
              rw [hstat] at hb2
              exact absurd hb2 (by decide)
          · intro it' hit' hsm
            have h3 : it' ∈ rental2.items := hit'
            rw [hit2] at h3
            rw [hrt.2.1] at h3
            exact ⟨it', h3, rfl, rfl⟩

/-- `extend_rental` preserves the invariant: its per-item overlap check
guards the widened window. -/
theorem InvS_extendRental {s s' : EngineState} {rid : Nat} {newEnd today now : Int}
    (h : InvS s) (hstep : extendRental s rid newEnd today now = Except.ok s') : InvS s' := by
  unfold extendRental at hstep
  cases hf : findRental s rid with
  | none =>
    simp only [hf] at hstep
    exact Except.noConfusion hstep
  | some rental0 =>
    simp only [hf] at hstep
    by_cases hact : (applyRuntimeState rental0 today now).status = "Active"
    case neg =>
      rw [if_pos hact] at hstep
      exact Except.noConfusion hstep
    case pos =>
    rw [if_neg (not_not_intro hact)] at hstep
    by_cases hnd : newEnd < (applyRuntimeState rental0 today now).startDate
    · rw [if_pos hnd] at hstep
      exact Except.noConfusion hstep
    · rw [if_neg hnd] at hstep
      cases hchk : checkExtendItems (updateRentalIn s (applyRuntimeState rental0 today now))
          rid (applyRuntimeState rental0 today now).startDate newEnd
          (applyRuntimeState rental0 today now).items with
      | error e =>
        simp only [hchk] at hstep
        exact Except.noConfusion hstep
      | ok u =>
        cases u
        simp only [hchk] at hstep
        injection hstep with h1
        subst h1
        have hrt := applyRuntimeState_frame rental0 today now
        have hridm : (applyRuntimeState rental0 today now).rentalID = rid :=
          hrt.1.trans (findRental_rentalID hf)
        have hr'id : (recalcTotalCost { applyRuntimeState rental0 today now with
            endDate := newEnd, updatedAt := now }).rentalID = rid :=
          (recalcTotalCost_frame _).2.1.trans hridm
        apply InvS_updateRentalIn_guarded h (mem_of_findRental hf) ?_ ?_ ?_
        · exact (recalcTotalCost_frame _).2.1.trans hrt.1
        · intro it' hit' hsm
          obtain ⟨j, hj, hjeq, hjt⟩ := recalcTotalCost_items _ it' hit'
          have hj2 : j ∈ (applyRuntimeState rental0 today now).items := hj
          rw [hrt.2.1] at hj2
          exact ⟨j, hj2, hjeq, hjt⟩
        · intro r2 hr2 hne2 hbr' hb2 hov hsh
          obtain ⟨it1, hm1, it2, hm2, hsome, heq⟩ := hsh
          obtain ⟨j, hj, hjeq, hjt⟩ := recalcTotalCost_items _ it1 hm1
          cases hx : it1.toolInstanceID with
          | none =>
            rw [hx] at hsome
            simp at hsome
          | some x =>
            have hj1 : j ∈ (applyRuntimeState rental0 today now).items := hj
            have hguard := checkExtendItems_ok hchk j hj1 x (by rw [hjeq, hx])
            have hne2' : r2.rentalID ≠ rid := fun hh => hne2 (hh.trans hr'id.symm)
            have hmem2 : r2 ∈
                (updateRentalIn s (applyRuntimeState rental0 today now)).rentals := by
              refine List.mem_map.mpr ⟨r2, hr2, ?_⟩
              exact if_neg (fun hh => hne2' (hh.trans hridm))
            have hd1 : r2.startDate ≤ newEnd := by
              have hh := hov.2
              rw [(recalcTotalCost_dates _).2] at hh
              exact hh
            have hd2 : (applyRuntimeState rental0 today now).startDate ≤ r2.endDate := by
              have hh := hov.1
              rw [(recalcTotalCost_dates _).1] at hh
              exact hh
            exact hasInstanceOverlap_some_false hguard r2 hmem2 hne2' hb2 hd1 hd2
              ⟨it2, hm2, by rw [← heq]; exact hx⟩

/-- Binding validated manual picks keeps the invariant and leaves the
target loaded with its window and its old lines. -/
theorem bindChosen_spec (rid toolId : Nat) (dc : Option Rat) (ids : List Nat) :
    ∀ (s : EngineState) (r0 : Rental) (a b : Int),
      InvS s → findRental s rid = some r0 → r0.startDate = a → r0.endDate = b →
      ids.Nodup →
      (∀ iid ∈ ids, ∀ r2 ∈ s.rentals, isBlocking r2 = true → r2.startDate ≤ b →
        a ≤ r2.endDate → ¬ refsId r2 iid) →
      (∀ iid ∈ ids, ∀ k ∈ instKeysL s.instances, k.1 = iid → k.2 = toolId) →
      InvS (bindChosen s rid toolId dc ids) ∧
      ∃ r1, findRental (bindChosen s rid toolId dc ids) rid = some r1 ∧
        r1.startDate = a ∧ r1.endDate = b ∧ ∀ x ∈ r0.items, x ∈ r1.items := by
  induction ids with
  | nil =>
    intro s r0 a b hInv hfind ha hb _ _ _
    exact ⟨hInv, r0, hfind, ha, hb, fun x hx => hx⟩
  | cons iid rest ih =>
    intro s r0 a b hInv hfind ha hb hnd hg hk
    have hmem0 := mem_of_findRental hfind
    have hid0 := findRental_rentalID hfind
    obtain ⟨item, hitem⟩ : ∃ item : RentalItem, item =
        { rentalItemID := (setInstanceStatus s iid "In Rental").nextItemID, toolID := toolId,
          toolInstanceID := some iid, quantity := 1, dailyCost := dc, totalCost := none,
          state := "Picked Up", deficit := false } := ⟨_, rfl⟩
    have hitid : item.toolInstanceID = some iid := by rw [hitem]
    have hitool : item.toolID = toolId := by rw [hitem]
    have hInv1 : InvS (setInstanceStatus s iid "In Rental") :=
      InvS_setInstanceStatus iid _ hInv
    have hfind1 : findRental (setInstanceStatus s iid "In Rental") rid = some r0 := hfind
    have hwin : ∀ r ∈ (setInstanceStatus s iid "In Rental").rentals, r.rentalID = rid →
        r.startDate = a ∧ r.endDate = b := by
      intro r hr hcc
      have hr0 : r = r0 := rental_id_inj hInv.2.2.2.1 hr hmem0 (hcc.trans hid0.symm)
      subst hr0
      exact ⟨ha, hb⟩
    have hguard1 : ∀ r2 ∈ (setInstanceStatus s iid "In Rental").rentals,
        isBlocking r2 = true → r2.startDate ≤ b → a ≤ r2.endDate → ¬ refsId r2 iid :=
      hg iid (List.mem_cons_self _ _)
    have hkey1 : ∀ k ∈ instKeysL (setInstanceStatus s iid "In Rental").instances,
        k.1 = iid → k.2 = item.toolID := by
      intro k hkk hk1
      rw [hitool]
      exact hk iid (List.mem_cons_self _ _) k
        (by rw [← instKeysL_setStatus s.instances iid "In Rental"]; exact hkk) hk1
    have hInv2 : InvS (addItem (setInstanceStatus s iid "In Rental") rid item) :=
      InvS_addItem_bound hInv1 hitid hwin hguard1 hkey1
    have hfind2 := findRental_addItem item hfind1
    have hgrest : ∀ iid' ∈ rest,
        ∀ r2 ∈ (addItem (setInstanceStatus s iid "In Rental") rid item).rentals,
        isBlocking r2 = true → r2.startDate ≤ b → a ≤ r2.endDate → ¬ refsId r2 iid' := by
      intro iid' hm'
      apply guard_transfer_addItem ?_ (hg iid' (List.mem_cons_of_mem _ hm'))
      rw [hitid]
      intro he
      have hee : iid = iid' := by injection he
      exact (List.nodup_cons.mp hnd).1 (hee ▸ hm')
    have hkrest : ∀ iid' ∈ rest,
        ∀ k ∈ instKeysL (addItem (setInstanceStatus s iid "In Rental") rid item).instances,
        k.1 = iid' → k.2 = toolId := by
      intro iid' hm' k hkk hk1
      exact hk iid' (List.mem_cons_of_mem _ hm') k
        (by rw [← instKeysL_setStatus s.instances iid "In Rental"]; exact hkk) hk1
    simp only [bindChosen]
    rw [← hitem]
    obtain ⟨hI, r1, hfr, ha1, hb1, hsub⟩ :=
      ih _ _ a b hInv2 hfind2 ha hb (List.Nodup.of_cons hnd) hgrest hkrest
    exact ⟨hI, r1, hfr, ha1, hb1, fun x hx => hsub x (List.mem_append_left _ hx)⟩

/-- The pickup loop preserves the invariant. -/
theorem InvS_processMarks {rid : Nat} (marks : List MarkItem) :
    ∀ {s s' : EngineState} {pickedAny pa : Bool} {seen : List Nat}, InvS s →
      processMarks s rid pickedAny seen marks = Except.ok (s', pa) → InvS s' := by
  induction marks with
  | nil =>
    intro s s' pickedAny pa seen h hstep
    simp only [processMarks] at hstep
    injection hstep with hp
    have hs : s = s' := congrArg Prod.fst hp
    exact hs ▸ h
  | cons mark rest ih =>
    intro s s' pickedAny pa seen h hstep
    simp only [processMarks] at hstep
    cases hf : findRental s rid with
    | none =>
      rw [hf] at hstep
      exact Except.noConfusion hstep
    | some rental =>
      rw [hf] at hstep
      dsimp only at hstep
      cases hline : rental.items.find? (fun l => l.rentalItemID = mark.rentalItemID) with
      | none =>
        rw [hline] at hstep
        exact Except.noConfusion hstep
      | some line =>
        rw [hline] at hstep
        dsimp only at hstep
        by_cases hq : line.quantity ≤ 0
        · rw [if_pos hq] at hstep
          exact Except.noConfusion hstep
        · rw [if_neg hq] at hstep
          by_cases hpq : (if max 0 mark.pickedQuantity = 0 ∧ mark.toolInstanceIDs ≠ [] then
              (mark.toolInstanceIDs.length : Int) else max 0 mark.pickedQuantity) ≤ 0
          · rw [if_pos hpq] at hstep
            exact Except.noConfusion hstep
          · rw [if_neg hpq] at hstep
            cases hti : line.toolInstanceID with
            | some iid =>
              rw [hti] at hstep
              dsimp only at hstep
              by_cases hone : (if max 0 mark.pickedQuantity = 0 ∧
                  mark.toolInstanceIDs ≠ [] then (mark.toolInstanceIDs.length : Int)
                  else max 0 mark.pickedQuantity) ≠ 1
              · rw [if_pos hone] at hstep
                exact Except.noConfusion hstep
              · rw [if_neg hone] at hstep
                refine ih ?_ hstep
                exact InvS_setInstanceStatus iid _
                  (InvS_updateItemIn_le h hf (List.mem_of_find?_eq_some hline)
                    (fun _ => ⟨hti.symm, rfl⟩))
            | none =>
              rw [hti] at hstep
              dsimp only at hstep
              by_cases hav : line.quantity < (if max 0 mark.pickedQuantity = 0 ∧
                  mark.toolInstanceIDs ≠ [] then (mark.toolInstanceIDs.length : Int)
                  else max 0 mark.pickedQuantity)
              · rw [if_pos hav] at hstep
                exact Except.noConfusion hstep
              · rw [if_neg hav] at hstep
                by_cases hndup : mark.toolInstanceIDs.Nodup
                case neg =>
                  rw [if_pos hndup] at hstep
                  exact Except.noConfusion hstep
                case pos =>
                rw [if_neg (not_not_intro hndup)] at hstep
                by_cases hmany : (if max 0 mark.pickedQuantity = 0 ∧
                    mark.toolInstanceIDs ≠ [] then (mark.toolInstanceIDs.length : Int)
                    else max 0 mark.pickedQuantity) < (mark.toolInstanceIDs.length : Int)
                · rw [if_pos hmany] at hstep
                  exact Except.noConfusion hstep
                · rw [if_neg hmany] at hstep
                  cases hseen : checkSeen seen mark.toolInstanceIDs with
                  | error e =>
                    rw [hseen] at hstep
                    exact Except.noConfusion hstep
                  | ok seen2 =>
                    rw [hseen] at hstep
                    dsimp only at hstep
                    cases hval : validateChosen s line.toolID rental.startDate
                        rental.endDate mark.toolInstanceIDs with
                    | error e =>
                      rw [hval] at hstep
                      exact Except.noConfusion hstep
                    | ok u =>
                      cases u
                      rw [hval] at hstep
                      dsimp only at hstep
                      have hvspec := validateChosen_ok hval
                      have hgsel : ∀ iid ∈ mark.toolInstanceIDs, ∀ r2 ∈ s.rentals,
                          isBlocking r2 = true → r2.startDate ≤ rental.endDate →
                          rental.startDate ≤ r2.endDate → ¬ refsId r2 iid :=
                        fun iid hm => hasInstanceOverlap_none_false (hvspec iid hm).1
                      have hksel : ∀ iid ∈ mark.toolInstanceIDs,
                          ∀ k ∈ instKeysL s.instances, k.1 = iid → k.2 = line.toolID := by
                        intro iid hm k hkk hk1
                        obtain ⟨inst, hfi, htl⟩ := (hvspec iid hm).2
                        have hmemI : inst ∈ s.instances := List.mem_of_find?_eq_some hfi
                        have hiid : inst.toolInstanceID = iid := by
                          have hpi := List.find?_some hfi
                          simpa using hpi
                        exact (instKey_unique h.2.2.1 hmemI hiid k hkk hk1).trans htl
                      obtain ⟨hIB, r1, hfr1, -, -, hsub1⟩ :=
                        bindChosen_spec rid line.toolID line.dailyCost mark.toolInstanceIDs
                          s rental rental.startDate rental.endDate h hf rfl rfl hndup
                          hgsel hksel
                      by_cases hunt : 0 < (if max 0 mark.pickedQuantity = 0 ∧
                          mark.toolInstanceIDs ≠ [] then (mark.toolInstanceIDs.length : Int)
                          else max 0 mark.pickedQuantity) -
                            (mark.toolInstanceIDs.length : Int)
                      · rw [if_pos hunt] at hstep
                        obtain ⟨item3, hitem3⟩ : ∃ it : RentalItem, it =
                            { rentalItemID := (bindChosen s rid line.toolID line.dailyCost
                                mark.toolInstanceIDs).nextItemID,
                              toolID := line.toolID, toolInstanceID := none,
                              quantity := (if max 0 mark.pickedQuantity = 0 ∧
                                  mark.toolInstanceIDs ≠ [] then
                                    (mark.toolInstanceIDs.length : Int)
                                  else max 0 mark.pickedQuantity) -
                                    (mark.toolInstanceIDs.length : Int),
                              dailyCost := line.dailyCost, totalCost := none,
                              state := "Picked Up", deficit := false } := ⟨_, rfl⟩
                        rw [← hitem3] at hstep
                        refine ih ?_ hstep
                        exact InvS_updateItemIn_le
                          (InvS_addItem_unbound hIB (by rw [hitem3]))
                          (findRental_addItem item3 hfr1)
                          (List.mem_append_left _ (hsub1 line
                            (List.mem_of_find?_eq_some hline)))
                          (fun _ => ⟨hti.symm, rfl⟩)
                      · rw [if_neg hunt] at hstep
                        refine ih ?_ hstep
                        exact InvS_updateItemIn_le hIB hfr1
                          (hsub1 line (List.mem_of_find?_eq_some hline))
                          (fun _ => ⟨hti.symm, rfl⟩)

/-- `mark_items_for_rental` preserves the invariant. -/
theorem InvS_markItemsForRental {s s' : EngineState} {rid : Nat} {marks : List MarkItem}
    {today now : Int} (h : InvS s)
    (hstep : markItemsForRental s rid marks today now = Except.ok s') : InvS s' := by
  unfold markItemsForRental at hstep
  cases hf : findRental s rid with
  | none =>
    rw [hf] at hstep
    exact Except.noConfusion hstep
  | some rental0 =>
    rw [hf] at hstep
    dsimp only at hstep
    by_cases hpick : (applyRuntimeState rental0 today now).status = "Reserved" ∨
        (applyRuntimeState rental0 today now).status = "Active" ∨
        (applyRuntimeState rental0 today now).status = "Overdue"
    case neg =>
      rw [if_pos hpick] at hstep
      exact Except.noConfusion hstep
    case pos =>
    rw [if_neg (not_not_intro hpick)] at hstep
    by_cases hm0 : marks = []
    · rw [if_pos hm0] at hstep
      exact Except.noConfusion hstep
    · rw [if_neg hm0] at hstep
      cases hpm : processMarks (updateRentalIn s (applyRuntimeState rental0 today now))
          rid false [] marks with
      | error e =>
        rw [hpm] at hstep
        exact Except.noConfusion hstep
      | ok p =>
        obtain ⟨s1, pickedAny⟩ := p
        rw [hpm] at hstep
        dsimp only at hstep
        have hInv1 : InvS s1 :=
          InvS_processMarks marks (InvS_updateRuntime today now h hf) hpm
        cases hf1 : findRental s1 rid with
        | none =>
          rw [hf1] at hstep
          exact Except.noConfusion hstep
        | some rental1 =>
          rw [hf1] at hstep
          dsimp only at hstep
          cases htr : (if pickedAny = true ∧ normalizeState rental1.status = "Reserved" then
              (transitionRental rental1 "Active" now).map
                (fun r2 => { r2 with actualStart := some (r2.actualStart.getD today) })
            else Except.ok rental1) with
          | error e =>
            rw [htr] at hstep
            exact Except.noConfusion hstep
          | ok rental2 =>
            rw [htr] at hstep
            dsimp only at hstep
            injection hstep with h1
            subst h1
            have hr2 : rental2.rentalID = rental1.rentalID ∧
                rental2.startDate = rental1.startDate ∧
                rental2.endDate = rental1.endDate ∧
                (∀ x ∈ rental2.items, x ∈ rental1.items) ∧
                (isBlocking rental2 = true → isBlocking rental1 = true) := by
              by_cases hcnd : pickedAny = true ∧ normalizeState rental1.status = "Reserved"
              · rw [if_pos hcnd] at htr
                cases ht2 : transitionRental rental1 "Active" now with
                | error e =>
                  rw [ht2] at htr
                  exact Except.noConfusion htr
                | ok r3 =>
                  rw [ht2] at htr
                  simp only [Except.map] at htr
                  injection htr with htr2
                  subst htr2
                  obtain ⟨ha1, ha2, ha3, ha4, hc5⟩ := transitionRental_ok ht2
                  refine ⟨ha1, ha2, ha3, fun x hx => ?_, fun hb => ?_⟩
                  · have hx' : x ∈ r3.items := hx
                    rw [ha4] at hx'
                    exact hx'
                  · have hb2 : isBlocking r3 = true := hb
                    rcases hc5 with rfl | ⟨hall, hstat⟩
                    · exact hb2
                    · have hna : normalizeState "Active" = "Active" := by decide
                      rw [hna] at hall
                      rcases allowedTransition_active hall with hres | hov
                      · unfold isBlocking
                        rw [hres]
                        decide
                      · unfold isBlocking
                        rw [hov]
                        decide
              · rw [if_neg hcnd] at htr
                injection htr with htr2
                subst htr2
                exact ⟨rfl, rfl, rfl, fun x hx => hx, fun hb => hb⟩
            have hInv2 : InvS (updateRentalIn s1 { rental2 with updatedAt := now }) := by
              apply InvS_updateRentalIn_le hInv1 (mem_of_findRental hf1) ?_ ?_ ?_ ?_ ?_
              · exact hr2.1
              · exact hr2.2.1
              · exact hr2.2.2.1
              · intro hb
                exact hr2.2.2.2.2 hb
              · intro it' hit' hsm
                exact ⟨it', hr2.2.2.2.1 it' hit', rfl, rfl⟩
            exact InvS_recalcRentalIn rid hInv2

/-- `create_rental` preserves the invariant and appends one rental row. -/
theorem createRental_spec {s : EngineState} {status : Option String} {a b : Int}
    {lines : List CreateLine} {now : Int} {s' : EngineState} {newId : Nat}
    (hstep : createRental s status a b lines now = Except.ok (s', newId)) :
    (InvS s → InvS s') ∧ ∃ rnew, s'.rentals = s.rentals ++ [rnew] := by
  unfold createRental at hstep
  by_cases hd : b < a
  · rw [if_pos hd] at hstep
    exact Except.noConfusion hstep
  · rw [if_neg hd] at hstep
    by_cases hst : normalizeState (status.getD "") ≠ "Offer" ∧
        normalizeState (status.getD "") ≠ "Reserved"
    · rw [if_pos hst] at hstep
      exact Except.noConfusion hstep
    · rw [if_neg hst] at hstep
      cases hbi : buildCreateItems s (normalizeState (status.getD "")) s.nextItemID lines with
      | error e =>
        rw [hbi] at hstep
        exact Except.noConfusion hstep
      | ok p =>
        obtain ⟨items, nextItem⟩ := p
        rw [hbi] at hstep
        dsimp only at hstep
        injection hstep with hp
        injection hp with h1 h2
        subst h1
        refine ⟨fun hInv => InvS_append_unbound hInv (recalcTotalCost_frame _).2.1 ?_, _, rfl⟩
        intro it hit
        obtain ⟨j, hj, hjeq, hjt⟩ := recalcTotalCost_items _ it hit
        rw [← hjeq]
        exact buildCreateItems_unbound hbi j hj

/-- `checkout_offer` preserves the invariant. -/
theorem InvS_checkoutOffer {s s' : EngineState} {rid : Nat} {a b now : Int}
    (h : InvS s) (hstep : checkoutOffer s rid a b now = Except.ok s') : InvS s' := by
  unfold checkoutOffer at hstep
  cases hf : findRental s rid with
  | none =>
    rw [hf] at hstep
    exact Except.noConfusion hstep
  | some offer =>
    rw [hf] at hstep
    dsimp only at hstep
    by_cases hofs : normalizeState offer.status ≠ "Offer"
    · rw [if_pos hofs] at hstep
      exact Except.noConfusion hstep
    · rw [if_neg hofs] at hstep
      split at hstep
      case _ e heq =>
        exact Except.noConfusion hstep
      case _ s1 newRid hcr =>
        cases htr : transitionRental offer "Closed" now with
        | error e =>
          rw [htr] at hstep
          exact Except.noConfusion hstep
        | ok offer2 =>
          rw [htr] at hstep
          dsimp only at hstep
          injection hstep with h1
          subst h1
          obtain ⟨hInvf, rnew, hrl⟩ := createRental_spec hcr
          have hInv1 : InvS s1 := hInvf h
          have hmem1 : offer ∈ s1.rentals := by
            rw [hrl]
            exact List.mem_append_left _ (mem_of_findRental hf)
          obtain ⟨hid2, hsd2, hed2, hit2, hcase2⟩ := transitionRental_ok htr
          apply InvS_updateRentalIn_le hInv1 hmem1 ?_ ?_ ?_ ?_ ?_
          · exact hid2
          · exact hsd2
          · exact hed2
          · intro hb
            have hb2 : isBlocking offer2 = true := hb
            rcases hcase2 with rfl | ⟨hall, hstat⟩
            · exact hb2
            · exfalso
              unfold isBlocking at hb2
              rw [hstat] at hb2
              exact absurd hb2 (by decide)
          · intro it' hit' hsm
            have h3 : it' ∈ offer.items := by
              have h4 : it' ∈ offer2.items := hit'
              rw [hit2] at h4
              exact h4
            exact ⟨it', h3, rfl, rfl⟩

/-- `_activate_rental` preserves the invariant. -/
theorem InvS_activateRental {s s' : EngineState} {rid : Nat} {today now : Int}
    (h : InvS s) (hstep : activateRental s rid today now = Except.ok s') : InvS s' := by
  unfold activateRental at hstep
  cases hf : findRental s rid with
  | none =>
    rw [hf] at hstep
    exact Except.noConfusion hstep
  | some rental =>
    rw [hf] at hstep
    dsimp only at hstep
    cases htr : transitionRental rental "Active" now with
    | error e =>
      rw [htr] at hstep
      exact Except.noConfusion hstep
    | ok rental2 =>
      rw [htr] at hstep
      dsimp only at hstep
      injection hstep with h1
      subst h1
      obtain ⟨hid2, hsd2, hed2, hit2, hcase2⟩ := transitionRental_ok htr
      refine InvS_foldl _ ?_ _ _ ?_
      · intro s0 it h0
        cases hti : it.toolInstanceID with
        | some iid =>
          simp only [hti]
          exact InvS_setInstanceStatus iid _ h0
        | none =>
          simp only [hti]
          exact h0
      · apply InvS_updateRentalIn_le h (mem_of_findRental hf) ?_ ?_ ?_ ?_ ?_
        · exact hid2
        · exact hsd2
        · exact hed2
        · intro hb
          have hb2 : isBlocking rental2 = true := hb
          rcases hcase2 with rfl | ⟨hall, hstat⟩
          · exact hb2
          · have hna : normalizeState "Active" = "Active" := by decide
            rw [hna] at hall
            rcases allowedTransition_active hall with hres | hov
            · unfold isBlocking
              rw [hres]
              decide
            · unfold isBlocking
              rw [hov]
              decide
        · intro it' hit' hsm
          obtain ⟨j, hj, rfl⟩ := List.mem_map.mp hit'
          have hj1 : j ∈ rental.items := by
            rw [← hit2]
            exact hj
          by_cases hjs : j.toolInstanceID.isSome = true
          · rw [if_pos hjs]
            exact ⟨j, hj1, rfl, rfl⟩
          · rw [if_neg hjs]
            exact ⟨j, hj1, rfl, rfl⟩

/-- `kiosk_lend` preserves the invariant. -/
theorem InvS_kioskLend {s s' : EngineState} {a b : Int} {lines : List CreateLine}
    {today now : Int} (h : InvS s)
    (hstep : kioskLend s a b lines today now = Except.ok s') : InvS s' := by
  unfold kioskLend at hstep
  by_cases h1 : b < a
  · rw [if_pos h1] at hstep
    exact Except.noConfusion hstep
  · rw [if_neg h1] at hstep
    by_cases h2 : lines = []
    · rw [if_pos h2] at hstep
      exact Except.noConfusion hstep
    · rw [if_neg h2] at hstep
      cases hcr : createRental s (some "Reserved") a b lines now with
      | error e =>
        rw [hcr] at hstep
        exact Except.noConfusion hstep
      | ok p =>
        obtain ⟨s1, newRid⟩ := p
        rw [hcr] at hstep
        dsimp only at hstep
        cases hac : activateRental s1 newRid today now with
        | error e =>
          rw [hac] at hstep
          exact Except.noConfusion hstep
        | ok s2 =>
          rw [hac] at hstep
          dsimp only at hstep
          injection hstep with h3
          subst h3
          have h4 : InvS s2 := InvS_activateRental ((createRental_spec hcr).1 h) hac
          exact h4

/-- Every successful engine operation other than force-extend preserves
the invariant. -/
theorem InvS_step {s s' : EngineState} {op : EngineOp} {today now : Int}
    (hop : notForceExtend op) (h : InvS s)
    (hstep : step s op today now = Except.ok s') : InvS s' := by
  cases op with
  | create status a b lines =>
    simp only [step] at hstep
    cases hcr : createRental s status a b lines now with
    | error e =>
      rw [hcr] at hstep
      exact Except.noConfusion hstep
    | ok p =>
      obtain ⟨s1, newRid⟩ := p
      rw [hcr] at hstep
      simp only [Except.map] at hstep
      injection hstep with h1
      subst h1
      exact (createRental_spec hcr).1 h
  | decide rid d reason acts operator =>
    simp only [step] at hstep
    exact InvS_decideRental h hstep
  | checkout rid a b =>
    simp only [step] at hstep
    exact InvS_checkoutOffer h hstep
  | kiosk a b lines =>
    simp only [step] at hstep
    exact InvS_kioskLend h hstep
  | markItems rid marks =>
    simp only [step] at hstep
    exact InvS_markItemsForRental h hstep
  | receive rid marks =>
    simp only [step] at hstep
    exact InvS_receiveMarkedItems h hstep
  | extend rid newEnd =>
    simp only [step] at hstep
    exact InvS_extendRental h hstep
  | forceExtend rid newEnd => exact hop.elim
  | cancel rid =>
    simp only [step] at hstep
    exact InvS_cancelRental h hstep
  | returnOp rid cond notes_ =>
    simp only [step] at hstep
    exact InvS_returnRental h hstep
  | forceReturn rid cond notes_ =>
    simp only [step] at hstep
    exact InvS_forceReturnRental h hstep
  | markLost rid =>
    simp only [step] at hstep
    exact InvS_markRentalLost h hstep
  | readRental rid =>
    simp only [step] at hstep
    exact InvS_readRental h hstep

/-- Reachability derivations can be extended at the front. -/
theorem ReachableVia_head {P : EngineOp → Prop} {init s1 s2 : EngineState} {op : EngineOp}
    {today now : Int} (hP : P op) (hstep : step init op today now = Except.ok s1)
    (h : ReachableVia P s1 s2) : ReachableVia P init s2 := by
  induction h with
  | refl => exact ReachableVia.step ReachableVia.refl hP hstep
  | step hprev hPP hst ih => exact ReachableVia.step ih hPP hst

/-- A trace that runs to completion witnesses reachability of its final
state. -/
theorem reachableVia_runTrace (P : EngineOp → Prop) :
    ∀ (l : List (EngineOp × Int × Int)) (s : EngineState),
      (∀ p ∈ l, P p.1) → (runTrace s l).isSome = true →
      ReachableVia P s ((runTrace s l).getD default) := by
  intro l
  induction l with
  | nil =>
    intro s hP hs
    exact ReachableVia.refl
  | cons p rest ih =>
    intro s hP hs
    obtain ⟨op, today, now⟩ := p
    cases hst : step s op today now with
    | error e =>
      exfalso
      simp only [runTrace, hst] at hs
      exact Bool.noConfusion hs
    | ok s1 =>
      simp only [runTrace, hst] at hs ⊢
      exact ReachableVia_head (hP _ (List.mem_cons_self _ _)) hst
        (ih s1 (fun q hq => hP q (List.mem_cons_of_mem _ hq)) hs)

/-- C5 (amended): from a state with an empty rental table and unique
instance ids, every state reachable without `force_extend_rental` is free
of double-booking — no tool instance is referenced by bound line items of
two distinct rentals that are both in blocking states with overlapping
date windows. (`force_extend_rental` must be excluded: it widens a
rental's window with no overlap check, and the counterexample theorem
reaches a double-booked state through it.) -/
theorem no_double_booking_without_force_extend (init s : EngineState)
    (hrent : init.rentals = [])
    (hinst : (init.instances.map (fun i => i.toolInstanceID)).Nodup)
    (hreach : ReachableVia notForceExtend init s) :
    noDoubleBook s := by
  have hin : InvS init := by
    refine ⟨?_, ?_, hinst, ?_, ?_⟩
    · intro r1 h1
      rw [hrent] at h1
      exact absurd h1 (List.not_mem_nil _)
    · intro r hr
      rw [hrent] at hr
      exact absurd hr (List.not_mem_nil _)
    · rw [hrent]
      exact List.nodup_nil
    · intro r hr
      rw [hrent] at hr
      exact absurd hr (List.not_mem_nil _)
  have hinv : InvS s := by
    induction hreach with
    | refl => exact hin
    | step hprev hP hst ih => exact InvS_step hP ih hst
  exact hinv.1

/-- C5 witness: the amended invariant applied to the state reached by one
guard-respecting create operation from the two-instance initial state. -/
theorem no_double_booking_without_force_extend_witness :
    traceInitState.rentals = [] ∧
    (traceInitState.instances.map (fun i => i.toolInstanceID)).Nodup ∧
    noDoubleBook oneCreateState :=
  ⟨rfl, by decide,
    no_double_booking_without_force_extend traceInitState oneCreateState rfl (by decide)
      (reachableVia_runTrace notForceExtend oneCreateTrace traceInitState
        (by decide) (by decide))⟩

/-- C5 counterexample: the literal claim quantifies over all reachable
states, but the double-booking trace — which ends with a force-extend —
reaches a state in which instance 1 is referenced by bound line items of
two distinct blocking rentals with overlapping windows. -/
theorem double_booking_reachable :
    Reachable traceInitState doubleBookState ∧ ¬ noDoubleBook doubleBookState :=
  ⟨reachableVia_runTrace (fun _ => True) doubleBookTrace traceInitState
      (fun _ _ => trivial) (by decide),
    by decide⟩

/-! ## C9: mark rental lost -/

/-- When every line's tool exists, `totalLossOf` succeeds and returns the
spec-side sum of per-line losses. -/
theorem totalLossOf_ok (s : EngineState) (rentalDays : Int) :
    ∀ items : List RentalItem, (∀ it ∈ items, (findTool s it.toolID).isSome) →
    totalLossOf s rentalDays items = Except.ok (specLossTotal s rentalDays items) := by
  intro items
  induction items with
  | nil => intro _; rfl
  | cons it rest ih =>
    intro h
    have hit : (findTool s it.toolID).isSome := h it (List.mem_cons_self it rest)
    cases hft : findTool s it.toolID with
    | none => rw [hft] at hit; exact Bool.noConfusion hit
    | some tool =>
      have hrest := ih (fun x hx => h x (List.mem_cons_of_mem it hx))
      simp only [totalLossOf, itemLoss, hft, hrest, specLossTotal, specLineLoss,
        List.map_cons, List.sum_cons]

/-- C9: `mark_rental_lost` performs **no state check** — for every existing
rental, terminal or not, whose lines' tools all exist, it succeeds, sets the
status to `Lost` with loss metadata (amount = the summed per-line
`max(0.65 x value, value - income)` losses, reason, calculated-at timestamp),
leaves every other rental untouched and releases no instances. -/
theorem mark_lost_no_state_check {s : EngineState} {rid : Nat} {now : Int} {rental : Rental}
    (hf : findRental s rid = some rental)
    (htools : ∀ it ∈ rental.items, (findTool s it.toolID).isSome) :
    ∃ s', markRentalLost s rid now = Except.ok s' ∧
      s'.instances = s.instances ∧
      s'.rentals = s.rentals.map (fun r =>
        if r.rentalID = rid then
          { rental with
            status := "Lost",
            lossAmount := some (specLossTotal s
              (max 1 (rental.endDate - rental.startDate)) rental.items),
            lossCalculatedAt := some now, lossReason := some "Not returned",
            updatedAt := now }
        else r) := by
  have hid : rental.rentalID = rid := findRental_rentalID hf
  have hl := totalLossOf_ok s (max 1 (rental.endDate - rental.startDate)) rental.items htools
  have hstep : markRentalLost s rid now = Except.ok
      (let s1 := updateRentalIn s
        { rental with
          status := "Lost",
          lossAmount := some (specLossTotal s
            (max 1 (rental.endDate - rental.startDate)) rental.items),
          lossCalculatedAt := some now, lossReason := some "Not returned",
          updatedAt := now };
       { s1 with audits := s1.audits ++ [⟨"Rental", rid, "MarkLost"⟩] }) := by
    simp only [markRentalLost, hf, hl]
  refine ⟨_, hstep, rfl, ?_⟩
  show (updateRentalIn s _).rentals = _
  unfold updateRentalIn
  dsimp only
  rw [hid]

/-- Witness for C9: the theorem applied to the one-rental demonstration state. -/
theorem mark_lost_no_state_check_witness :
    (∀ it ∈ lostDemoRental.items, (findTool lostDemoState it.toolID).isSome) ∧
    (∃ s', markRentalLost lostDemoState 1 77 = Except.ok s' ∧
      s'.instances = lostDemoState.instances ∧
      s'.rentals = lostDemoState.rentals.map (fun r =>
        if r.rentalID = 1 then
          { lostDemoRental with
            status := "Lost",
            lossAmount := some (specLossTotal lostDemoState
              (max 1 (lostDemoRental.endDate - lostDemoRental.startDate)) lostDemoRental.items),
            lossCalculatedAt := some 77, lossReason := some "Not returned",
            updatedAt := 77 }
        else r)) :=
  ⟨by decide, mark_lost_no_state_check rfl (by decide)⟩

/-- C9 counterexample: the claimed guard "legal only from a non-terminal
state" does not exist — marking a rental already in the terminal state
`Closed` as lost succeeds and stamps it `Lost` with a loss amount. -/
theorem mark_lost_ignores_terminal_state :
    ((findRental lostDemoState 1).map (fun r => normalizeState r.status) = some "Closed") ∧
    (markRentalLost lostDemoState 1 77).map (fun s' =>
      (findRental s' 1).map (fun r => (r.status, r.lossAmount.isSome))) =
      Except.ok (some ("Lost", true)) := by
  constructor
  · rfl
  · decide

/-! ## C7: the reject decision -/

/-- Under duplicate-free instance identifiers, `_release_reserved_instances`
is exactly the pointwise release of the referenced `Reserved`/`Rented`
instances; nothing else in the state changes. -/
theorem releaseReservedInstances_eq :
    ∀ (items : List RentalItem) (s : EngineState) (r : Rental), r.items = items →
    (s.instances.map (fun i => i.toolInstanceID)).Nodup →
    releaseReservedInstances s r =
      { s with instances := specReleasedInstances items s.instances } := by
  intro items
  induction items with
  | nil =>
    intro s r hr _
    unfold releaseReservedInstances
    rw [hr]
    simp [specReleasedInstances]
  | cons it rest ih =>
    intro s r hr hnd
    unfold releaseReservedInstances
    rw [hr, List.foldl_cons]
    cases hti : it.toolInstanceID with
    | none =>
      dsimp only
      have hrec := ih s { r with items := rest } rfl hnd
      unfold releaseReservedInstances at hrec
      dsimp only at hrec
      rw [hrec]
      unfold specReleasedInstances
      rw [show (List.map (fun i =>
          if ((it :: rest).any (fun x => x.toolInstanceID = some i.toolInstanceID)) ∧
              (i.status = "Reserved" ∨ i.status = "Rented") then
            { i with status := "Available" } else i) s.instances) =
          (List.map (fun i =>
          if (rest.any (fun x => x.toolInstanceID = some i.toolInstanceID)) ∧
              (i.status = "Reserved" ∨ i.status = "Rented") then
            { i with status := "Available" } else i) s.instances) from
        List.map_congr_left (fun i _ => by simp [List.any_cons, hti])]
    | some iid =>
      dsimp only
      cases hfi : findInstance s iid with
      | none =>
        dsimp only
        have hnone : ∀ i ∈ s.instances, ¬ (i.toolInstanceID = iid) := by
          intro i hi
          have := List.find?_eq_none.mp hfi i hi
          simpa using this
        have hrec := ih s { r with items := rest } rfl hnd
        unfold releaseReservedInstances at hrec
        dsimp only at hrec
        rw [hrec]
        unfold specReleasedInstances
        rw [show (List.map (fun i =>
            if ((it :: rest).any (fun x => x.toolInstanceID = some i.toolInstanceID)) ∧
                (i.status = "Reserved" ∨ i.status = "Rented") then
              { i with status := "Available" } else i) s.instances) =
            (List.map (fun i =>
            if (rest.any (fun x => x.toolInstanceID = some i.toolInstanceID)) ∧
                (i.status = "Reserved" ∨ i.status = "Rented") then
              { i with status := "Available" } else i) s.instances) from
          List.map_congr_left (fun i hi => by
            have hne : ¬ (iid = i.toolInstanceID) := fun hcon => (hnone i hi) hcon.symm
            simp [List.any_cons, hti, hne])]
      | some inst =>
        dsimp only
        have hmem : inst ∈ s.instances := List.mem_of_find?_eq_some hfi
        have hiid : inst.toolInstanceID = iid := by
          have := List.find?_some hfi
          simpa using this
        have huniq : ∀ i ∈ s.instances, i.toolInstanceID = iid → i = inst := by
          intro i hi hid
          exact List.inj_on_of_nodup_map hnd hi hmem (by rw [hid, hiid])
        by_cases hst : inst.status = "Reserved" ∨ inst.status = "Rented"
        · rw [if_pos hst]
          have hnd2 : ((setInstanceStatus s iid "Available").instances.map
              (fun i => i.toolInstanceID)).Nodup := by
            have hids : (setInstanceStatus s iid "Available").instances.map
                (fun i => i.toolInstanceID) =
                s.instances.map (fun i => i.toolInstanceID) := by
              unfold setInstanceStatus
              dsimp only
              rw [List.map_map]
              refine List.map_congr_left (fun i _ => ?_)
              by_cases h : i.toolInstanceID = iid
              · simp [h]
              · simp [h]
            rw [hids]
            exact hnd
          have hrec := ih (setInstanceStatus s iid "Available")
            { r with items := rest } rfl hnd2
          unfold releaseReservedInstances at hrec
          dsimp only at hrec
          rw [hrec]
          unfold setInstanceStatus specReleasedInstances
          dsimp only
          rw [List.map_map]
          refine congrArg (fun l => { s with instances := l }) ?_
          refine List.map_congr_left (fun i hi => ?_)
          by_cases h : i.toolInstanceID = iid
          · have hieq : i = inst := huniq i hi h
            subst hieq
            simp only [Function.comp, if_pos h]
            rw [if_neg, if_pos ⟨by simp [List.any_cons, hti, h], hst⟩]
            intro hcon
            rcases hcon.2 with h2 | h2 <;> exact absurd h2 (by decide)
          · simp only [Function.comp, if_neg h]
            have hany : ((it :: rest).any (fun x => x.toolInstanceID = some i.toolInstanceID)) =
                (rest.any (fun x => x.toolInstanceID = some i.toolInstanceID)) := by
              simp [List.any_cons, hti]
              intro hcon
              exact absurd hcon.symm h
            rw [hany]
        · rw [if_neg hst]
          have hrec := ih s { r with items := rest } rfl hnd
          unfold releaseReservedInstances at hrec
          dsimp only at hrec
          rw [hrec]
          unfold specReleasedInstances
          refine congrArg (fun l => { s with instances := l }) ?_
          refine List.map_congr_left (fun i hi => ?_)
          by_cases h : i.toolInstanceID = iid
          · have hieq : i = inst := huniq i hi h
            subst hieq
            rw [if_neg (fun hcon => hst hcon.2), if_neg (fun hcon => hst hcon.2)]
          · have hany : ((it :: rest).any (fun x => x.toolInstanceID = some i.toolInstanceID)) =
                (rest.any (fun x => x.toolInstanceID = some i.toolInstanceID)) := by
              simp [List.any_cons, hti]
              intro hcon
              exact absurd hcon.symm h
            rw [hany]

/-- C7: the reject decision on a runtime-`Reserved` rental fails with
`MissingReason` on a blank reason; on a non-`Reserved` rental it fails with
`InvalidState`; with a non-blank reason it closes the rental, appends the
rejection note, releases the referenced `Reserved`/`Rented` instances back to
`Available`, enqueues a rejection notification and records an audit entry. -/
theorem reject_decision_spec {s : EngineState} {rid : Nat} {rental0 rental : Rental}
    {reason : Option String} {acts : List ShortageAction} {op : Option Nat} {today now : Int}
    (hf : findRental s rid = some rental0)
    (hnd : (s.instances.map (fun i => i.toolInstanceID)).Nodup)
    (hr : rental = applyRuntimeState rental0 today now) :
    (rental.status ≠ "Reserved" →
      decideRental s rid "reject" reason acts op today now =
        Except.error (EngineError.invalidState "Reservation is not pending decision.")) ∧
    (rental.status = "Reserved" → stripString (reason.getD "") = "" →
      decideRental s rid "reject" reason acts op today now =
        Except.error EngineError.missingReason) ∧
    (rental.status = "Reserved" → stripString (reason.getD "") ≠ "" →
      ∃ s', decideRental s rid "reject" reason acts op today now = Except.ok s' ∧
        s'.rentals = s.rentals.map (fun rr =>
          if rr.rentalID = rid then
            { rental with
              status := "Closed",
              notes := (if rental.notes = "" then "" else rental.notes ++ "\n") ++
                ("Rejected: " ++ stripString (reason.getD "")),
              updatedAt := now }
          else rr) ∧
        s'.instances = specReleasedInstances rental.items s.instances ∧
        s'.notifications = s.notifications ++ [⟨rid, "ReservationRejected"⟩] ∧
        s'.audits = s.audits ++ [⟨"Rental", rid, "Reject"⟩]) := by
  have hid0 : rental0.rentalID = rid := findRental_rentalID hf
  have hframe := applyRuntimeState_frame rental0 today now
  unfold decideRental
  rw [hf]
  dsimp only
  rw [← hr]
  refine ⟨?_, ?_, ?_⟩
  · intro hne
    rw [if_pos hne]
  · intro hres hblank
    rw [if_neg (fun hcon => hcon hres), if_pos rfl, if_pos hblank]
  · intro hres hnblank
    rw [if_neg (fun hcon => hcon hres), if_pos rfl, if_neg hnblank]
    have htr : transitionRental rental "Closed" now =
        Except.ok { rental with status := "Closed", updatedAt := now } := by
      unfold transitionRental
      dsimp only
      rw [hres]
      rw [if_neg (by decide), if_pos (by decide)]
      rfl
    rw [htr]
    dsimp only
    obtain ⟨rental3, hr3⟩ : ∃ x : Rental, x =
        { rental with
          status := "Closed",
          notes := (if rental.notes = "" then "" else rental.notes ++ "\n") ++
            ("Rejected: " ++ stripString (reason.getD "")),
          updatedAt := now } := ⟨_, rfl⟩
    rw [← hr3]
    have hnd1 : ((updateRentalIn s rental3).instances.map
        (fun i => i.toolInstanceID)).Nodup := hnd
    have hrel := releaseReservedInstances_eq rental3.items
      (updateRentalIn s rental3) rental3 rfl hnd1
    rw [hrel]
    have hitems3 : rental3.items = rental.items := by rw [hr3]
    have hid3 : rental3.rentalID = rid := by
      rw [hr3]
      show rental.rentalID = rid
      rw [hr, hframe.1, hid0]
    refine ⟨_, rfl, ?_, ?_, ?_, ?_⟩
    · show (updateRentalIn s rental3).rentals = _
      unfold updateRentalIn
      dsimp only
      rw [hid3, hr3]
    · show specReleasedInstances rental3.items (updateRentalIn s rental3).instances = _
      rw [hitems3]
      rfl
    · show (updateRentalIn s rental3).notifications ++ _ = _
      rfl
    · show (updateRentalIn s rental3).audits ++ _ = _
      rfl

/-- Witness for C7: the theorem applied to a `Closed` rental (invalid state),
and to a `Reserved` rental with a blank and then a real reason. -/
theorem reject_decision_spec_witness :
    (decideRental lostDemoState 1 "reject" (some "why") [] none 5 5 =
      Except.error (EngineError.invalidState "Reservation is not pending decision.")) ∧
    (decideRental rejectDemoState 1 "reject" (some "   ") [] none 5 5 =
      Except.error EngineError.missingReason) ∧
    (∃ s', decideRental rejectDemoState 1 "reject" (some " bad ") [] none 5 5 = Except.ok s' ∧
      s'.rentals = rejectDemoState.rentals.map (fun rr =>
        if rr.rentalID = 1 then
          { applyRuntimeState rejectDemoRental 5 5 with
            status := "Closed",
            notes := (if (applyRuntimeState rejectDemoRental 5 5).notes = "" then "" else
                (applyRuntimeState rejectDemoRental 5 5).notes ++ "\n") ++
              ("Rejected: " ++ stripString ((some " bad ").getD "")),
            updatedAt := 5 }
        else rr) ∧
      s'.instances = specReleasedInstances (applyRuntimeState rejectDemoRental 5 5).items
        rejectDemoState.instances ∧
      s'.notifications = rejectDemoState.notifications ++ [⟨1, "ReservationRejected"⟩] ∧
      s'.audits = rejectDemoState.audits ++ [⟨"Rental", 1, "Reject"⟩]) :=
 by
  refine ⟨?_, ?_, ?_⟩
  · exact (reject_decision_spec
      (rfl : findRental lostDemoState 1 = some lostDemoRental)
      (by decide) rfl).1 (by decide)
  · exact (reject_decision_spec
      (rfl : findRental rejectDemoState 1 = some rejectDemoRental)
      (by decide) rfl).2.1 (by decide) (by decide)
  · exact (reject_decision_spec
      (rfl : findRental rejectDemoState 1 = some rejectDemoRental)
      (by decide) rfl).2.2 (by decide) (by decide)

/-! ## C3: the approve decision -/

/-- Setting one instance's status rewrites the lookup pointwise. -/
theorem findInstance_setInstanceStatus (s : EngineState) (j iid : Nat) (st : String) :
    findInstance (setInstanceStatus s j st) iid =
      (findInstance s iid).map
        (fun i => if i.toolInstanceID = j then { i with status := st } else i) := by
  unfold findInstance setInstanceStatus
  dsimp only
  rw [List.find?_map]
  have hp : ((fun i : ToolInstance => decide (i.toolInstanceID = iid)) ∘
      (fun i => if i.toolInstanceID = j then { i with status := st } else i)) =
      fun i : ToolInstance => decide (i.toolInstanceID = iid) := by
    funext i
    by_cases h : i.toolInstanceID = j
    · simp [Function.comp, h]
    · simp [Function.comp, h]
  rw [hp]

/-- Setting a status keeps every instance present. -/
theorem isSome_setInstanceStatus {s : EngineState} {iid : Nat} (j : Nat) (st : String)
    (h : (findInstance s iid).isSome) :
    (findInstance (setInstanceStatus s j st) iid).isSome := by
  obtain ⟨inst, hfind⟩ := Option.isSome_iff_exists.mp h
  rw [findInstance_setInstanceStatus, hfind]
  rfl

/-- Setting some instance `Reserved` keeps existing `Reserved` marks. -/
theorem reservedAt_setInstanceStatus {s : EngineState} {iid : Nat} (j : Nat)
    (h : reservedAt s iid) :
    reservedAt (setInstanceStatus s j "Reserved") iid := by
  obtain ⟨inst, hfind, hst⟩ := h
  rw [reservedAt, findInstance_setInstanceStatus, hfind]
  refine ⟨_, rfl, ?_⟩
  dsimp only
  by_cases hj : inst.toolInstanceID = j
  · rw [if_pos hj]
  · rw [if_neg hj]
    exact hst

/-- Setting an existing instance `Reserved` marks it `Reserved`. -/
theorem reservedAt_setInstanceStatus_self {s : EngineState} {iid : Nat}
    (h : (findInstance s iid).isSome) :
    reservedAt (setInstanceStatus s iid "Reserved") iid := by
  obtain ⟨inst, hfind⟩ := Option.isSome_iff_exists.mp h
  have hii : inst.toolInstanceID = iid := by
    have := List.find?_some hfind
    simpa using this
  rw [reservedAt, findInstance_setInstanceStatus, hfind]
  refine ⟨_, rfl, ?_⟩
  dsimp only
  rw [if_pos hii]

/-- The inner bind loop of `_allocate_reservation_lines`: each id appends
one fresh quantity-1 bound `Reserved` line and marks the instance
`Reserved`; everything else about the rental is untouched. -/
theorem bindSelected_items (rid toolId : Nat) :
    ∀ (ids : List Nat) (s : EngineState) (r : Rental),
      findRental s rid = some r →
      (∀ iid ∈ ids, (findInstance s iid).isSome) →
      ∃ news : List RentalItem,
        findRental (bindSelected s rid toolId ids) rid =
          some { r with items := r.items ++ news } ∧
        (bindSelected s rid toolId ids).nextItemID = s.nextItemID + ids.length ∧
        news.length = ids.length ∧
        (∀ n ∈ news, s.nextItemID ≤ n.rentalItemID ∧ n.toolID = toolId ∧
          n.quantity = 1 ∧ n.state = "Reserved" ∧ n.deficit = false ∧
          ∃ iid ∈ ids, n.toolInstanceID = some iid ∧
            reservedAt (bindSelected s rid toolId ids) iid) ∧
        (∀ j, (findInstance s j).isSome →
          (findInstance (bindSelected s rid toolId ids) j).isSome) ∧
        (∀ j, reservedAt s j → reservedAt (bindSelected s rid toolId ids) j) := by
  intro ids
  induction ids with
  | nil =>
    intro s r hf _
    refine ⟨[], ?_, rfl, rfl, ?_, fun j h => h, fun j h => h⟩
    · rw [List.append_nil]
      exact hf
    · intro n hn
      exact absurd hn (List.not_mem_nil n)
  | cons iid rest ih =>
    intro s r hf hex
    obtain ⟨item, hitem⟩ : ∃ item : RentalItem, item =
        { rentalItemID := (setInstanceStatus s iid "Reserved").nextItemID, toolID := toolId,
          toolInstanceID := some iid, quantity := 1,
          dailyCost := some (resolveToolDailyCost r.items toolId), totalCost := none,
          state := "Reserved", deficit := false } := ⟨_, rfl⟩
    have hs' : bindReservedInstance s rid toolId iid =
        addItem (setInstanceStatus s iid "Reserved") rid item := by
      unfold bindReservedInstance
      rw [hf]
      dsimp only
      rw [← hitem]
    have hf0 : findRental (setInstanceStatus s iid "Reserved") rid = some r := hf
    have hf' : findRental (bindReservedInstance s rid toolId iid) rid =
        some { r with items := r.items ++ [item] } := by
      rw [hs']
      exact findRental_addItem item hf0
    have hex' : ∀ j ∈ rest, (findInstance (bindReservedInstance s rid toolId iid) j).isSome := by
      intro j hj
      rw [hs']
      exact isSome_setInstanceStatus iid "Reserved" (hex j (List.mem_cons_of_mem _ hj))
    have hresv : reservedAt (bindReservedInstance s rid toolId iid) iid := by
      rw [hs']
      exact reservedAt_setInstanceStatus_self (hex iid (List.mem_cons_self _ _))
    obtain ⟨news', hfind2, hnext2, hlen2, hprops2, hexm2, hresm2⟩ :=
      ih (bindReservedInstance s rid toolId iid) { r with items := r.items ++ [item] } hf' hex'
    have hunf : bindSelected s rid toolId (iid :: rest) =
        bindSelected (bindReservedInstance s rid toolId iid) rid toolId rest := rfl
    have hnid : (bindReservedInstance s rid toolId iid).nextItemID = s.nextItemID + 1 := by
      rw [hs']
      rfl
    refine ⟨item :: news', ?_, ?_, ?_, ?_, ?_, ?_⟩
    · rw [hunf]
      have hco : ({ r with items := r.items ++ (item :: news') } : Rental) =
          { { r with items := r.items ++ [item] } with
            items := (r.items ++ [item]) ++ news' } := by
        rw [List.append_cons]
      rw [hco]
      exact hfind2
    · rw [hunf, hnext2, hnid, List.length_cons]
      omega
    · rw [List.length_cons, hlen2, List.length_cons]
    · intro n hn
      rcases List.mem_cons.mp hn with hni | hnr
      · subst hni
        refine ⟨?_, by rw [hitem], by rw [hitem], by rw [hitem], by rw [hitem],
          iid, List.mem_cons_self _ _, by rw [hitem], ?_⟩
        · rw [hitem]
          exact le_refl _
        · rw [hunf]
          exact hresm2 iid hresv
      · obtain ⟨h1, h2, h3, h4, h5, iid', hiid', h6, h7⟩ := hprops2 n hnr
        refine ⟨?_, h2, h3, h4, h5, iid', List.mem_cons_of_mem _ hiid', h6, ?_⟩
        · calc s.nextItemID ≤ s.nextItemID + 1 := by omega
            _ = (bindReservedInstance s rid toolId iid).nextItemID := hnid.symm
            _ ≤ n.rentalItemID := h1
        · rw [hunf]
          exact h7
    · intro j hj
      rw [hunf]
      refine hexm2 j ?_
      rw [hs']
      exact isSome_setInstanceStatus iid "Reserved" hj
    · intro j hj
      rw [hunf]
      refine hresm2 j ?_
      rw [hs']
      exact reservedAt_setInstanceStatus iid hj

/-- One tool's allocation turn: it appends fresh quantity-1 bound `Reserved`
lines (marking their instances `Reserved`) plus, for any unmet quantity, one
unbound deficit line in `Pending Pickup`; bound count plus deficit quantity
equals the requested quantity, and no error path exists. -/
theorem allocateTool_items (rid toolId : Nat) (qty : Int) (s : EngineState) (r : Rental)
    (hf : findRental s rid = some r) :
    ∃ news : List RentalItem,
      findRental (allocateTool s rid toolId qty) rid =
        some { r with items := r.items ++ news } ∧
      s.nextItemID ≤ (allocateTool s rid toolId qty).nextItemID ∧
      (∀ n ∈ news, s.nextItemID ≤ n.rentalItemID ∧ n.toolID = toolId ∧
        ((n.deficit = false ∧ n.quantity = 1 ∧ n.state = "Reserved" ∧
          ∃ iid, n.toolInstanceID = some iid ∧
            reservedAt (allocateTool s rid toolId qty) iid) ∨
         (n.deficit = true ∧ n.toolInstanceID = none ∧ n.state = "Pending Pickup" ∧
          0 < n.quantity))) ∧
      (0 < qty → ((news.filter (fun n => n.deficit = false)).length : Int) +
        ((news.filter (fun n => n.deficit = true)).map (fun n => n.quantity)).sum = qty) ∧
      (¬ 0 < qty → news = []) ∧
      (∀ j, (findInstance s j).isSome → (findInstance (allocateTool s rid toolId qty) j).isSome) ∧
      (∀ j, reservedAt s j → reservedAt (allocateTool s rid toolId qty) j) := by
  unfold allocateTool
  by_cases hq : qty ≤ 0
  · rw [if_pos hq]
    refine ⟨[], ?_, le_refl _, ?_, ?_, fun _ => rfl, fun j h => h, fun j h => h⟩
    · rw [List.append_nil]
      exact hf
    · intro n hn
      exact absurd hn (List.not_mem_nil n)
    · intro hlt
      exact absurd hlt (by omega)
  · rw [if_neg hq]
    rw [hf]
    dsimp only
    obtain ⟨sel, hsel⟩ : ∃ x : List Nat, x = List.take qty.toNat
        (rankInstancesForAllocation s toolId
          ((getAvailableInstances s toolId r.startDate r.endDate []).map
            (fun i => i.toolInstanceID))) := ⟨_, rfl⟩
    rw [← hsel]
    have hqpos : 0 < qty := by omega
    have hexist : ∀ iid ∈ sel, (findInstance s iid).isSome := by
      intro iid hiid
      rw [hsel] at hiid
      have hr1 : iid ∈ rankInstancesForAllocation s toolId
          ((getAvailableInstances s toolId r.startDate r.endDate []).map
            (fun i => i.toolInstanceID)) := List.take_subset _ _ hiid
      have hr2 := mem_ranked hr1
      obtain ⟨inst, hinst, hid⟩ := List.mem_map.mp hr2
      have hmem := (mem_avail_spec hinst).1
      unfold findInstance
      exact List.find?_isSome.mpr ⟨inst, hmem, by simpa using hid⟩
    have hlensel : (sel.length : Int) ≤ qty := by
      have h1 : sel.length ≤ qty.toNat := by
        rw [hsel]
        exact (List.length_take _ _).le.trans (min_le_left _ _)
      calc (sel.length : Int) ≤ (qty.toNat : Int) := by exact_mod_cast h1
        _ = qty := Int.toNat_of_nonneg (by omega)
    obtain ⟨news_b, hfb, hnb, hlenb, hpb, hexb, hresb⟩ :=
      bindSelected_items rid toolId sel s r hf hexist
    by_cases hsh : 0 < max 0 (qty - (sel.length : Int))
    · rw [if_pos hsh]
      have hshq : max 0 (qty - (sel.length : Int)) = qty - (sel.length : Int) := by omega
      obtain ⟨ditem, hditem⟩ : ∃ d : RentalItem, d =
          { rentalItemID := (bindSelected s rid toolId sel).nextItemID, toolID := toolId,
            toolInstanceID := none, quantity := max 0 (qty - (sel.length : Int)),
            dailyCost := some (resolveToolDailyCost
              ({ r with items := r.items ++ news_b } : Rental).items toolId),
            totalCost := none, state := "Pending Pickup", deficit := true } := ⟨_, rfl⟩
      have hsl : addShortageLine (bindSelected s rid toolId sel) rid toolId
          (max 0 (qty - (sel.length : Int))) =
          addItem (bindSelected s rid toolId sel) rid ditem := by
        unfold addShortageLine
        rw [hfb]
        dsimp only
        rw [← hditem]
      have hfinal : findRental (addShortageLine (bindSelected s rid toolId sel) rid toolId
          (max 0 (qty - (sel.length : Int)))) rid =
          some { r with items := r.items ++ (news_b ++ [ditem]) } := by
        rw [hsl]
        have h2 := findRental_addItem ditem hfb
        have hco : ({ { r with items := r.items ++ news_b } with
            items := (r.items ++ news_b) ++ [ditem] } : Rental) =
            { r with items := r.items ++ (news_b ++ [ditem]) } := by
          rw [List.append_assoc]
        rw [hco] at h2
        exact h2
      refine ⟨news_b ++ [ditem], hfinal, ?_, ?_, ?_, ?_, ?_, ?_⟩
      · rw [hsl]
        show s.nextItemID ≤ (bindSelected s rid toolId sel).nextItemID + 1
        rw [hnb]
        omega
      · intro n hn
        rcases List.mem_append.mp hn with hn1 | hn2
        · obtain ⟨hh1, hh2, hh3, hh4, hh5, iid, _, hh6, hh7⟩ := hpb n hn1
          refine ⟨hh1, hh2, Or.inl ⟨hh5, hh3, hh4, iid, hh6, ?_⟩⟩
          rw [hsl]
          exact hh7
        · have hnd : n = ditem := by simpa using hn2
          subst hnd
          refine ⟨?_, by rw [hditem], Or.inr ⟨by rw [hditem], by rw [hditem],
            by rw [hditem], ?_⟩⟩
          · rw [hditem]
            show s.nextItemID ≤ (bindSelected s rid toolId sel).nextItemID
            rw [hnb]
            omega
          · rw [hditem]
            show 0 < max 0 (qty - (sel.length : Int))
            exact hsh
      · intro _
        have hff : (news_b ++ [ditem]).filter (fun n => n.deficit = false) = news_b := by
          rw [List.filter_append]
          have h1 : news_b.filter (fun n => n.deficit = false) = news_b :=
            List.filter_eq_self.mpr (fun n hn => by
              simp [(hpb n hn).2.2.2.2.1])
          have h2 : ([ditem] : List RentalItem).filter (fun n => n.deficit = false) = [] := by
            rw [hditem]
            rfl
          rw [h1, h2, List.append_nil]
        have hft : (news_b ++ [ditem]).filter (fun n => n.deficit = true) = [ditem] := by
          rw [List.filter_append]
          have h1 : news_b.filter (fun n => n.deficit = true) = [] :=
            List.filter_eq_nil.mpr (fun n hn => by
              simp [(hpb n hn).2.2.2.2.1])
          have h2 : ([ditem] : List RentalItem).filter (fun n => n.deficit = true) = [ditem] := by
            rw [hditem]
            rfl
          rw [h1, h2, List.nil_append]
        rw [hff, hft, hlenb]
        have hdq : ditem.quantity = qty - (sel.length : Int) := by
          rw [hditem]
          show max 0 (qty - (sel.length : Int)) = qty - (sel.length : Int)
          exact hshq
        rw [List.map_cons, List.map_nil, List.sum_cons, List.sum_nil, hdq]
        omega
      · intro hlt
        exact absurd hqpos hlt
      · intro j hj
        rw [hsl]
        exact hexb j hj
      · intro j hj
        rw [hsl]
        exact hresb j hj
    · rw [if_neg hsh]
      have hlen_eq : (sel.length : Int) = qty := by omega
      refine ⟨news_b, hfb, ?_, ?_, ?_, ?_, hexb, hresb⟩
      · rw [hnb]
        omega
      · intro n hn
        obtain ⟨hh1, hh2, hh3, hh4, hh5, iid, _, hh6, hh7⟩ := hpb n hn
        exact ⟨hh1, hh2, Or.inl ⟨hh5, hh3, hh4, iid, hh6, hh7⟩⟩
      · intro _
        have hff : news_b.filter (fun n => n.deficit = false) = news_b :=
          List.filter_eq_self.mpr (fun n hn => by
            simp [(hpb n hn).2.2.2.2.1])
        have hft : news_b.filter (fun n => n.deficit = true) = [] :=
          List.filter_eq_nil.mpr (fun n hn => by
            simp [(hpb n hn).2.2.2.2.1])
        rw [hff, hft, hlenb, List.map_nil, List.sum_nil, hlen_eq]
        omega
      · intro hlt
        exact absurd hqpos hlt

/-- The dict-key fold keeps keys unique and loses no input key. -/
theorem dedupFirst_aux :
    ∀ (l acc : List Nat), acc.Nodup →
      (l.foldl (fun acc t => if acc.contains t then acc else acc ++ [t]) acc).Nodup ∧
      (∀ x, (x ∈ acc ∨ x ∈ l) →
        x ∈ l.foldl (fun acc t => if acc.contains t then acc else acc ++ [t]) acc) := by
  intro l
  induction l with
  | nil =>
    intro acc hnd
    exact ⟨hnd, fun x hx => hx.elim id (fun hx => absurd hx (List.not_mem_nil x))⟩
  | cons t rest ih =>
    intro acc hnd
    rw [List.foldl_cons]
    by_cases hc : acc.contains t = true
    · rw [if_pos hc]
      have hmem : t ∈ acc := by simpa using hc
      obtain ⟨h1, h2⟩ := ih acc hnd
      refine ⟨h1, fun x hx => ?_⟩
      rcases hx with hx | hx
      · exact h2 x (Or.inl hx)
      · rcases List.mem_cons.mp hx with hx | hx
        · subst hx
          exact h2 x (Or.inl hmem)
        · exact h2 x (Or.inr hx)
    · rw [if_neg hc]
      have hnotmem : t ∉ acc := by simpa using hc
      have hnd' : (acc ++ [t]).Nodup := by
        rw [List.nodup_append]
        exact ⟨hnd, List.nodup_singleton t, fun x hx hx' => by
          have : x = t := by simpa using hx'
          exact hnotmem (this ▸ hx)⟩
      obtain ⟨h1, h2⟩ := ih (acc ++ [t]) hnd'
      refine ⟨h1, fun x hx => ?_⟩
      rcases hx with hx | hx
      · exact h2 x (Or.inl (List.mem_append_left _ hx))
      · rcases List.mem_cons.mp hx with hx | hx
        · subst hx
          exact h2 x (Or.inl (List.mem_append_right _ (List.mem_singleton_self x)))
        · exact h2 x (Or.inr hx)

/-- First-occurrence dict keys are duplicate free. -/
theorem dedupFirst_nodup (l : List Nat) : (dedupFirst l).Nodup :=
  (dedupFirst_aux l [] List.nodup_nil).1

/-- Every input key survives the first-occurrence dedup. -/
theorem mem_dedupFirst {l : List Nat} {x : Nat} (h : x ∈ l) : x ∈ dedupFirst l :=
  (dedupFirst_aux l [] List.nodup_nil).2 x (Or.inr h)

/-- The per-tool allocation fold: news lines are exactly fresh bound
`Reserved` quantity-1 lines (instances marked `Reserved`) and unbound
`Pending Pickup` deficit lines, with per-tool accounting. -/
theorem allocFold_items (rid : Nat) (qtyOf : Nat → Int) :
    ∀ (tools : List Nat) (s : EngineState) (r : Rental),
      findRental s rid = some r → tools.Nodup →
      ∃ news : List RentalItem,
        findRental (tools.foldl (fun sAcc t => allocateTool sAcc rid t (qtyOf t)) s) rid =
          some { r with items := r.items ++ news } ∧
        s.nextItemID ≤
          (tools.foldl (fun sAcc t => allocateTool sAcc rid t (qtyOf t)) s).nextItemID ∧
        (∀ n ∈ news, s.nextItemID ≤ n.rentalItemID ∧ n.toolID ∈ tools ∧
          ((n.deficit = false ∧ n.quantity = 1 ∧ n.state = "Reserved" ∧
            ∃ iid, n.toolInstanceID = some iid ∧
              reservedAt
                (tools.foldl (fun sAcc t => allocateTool sAcc rid t (qtyOf t)) s) iid) ∨
           (n.deficit = true ∧ n.toolInstanceID = none ∧ n.state = "Pending Pickup" ∧
            0 < n.quantity))) ∧
        (∀ t ∈ tools, 0 < qtyOf t →
          ((news.filter (fun n => n.toolID = t ∧ n.deficit = false)).length : Int) +
          ((news.filter (fun n => n.toolID = t ∧ n.deficit = true)).map
            (fun n => n.quantity)).sum = qtyOf t) ∧
        (∀ j, reservedAt s j →
          reservedAt (tools.foldl (fun sAcc t => allocateTool sAcc rid t (qtyOf t)) s) j) := by
  intro tools
  induction tools with
  | nil =>
    intro s r hf _
    refine ⟨[], ?_, le_refl _, ?_, ?_, fun j h => h⟩
    · rw [List.append_nil]
      exact hf
    · intro n hn
      exact absurd hn (List.not_mem_nil n)
    · intro t ht
      exact absurd ht (List.not_mem_nil t)
  | cons t rest ih =>
    intro s r hf hnd
    rw [List.foldl_cons]
    have htnotin : t ∉ rest := (List.nodup_cons.mp hnd).1
    obtain ⟨news_t, hft, hnt, hpt, hat, _, _, hresmt⟩ :=
      allocateTool_items rid t (qtyOf t) s r hf
    obtain ⟨news_r, hfr, hnr, hpr, har, hresr⟩ :=
      ih (allocateTool s rid t (qtyOf t)) { r with items := r.items ++ news_t } hft
        (List.nodup_cons.mp hnd).2
    have hco : ({ { r with items := r.items ++ news_t } with
        items := (r.items ++ news_t) ++ news_r } : Rental) =
        { r with items := r.items ++ (news_t ++ news_r) } := by
      rw [List.append_assoc]
    refine ⟨news_t ++ news_r, by rw [← hco]; exact hfr, hnt.trans hnr, ?_, ?_, ?_⟩
    · intro n hn
      rcases List.mem_append.mp hn with hn1 | hn2
      · obtain ⟨hh1, hh2, hh3⟩ := hpt n hn1
        refine ⟨hh1, by rw [hh2]; exact List.mem_cons_self _ _, ?_⟩
        rcases hh3 with ⟨hb1, hb2, hb3, iid, hb4, hb5⟩ | hd
        · exact Or.inl ⟨hb1, hb2, hb3, iid, hb4, hresr iid hb5⟩
        · exact Or.inr hd
      · obtain ⟨hh1, hh2, hh3⟩ := hpr n hn2
        exact ⟨hnt.trans hh1, List.mem_cons_of_mem _ hh2, hh3⟩
    · intro t' ht' hq'
      rcases List.mem_cons.mp ht' with ht'' | ht''
      · subst ht''
        have hrf : news_r.filter (fun n => n.toolID = t' ∧ n.deficit = false) = [] :=
          List.filter_eq_nil.mpr (fun n hn => by
        rcases h : hpr n hn with ⟨_, hmem, _⟩
        simp
        intro hcon
        exact absurd (hcon ▸ hmem) htnotin)
        have hrt : news_r.filter (fun n => n.toolID = t' ∧ n.deficit = true) = [] :=
          List.filter_eq_nil.mpr (fun n hn => by
        rcases h : hpr n hn with ⟨_, hmem, _⟩
        simp
        intro hcon
        exact absurd (hcon ▸ hmem) htnotin)
        have htf : news_t.filter (fun n => n.toolID = t' ∧ n.deficit = false) =
            news_t.filter (fun n => n.deficit = false) :=
          List.filter_congr (fun n hn => by simp [(hpt n hn).2.1])
        have htt : news_t.filter (fun n => n.toolID = t' ∧ n.deficit = true) =
            news_t.filter (fun n => n.deficit = true) :=
          List.filter_congr (fun n hn => by simp [(hpt n hn).2.1])
        rw [List.filter_append, List.filter_append, hrf, hrt, htf, htt,
          List.append_nil, List.append_nil]
        exact hat hq'
      · have htne : t' ≠ t := fun hcon => htnotin (hcon ▸ ht'')
        have htf : news_t.filter (fun n => n.toolID = t' ∧ n.deficit = false) = [] :=
          List.filter_eq_nil.mpr (fun n hn => by
        simp [(hpt n hn).2.1]
        intro hcon
        exact absurd hcon htne.symm)
        have htt : news_t.filter (fun n => n.toolID = t' ∧ n.deficit = true) = [] :=
          List.filter_eq_nil.mpr (fun n hn => by
        simp [(hpt n hn).2.1]
        intro hcon
        exact absurd hcon htne.symm)
        rw [List.filter_append, List.filter_append, htf, htt,
          List.nil_append, List.nil_append]
        exact har t' ht'' hq'
    · intro j hj
      exact hresr j (hresmt j hj)

/-- `_allocate_reservation_lines` end to end: the original request lines are
zeroed and marked `Superseded`, and the appended lines are exactly quantity-1
bound `Reserved` assignments (their instances marked `Reserved`) and unbound
`Pending Pickup` deficit lines; for every tool with outstanding requested
quantity, assigned count plus deficit quantity equals the request. -/
theorem allocateReservationLines_spec (rid : Nat) (s : EngineState) (r : Rental)
    (hf : findRental s rid = some r)
    (hndi : (r.items.map (fun l => l.rentalItemID)).Nodup)
    (hfresh : ∀ l ∈ r.items, l.rentalItemID < s.nextItemID) :
    ∃ news : List RentalItem,
      findRental (allocateReservationLines s rid) rid =
        some { r with items := r.items.map supersededLine ++ news } ∧
      (∀ n ∈ news,
        ((n.deficit = false ∧ n.quantity = 1 ∧ n.state = "Reserved" ∧
          ∃ iid, n.toolInstanceID = some iid ∧
            reservedAt (allocateReservationLines s rid) iid) ∨
         (n.deficit = true ∧ n.toolInstanceID = none ∧ n.state = "Pending Pickup" ∧
          0 < n.quantity))) ∧
      (∀ t, 0 < requestedQty r.items t →
        ((news.filter (fun n => n.toolID = t ∧ n.deficit = false)).length : Int) +
        ((news.filter (fun n => n.toolID = t ∧ n.deficit = true)).map
          (fun n => n.quantity)).sum = requestedQty r.items t) := by
  obtain ⟨s1, hs1⟩ : ∃ x : EngineState, x =
      (dedupFirst ((r.items.filter (fun l => 0 < l.quantity)).map (fun l => l.toolID))).foldl
        (fun sAcc t => allocateTool sAcc rid t
          ((((r.items.filter (fun l => 0 < l.quantity)).filter
            (fun l => l.toolID = t)).map (fun l => l.quantity)).sum)) s := ⟨_, rfl⟩
  have h4 := allocFold_items rid
    (fun t => (((r.items.filter (fun l => 0 < l.quantity)).filter
      (fun l => l.toolID = t)).map (fun l => l.quantity)).sum)
    (dedupFirst ((r.items.filter (fun l => 0 < l.quantity)).map (fun l => l.toolID)))
    s r hf (dedupFirst_nodup _)
  dsimp only at h4
  rw [← hs1] at h4
  obtain ⟨news, hfind1, hnext1, hprops1, hacct1, hresm1⟩ := h4
  have hA : r.items.map (fun l =>
      if ((r.items.filter (fun l2 => 0 < l2.quantity)).map
          (fun l2 => l2.rentalItemID)).contains l.rentalItemID then
        { l with quantity := 0, state := "Superseded" } else l) =
      r.items.map supersededLine := by
    refine List.map_congr_left (fun l hl => ?_)
    by_cases hql : 0 < l.quantity
    · have hmem : l.rentalItemID ∈ (r.items.filter (fun l2 => 0 < l2.quantity)).map
          (fun l2 => l2.rentalItemID) :=
        List.mem_map_of_mem _ (List.mem_filter.mpr ⟨hl, by simpa using hql⟩)
      rw [if_pos (by simpa using hmem)]
      unfold supersededLine
      rw [if_pos hql]
    · have hnc : ¬ (((r.items.filter (fun l2 => 0 < l2.quantity)).map
          (fun l2 => l2.rentalItemID)).contains l.rentalItemID = true) := by
        intro hcon
        have hcon' : l.rentalItemID ∈ (r.items.filter (fun l2 => 0 < l2.quantity)).map
            (fun l2 => l2.rentalItemID) := by simpa using hcon
        obtain ⟨l2, hl2, hid2⟩ := List.mem_map.mp hcon'
        have hl2mem : l2 ∈ r.items := (List.mem_filter.mp hl2).1
        have hq2 : 0 < l2.quantity := by simpa using (List.mem_filter.mp hl2).2
        have : l2 = l := List.inj_on_of_nodup_map hndi hl2mem hl hid2
        exact hql (this ▸ hq2)
      rw [if_neg hnc]
      unfold supersededLine
      rw [if_neg hql]
  have hB : news.map (fun l =>
      if ((r.items.filter (fun l2 => 0 < l2.quantity)).map
          (fun l2 => l2.rentalItemID)).contains l.rentalItemID then
        { l with quantity := 0, state := "Superseded" } else l) = news := by
    have hpt : ∀ n ∈ news, (fun l =>
        if ((r.items.filter (fun l2 => 0 < l2.quantity)).map
            (fun l2 => l2.rentalItemID)).contains l.rentalItemID then
          { l with quantity := 0, state := "Superseded" } else l) n = (fun n => n) n := by
      intro n hn
      have hfr := (hprops1 n hn).1
      have hnc : ¬ (((r.items.filter (fun l2 => 0 < l2.quantity)).map
          (fun l2 => l2.rentalItemID)).contains n.rentalItemID = true) := by
        intro hcon
        have hcon' : n.rentalItemID ∈ (r.items.filter (fun l2 => 0 < l2.quantity)).map
            (fun l2 => l2.rentalItemID) := by simpa using hcon
        obtain ⟨l2, hl2, hid2⟩ := List.mem_map.mp hcon'
        have hl2mem : l2 ∈ r.items := (List.mem_filter.mp hl2).1
        have := hfresh l2 hl2mem
        omega
      dsimp only
      rw [if_neg hnc]
    rw [List.map_congr_left hpt]
    exact List.map_id' news
  have hresfin : ∀ j, reservedAt s1 j → reservedAt (allocateReservationLines s rid) j := by
    intro j hj
    obtain ⟨inst, hfi, hst⟩ := hj
    refine ⟨inst, ?_, hst⟩
    unfold allocateReservationLines
    rw [hf]
    dsimp only
    rw [← hs1, hfind1]
    dsimp only
    exact hfi
  refine ⟨news, ?_, ?_, ?_⟩
  · unfold allocateReservationLines
    rw [hf]
    dsimp only
    rw [← hs1, hfind1]
    dsimp only
    rw [List.map_append, hA, hB]
    exact findRental_updateRentalIn hfind1
      (show r.rentalID = rid from findRental_rentalID hf)
  · intro n hn
    rcases (hprops1 n hn).2.2 with ⟨hb1, hb2, hb3, iid, hb4, hb5⟩ | hd
    · exact Or.inl ⟨hb1, hb2, hb3, iid, hb4, hresfin iid hb5⟩
    · exact Or.inr hd
  · intro t hq
    have hq' : 0 < (((r.items.filter (fun l => 0 < l.quantity)).filter
        (fun l => l.toolID = t)).map (fun l => l.quantity)).sum := by
      unfold requestedQty at hq
      exact hq
    have htmem : t ∈ dedupFirst ((r.items.filter (fun l => 0 < l.quantity)).map
        (fun l => l.toolID)) := by
      cases hfl : (r.items.filter (fun l => 0 < l.quantity)).filter
          (fun l => l.toolID = t) with
      | nil =>
        rw [hfl] at hq'
        simp at hq'
      | cons a as =>
        have hamem : a ∈ (r.items.filter (fun l => 0 < l.quantity)).filter
            (fun l => l.toolID = t) := by
          rw [hfl]
          exact List.mem_cons_self a as
        have h1 : a ∈ r.items.filter (fun l => 0 < l.quantity) :=
          (List.mem_filter.mp hamem).1
        have h2 : a.toolID = t := by simpa using (List.mem_filter.mp hamem).2
        exact mem_dedupFirst (List.mem_map.mpr ⟨a, h1, h2⟩)
    unfold requestedQty
    exact hacct1 t htmem hq'

/-- Cost recalculation rewrites only the cost fields of the lines. -/
theorem recalcTotalCost_lineView (r : Rental) :
    (recalcTotalCost r).items.map lineView = r.items.map lineView ∧
    (recalcTotalCost r).status = r.status := by
  unfold recalcTotalCost
  by_cases hc : r.items = []
  · rw [if_pos hc]
    exact ⟨rfl, rfl⟩
  · rw [if_neg hc]
    refine ⟨?_, rfl⟩
    dsimp only
    rw [List.map_map]
    exact List.map_congr_left (fun l _ => rfl)

/-- C3: the approve decision on a runtime-`Reserved` rental never fails: it
zeroes the original request lines and marks them `Superseded`, appends only
quantity-1 bound lines in lifecycle `Reserved` (whose instances are marked
`Reserved`) and unbound deficit lines in `Pending Pickup` flagged deficit,
balances assigned count plus deficit quantity against each outstanding
request, and leaves the rental's status `Reserved`. -/
theorem approve_decision_spec {s : EngineState} {rid : Nat} {rental0 base : Rental}
    {reason : Option String} {acts : List ShortageAction} {op : Option Nat} {today now : Int}
    (hf : findRental s rid = some rental0)
    (hres : (applyRuntimeState rental0 today now).status = "Reserved")
    (hbase : base = applyShortageActions
      { applyRuntimeState rental0 today now with
        approvalDate := some ((applyRuntimeState rental0 today now).approvalDate.getD today),
        approvedBy := op, updatedAt := now } acts)
    (hndi : (base.items.map (fun l => l.rentalItemID)).Nodup)
    (hfresh : ∀ l ∈ base.items, l.rentalItemID < s.nextItemID) :
    ∃ s', decideRental s rid "approve" reason acts op today now = Except.ok s' ∧
      ∃ (r' : Rental) (news : List RentalItem),
        findRental s' rid = some r' ∧
        r'.status = "Reserved" ∧
        r'.items.map lineView = (base.items.map supersededLine).map lineView ++
          news.map lineView ∧
        (∀ n ∈ news,
          (n.deficit = false ∧ n.quantity = 1 ∧ n.state = "Reserved" ∧
            ∃ iid, n.toolInstanceID = some iid ∧ reservedAt s' iid) ∨
          (n.deficit = true ∧ n.toolInstanceID = none ∧ n.state = "Pending Pickup" ∧
            0 < n.quantity)) ∧
        (∀ t, 0 < requestedQty base.items t →
          ((news.filter (fun n => n.toolID = t ∧ n.deficit = false)).length : Int) +
          ((news.filter (fun n => n.toolID = t ∧ n.deficit = true)).map
            (fun n => n.quantity)).sum = requestedQty base.items t) := by
  have hid0 : rental0.rentalID = rid := findRental_rentalID hf
  have hidb : base.rentalID = rid := by
    rw [hbase]
    exact (applyShortageActions_frame _ _).1.trans
      ((applyRuntimeState_frame rental0 today now).1.trans hid0)
  have hbst : base.status = "Reserved" := by
    rw [hbase]
    exact (applyShortageActions_frame _ _).2.2.2.1.trans hres
  unfold decideRental
  rw [hf]
  dsimp only
  rw [if_neg (fun hcon => hcon hres), if_neg (by decide : ¬ ("approve" = "reject"))]
  rw [← hbase]
  have hf1 : findRental (updateRentalIn s base) rid = some base :=
    findRental_updateRentalIn hf hidb
  have hfresh1 : ∀ l ∈ base.items, l.rentalItemID < (updateRentalIn s base).nextItemID :=
    hfresh
  obtain ⟨news, hfind2, hprops2, hacct2⟩ :=
    allocateReservationLines_spec rid (updateRentalIn s base) base hf1 hndi hfresh1
  obtain ⟨s2, hs2⟩ : ∃ x : EngineState,
      x = allocateReservationLines (updateRentalIn s base) rid := ⟨_, rfl⟩
  rw [← hs2] at hfind2 hprops2
  rw [← hs2]
  have hfind3 : findRental
      { s2 with notifications := s2.notifications ++ [⟨rid, "ReservationApproved"⟩] } rid =
      some { base with items := base.items.map supersededLine ++ news } := hfind2
  obtain ⟨s4, hs4⟩ : ∃ x : EngineState, x = recalcRentalIn
      { s2 with notifications := s2.notifications ++ [⟨rid, "ReservationApproved"⟩] } rid :=
    ⟨_, rfl⟩
  rw [← hs4]
  have hfind4 : findRental s4 rid =
      some (recalcTotalCost { base with items := base.items.map supersededLine ++ news }) := by
    rw [hs4]
    exact findRental_recalcRentalIn hfind3
  have hinst4 : s4.instances = s2.instances := by
    rw [hs4]
    unfold recalcRentalIn
    rw [hfind3]
    rfl
  refine ⟨_, rfl,
    recalcTotalCost { base with items := base.items.map supersededLine ++ news }, news,
    hfind4, ?_, ?_, ?_, hacct2⟩
  · exact (recalcTotalCost_lineView _).2.trans hbst
  · calc (recalcTotalCost
          { base with items := base.items.map supersededLine ++ news }).items.map lineView =
        (base.items.map supersededLine ++ news).map lineView :=
          (recalcTotalCost_lineView _).1
      _ = (base.items.map supersededLine).map lineView ++ news.map lineView :=
          List.map_append _ _ _
  · intro n hn
    rcases hprops2 n hn with ⟨hb1, hb2, hb3, iid, hb4, hb5⟩ | hd
    · refine Or.inl ⟨hb1, hb2, hb3, iid, hb4, ?_⟩
      obtain ⟨inst, hfi, hstt⟩ := hb5
      refine ⟨inst, ?_, hstt⟩
      show ({ s4 with audits := s4.audits ++ [⟨"Rental", rid, "ApproveReservation"⟩] } :
        EngineState).instances.find? (fun i => i.toolInstanceID = iid) = some inst
      show s4.instances.find? (fun i => i.toolInstanceID = iid) = some inst
      rw [hinst4]
      exact hfi
    · exact Or.inr hd

/-- Witness for C3: approving the two-unit request against one available
instance succeeds, binding the instance and recording a one-unit deficit. -/
theorem approve_decision_spec_witness :
    ((applyRuntimeState approveDemoRental 5 5).status = "Reserved") ∧
    (∃ s', decideRental approveDemoState 1 "approve" none [] none 5 5 = Except.ok s' ∧
      ∃ (r' : Rental) (news : List RentalItem),
        findRental s' 1 = some r' ∧
        r'.status = "Reserved" ∧
        r'.items.map lineView = (approveDemoBase.items.map supersededLine).map lineView ++
          news.map lineView ∧
        (∀ n ∈ news,
          (n.deficit = false ∧ n.quantity = 1 ∧ n.state = "Reserved" ∧
            ∃ iid, n.toolInstanceID = some iid ∧ reservedAt s' iid) ∨
          (n.deficit = true ∧ n.toolInstanceID = none ∧ n.state = "Pending Pickup" ∧
            0 < n.quantity)) ∧
        (∀ t, 0 < requestedQty approveDemoBase.items t →
          ((news.filter (fun n => n.toolID = t ∧ n.deficit = false)).length : Int) +
          ((news.filter (fun n => n.toolID = t ∧ n.deficit = true)).map
            (fun n => n.quantity)).sum = requestedQty approveDemoBase.items t)) := by
  refine ⟨by decide, ?_⟩
  exact @approve_decision_spec approveDemoState 1 approveDemoRental approveDemoBase
    none [] none 5 5 rfl (by decide) rfl (by decide) (by decide)

end AssetMan
